import Mathlib

/-!
# Lab procurement planner: cost display and override management

A shallow embedding of the parts of `static/script.js` that compute required
quantities and costs (`renderCommonItemCard`, `renderUniqueItemCard`,
`renderPreviewModal`, `savePreviewData`, `exportToExcel`), that mutate the two
override maps (`updateCustomQuantity`, `markAsUnique`, `markAsCommon`,
`toggleExperiment`) and that validate what the dialogs submit (`saveModalItem`,
`saveItem`, the trials of `saveExperiment`).

Numbers: a JavaScript number is modelled by `JsNum`, whose finite values are
exact rationals; `NaN` and the two infinities are kept, since `parseFloat` and
`Math.max()` can produce them.  Numbers that arrive in a JSON response are
finite and are modelled as `ℚ`.  The operators `+` and `*` of `JsNum` do not
round; where the rounding of binary64 decides a property (trial scaling), the
same source lines are read with `roundDouble`, `JsNum.addDouble` and
`JsNum.mulDouble`, which round every value to the nearest binary64 number.
-/

namespace LabProcurement

/-! ## JavaScript numbers -/

/-- A JavaScript number: NaN, the two infinities, or a finite value. -/
inductive JsNum where
  | nan : JsNum
  | negInf : JsNum
  | posInf : JsNum
  | fin (q : ℚ) : JsNum
  deriving DecidableEq

namespace JsNum

/-- The global function isNaN on a number. -/
def isNaN : JsNum → Bool
  | nan => true
  | _ => false

/-- An infinity with the sign flipped when the finite factor is negative. -/
def scaleInf (pos : Bool) (q : ℚ) : JsNum :=
  if q = 0 then nan else if decide (0 < q) = pos then posInf else negInf

/-- The operator + on numbers, exact on finite values (JsNum.addDouble is the
sum rounded to binary64). -/
def add : JsNum → JsNum → JsNum
  | nan, _ => nan
  | _, nan => nan
  | posInf, negInf => nan
  | negInf, posInf => nan
  | posInf, _ => posInf
  | _, posInf => posInf
  | negInf, _ => negInf
  | _, negInf => negInf
  | fin a, fin b => fin (a + b)

/-- The operator * on numbers, exact on finite values (JsNum.mulDouble is the
product rounded to binary64). -/
def mul : JsNum → JsNum → JsNum
  | nan, _ => nan
  | _, nan => nan
  | posInf, posInf => posInf
  | posInf, negInf => negInf
  | negInf, posInf => negInf
  | negInf, negInf => posInf
  | posInf, fin b => scaleInf true b
  | negInf, fin b => scaleInf false b
  | fin a, posInf => scaleInf true a
  | fin a, negInf => scaleInf false a
  | fin a, fin b => fin (a * b)

instance : Add JsNum := ⟨add⟩
instance : Mul JsNum := ⟨mul⟩

/-- The operator < on numbers (false as soon as one side is NaN). -/
def lt : JsNum → JsNum → Bool
  | nan, _ => false
  | _, nan => false
  | _, negInf => false
  | negInf, _ => true
  | posInf, _ => false
  | fin _, posInf => true
  | fin a, fin b => decide (a < b)

/-- The operator <= on numbers (false as soon as one side is NaN). -/
def le : JsNum → JsNum → Bool
  | nan, _ => false
  | _, nan => false
  | negInf, _ => true
  | _, posInf => true
  | posInf, _ => false
  | fin _, negInf => false
  | fin a, fin b => decide (a ≤ b)

/-- The operator > on numbers. -/
def gt (a b : JsNum) : Bool := lt b a

/-- The operator >= on numbers. -/
def ge (a b : JsNum) : Bool := le b a

/-- Math.max of two numbers: NaN if either is NaN, else the larger. -/
def max2 : JsNum → JsNum → JsNum
  | nan, _ => nan
  | _, nan => nan
  | a, b => if lt a b then b else a

/-- Math.max applied to a spread array; the empty spread gives -Infinity. -/
def mathMax (xs : List JsNum) : JsNum := xs.foldl max2 negInf

/-- A JSON field read as a number in arithmetic: a missing field (undefined)
becomes NaN. -/
def ofField : Option ℚ → JsNum
  | some q => fin q
  | none => nan

/-- The operator !== between two numbers: NaN differs from everything. -/
def strictNe (a b : JsNum) : Bool :=
  a.isNaN || b.isNaN || decide (a ≠ b)

end JsNum

/-! ## JavaScript `Map` with string keys -/

/-- A JavaScript Map keyed by strings, as its entries in insertion order. -/
structure JsMap (β : Type) where
  entries : List (String × β)
  deriving DecidableEq

namespace JsMap

variable {β : Type}

/-- The result of new Map(). -/
def empty : JsMap β := ⟨[]⟩

/-- Map.prototype.get; none stands for undefined. -/
def get (m : JsMap β) (k : String) : Option β :=
  (m.entries.find? (fun p => p.1 == k)).map Prod.snd

/-- Map.prototype.has. -/
def has (m : JsMap β) (k : String) : Bool :=
  m.entries.any (fun p => p.1 == k)

/-- Map.prototype.set: an existing key keeps its position, a new key goes last. -/
def set (m : JsMap β) (k : String) (v : β) : JsMap β :=
  if m.has k then ⟨m.entries.map (fun p => if p.1 == k then (k, v) else p)⟩
  else ⟨m.entries ++ [(k, v)]⟩

/-- Map.prototype.delete. -/
def delete (m : JsMap β) (k : String) : JsMap β :=
  ⟨m.entries.filter (fun p => !(p.1 == k))⟩

end JsMap

/-! ## The response of `/api/calculate` as the client reads it -/

/-- One element of item.experiments: the usage of an item in one experiment. -/
structure ExpUsage where
  exp_name : String
  quantity : ℚ
  trials : ℚ
  deriving DecidableEq

/-- An element of results.common_items or results.unique_items.  The two
quantity fields are optional because updateCustomQuantity reads
required_quantity with a fallback. -/
structure ResultItem where
  id : String
  name : String
  category : String
  unit : String
  price : ℚ
  experiments : List ExpUsage
  total_quantity : Option ℚ := none
  required_quantity : Option ℚ := none
  total_cost : ℚ := 0
  deriving DecidableEq

/-- The JSON object stored in state.currentResults. -/
structure Results where
  selected_count : ℕ
  total_cost : ℚ
  common_items : List ResultItem
  unique_items : List ResultItem
  deriving DecidableEq

/-- The body of the POST request calculateCosts sends. -/
structure CalcRequest where
  experiment_ids : List String
  item_usage_type : JsMap String
  item_custom_quantity : JsMap JsNum
  deriving DecidableEq

/-- The object itemData both item dialogs build from the form fields. -/
structure ItemData where
  name : String
  quantity : JsNum
  unit : String
  price : JsNum
  category : String
  deriving DecidableEq

/-- Observable actions of the handlers, in the order they happen. -/
inductive Effect where
  | consoleLog : Effect
  | consoleError : Effect
  | fetchCalculate (body : CalcRequest) : Effect
  | renderResultsPanel (results : Option Results) : Effect
  | renderExperiments : Effect
  | showError : Effect
  | alert : Effect
  | confirm : Effect
  | typeError : Effect
  | renderModalItems : Effect
  | closeModal : Effect
  | addItemRequest (expId : String) (itemData : ItemData) : Effect
  | updateItemRequest (expId itemId : String) (itemData : ItemData) : Effect
  | removeLoginStorage : Effect
  | clearPanels : Effect
  | logoutRequest : Effect
  | showLoginModal : Effect
  | showModal : Effect
  deriving DecidableEq

/-- A line item of an experiment as loaded into state.experiments. -/
structure ExpItem where
  id : String
  name : String
  quantity : ℚ
  unit : String
  price : ℚ
  category : String
  deriving DecidableEq

/-- An element of state.experiments. -/
structure ClientExperiment where
  id : String
  name : String
  category : String := ""
  trials : ℚ := 1
  grade : List ℕ := []
  items : List ExpItem := []
  deriving DecidableEq

/-- An element of state.modalItems; the id is undefined when the element was
built by spreading a missing element. -/
structure ModalItem where
  id : Option String
  name : String
  quantity : JsNum
  unit : String
  price : JsNum
  category : String
  deriving DecidableEq

/-- The object state.editingItemData; itemId is null while adding. -/
structure EditingItemData where
  expId : String
  itemId : Option String
  deriving DecidableEq

/-- The global object loginState. -/
structure LoginState where
  isLoggedIn : Bool := false
  username : Option String := none
  selectedSubject : Option String := none
  allowedSubject : Option String := none
  deriving DecidableEq

/-- An element of state.categories. -/
structure CategoryEntry where
  name : String
  subject : String
  deriving DecidableEq

/-- An element of the global array itemsCache. -/
structure CacheItem where
  id : String
  name : String
  unit : String
  price : ℚ
  category : String
  deriving DecidableEq

/-- The part of the global state object the handlers below read or write,
with the trace of their observable actions.  The array state.modalItems is a
list of slots (none is a hole of a sparse array); modalItemsNullKey is the
property "null" an assignment through a null index leaves on that array.  The
globals loginState and itemsCache are carried along as fields. -/
structure State where
  selectedExperiments : List String := []
  itemUsageType : JsMap String := JsMap.empty
  itemCustomQuantity : JsMap JsNum := JsMap.empty
  currentResults : Option Results := none
  effects : List Effect := []
  experiments : List ClientExperiment := []
  editingItemData : Option EditingItemData := none
  modalItems : List (Option ModalItem) := []
  modalItemsNullKey : Option ModalItem := none
  modalEditingItemIndex : Option ℕ := none
  editingExperimentId : Option String := none
  categories : List CategoryEntry := []
  filteredExperiments : List ClientExperiment := []
  currentSubjectFilter : String := ""
  currentCategoryFilter : String := ""
  currentGradeFilter : String := ""
  loginState : LoginState := {}
  itemsCache : List CacheItem := []
  deriving DecidableEq

/-! ## Item cards -/

/-- The values renderCommonItemCard computes and interpolates into the card. -/
structure CommonCard where
  perExperimentQty : List JsNum
  requiredQty : JsNum
  displayQty : JsNum
  displayCost : JsNum
  isCustom : Bool
  categoryDisplay : String
  buyingExtra : Bool
  lessThanRequired : Bool
  deriving DecidableEq

/-- The per-experiment quantity of the usage display, shared by both cards:
the raw quantity for equipment, quantity * trials otherwise. -/
def usageQty (category : String) (e : ExpUsage) : JsNum :=
  if category = "non_consumable" then JsNum.fin e.quantity
  else if category = "packing" then JsNum.fin e.quantity * JsNum.fin e.trials
  else JsNum.fin e.quantity * JsNum.fin e.trials

/-- The reduce call summing quantity * trials over the usage entries. -/
def sumScaled (experiments : List ExpUsage) : JsNum :=
  experiments.foldl (fun sum e => sum + JsNum.fin e.quantity * JsNum.fin e.trials) (JsNum.fin 0)

/-- The reduce call summing the raw quantity over the usage entries. -/
def sumRaw (experiments : List ExpUsage) : JsNum :=
  experiments.foldl (fun sum e => sum + JsNum.fin e.quantity) (JsNum.fin 0)

/-- The category label both cards display. -/
def categoryDisplay (category : String) : String :=
  let d0 := "Consumable"
  let d1 := if category = "non_consumable" then "Equipment" else d0
  if category = "packing" then "Packing Material" else d1

/-- The function renderCommonItemCard: required quantity by category, the
custom quantity looked up under item.id, and the cost of what is displayed. -/
def renderCommonItemCard (st : State) (item : ResultItem) : CommonCard :=
  let isEquipment := decide (item.category = "non_consumable")
  let isPacking := decide (item.category = "packing")
  let requiredQty :=
    if isEquipment then JsNum.mathMax (item.experiments.map (fun e => JsNum.fin e.quantity))
    else if isPacking then sumScaled item.experiments
    else sumScaled item.experiments
  let customQty := st.itemCustomQuantity.get item.id
  let displayQty := match customQty with
    | some c => c
    | none => requiredQty
  let displayCost := displayQty * JsNum.fin item.price
  { perExperimentQty := item.experiments.map (usageQty item.category)
    requiredQty := requiredQty
    displayQty := displayQty
    displayCost := displayCost
    isCustom := customQty.isSome
    categoryDisplay := categoryDisplay item.category
    buyingExtra := JsNum.gt displayQty requiredQty
    lessThanRequired := !(JsNum.gt displayQty requiredQty) && JsNum.lt displayQty requiredQty }

/-- The values renderUniqueItemCard computes and interpolates into the card. -/
structure UniqueCard where
  perExperimentQty : List JsNum
  totalQty : JsNum
  totalCost : JsNum
  hasMultipleExps : Bool
  categoryDisplay : String
  deriving DecidableEq

/-- The function renderUniqueItemCard: it reads nothing but its argument. -/
def renderUniqueItemCard (item : ResultItem) : UniqueCard :=
  let isEquipment := decide (item.category = "non_consumable")
  let isPacking := decide (item.category = "packing")
  let totalQty :=
    if isEquipment then sumRaw item.experiments
    else if isPacking then sumScaled item.experiments
    else sumScaled item.experiments
  { perExperimentQty := item.experiments.map (usageQty item.category)
    totalQty := totalQty
    totalCost := totalQty * JsNum.fin item.price
    hasMultipleExps := decide (item.experiments.length > 1)
    categoryDisplay := categoryDisplay item.category }

/-- The cards renderResultsPanel produces for a non-null result. -/
structure ResultsPanel where
  commonCards : List CommonCard
  uniqueCards : List UniqueCard
  deriving DecidableEq

/-- The function renderResultsPanel; none is the "Select experiments" placeholder. -/
def renderResultsPanel (st : State) (results : Option Results) : Option ResultsPanel :=
  match results with
  | none => none
  | some r =>
    some { commonCards := r.common_items.map (renderCommonItemCard st)
           uniqueCards := r.unique_items.map renderUniqueItemCard }

/-! ## Handlers -/

/-- The backing service behind `/api/calculate`, which is not part of the
script: none stands for a failed request or a response that is not ok (a 401
response also resets the login state, which is outside State). -/
abbrev Server := CalcRequest → Option Results

/-- The request body calculateCosts builds from the state. -/
def calcRequestOf (st : State) : CalcRequest :=
  { experiment_ids := st.selectedExperiments
    item_usage_type := st.itemUsageType
    item_custom_quantity := st.itemCustomQuantity }

/-- The function calculateCosts, with the awaited response taken at once:
with an empty selection it only renders the placeholder; otherwise it posts
the selection and both override maps and stores the response. -/
def calculateCosts (server : Server) (st : State) : State :=
  if st.selectedExperiments.length = 0 then
    { st with effects := st.effects ++ [Effect.renderResultsPanel none] }
  else
    match server (calcRequestOf st) with
    | some r =>
      { st with
        currentResults := some r
        effects := st.effects ++
          [Effect.fetchCalculate (calcRequestOf st), Effect.renderResultsPanel (some r)] }
    | none =>
      { st with
        effects := st.effects ++
          [Effect.fetchCalculate (calcRequestOf st), Effect.consoleError, Effect.showError] }

/-- The expression a || b on two optional JSON numbers: a when it is truthy
(present and not zero), b otherwise. -/
def jsOr (a b : Option ℚ) : Option ℚ :=
  match a with
  | some x => if x = 0 then b else some x
  | none => b

/-- The expression qty !== requiredQty, where requiredQty may be undefined. -/
def strictNeField (qty : JsNum) (requiredQty : Option ℚ) : Bool :=
  match requiredQty with
  | some r => JsNum.strictNe qty (JsNum.fin r)
  | none => true

/-- The lookup state.currentResults?.common_items.find(item => item.id === itemId). -/
def findCommonItem (st : State) (itemId : String) : Option ResultItem :=
  match st.currentResults with
  | some r => r.common_items.find? (fun item => item.id == itemId)
  | none => none

/-- The local requiredQty of updateCustomQuantity. -/
def requiredQtyOf (commonItem : ResultItem) : Option ℚ :=
  jsOr commonItem.required_quantity commonItem.total_quantity

/-- The function updateCustomQuantity; parseFloat is the built-in, taken as a
parameter. -/
def updateCustomQuantity (parseFloat : String → JsNum) (server : Server) (st : State)
    (itemId value : String) : State :=
  let st0 := { st with effects := st.effects ++ [Effect.consoleLog] }
  let qty := parseFloat value
  if !qty.isNaN && qty.ge (JsNum.fin 0) then
    let st1 : State :=
      match findCommonItem st0 itemId with
      | some commonItem =>
        let requiredQty := requiredQtyOf commonItem
        if strictNeField qty requiredQty then
          { st0 with itemCustomQuantity := st0.itemCustomQuantity.set itemId qty }
        else
          { st0 with itemCustomQuantity := st0.itemCustomQuantity.delete itemId }
      | none =>
        { st0 with itemCustomQuantity := st0.itemCustomQuantity.set itemId qty }
    calculateCosts server st1
  else
    { st0 with effects := st0.effects ++ [Effect.consoleError] }

/-- The function markAsUnique. -/
def markAsUnique (server : Server) (st : State) (itemId : String) : State :=
  let st0 := { st with effects := st.effects ++ [Effect.consoleLog] }
  let st1 := { st0 with itemUsageType := st0.itemUsageType.set itemId "unique" }
  let st2 := { st1 with itemCustomQuantity := st1.itemCustomQuantity.delete itemId }
  calculateCosts server st2

/-- The function markAsCommon. -/
def markAsCommon (server : Server) (st : State) (itemId : String) : State :=
  let st0 := { st with effects := st.effects ++ [Effect.consoleLog] }
  let st1 := { st0 with itemUsageType := st0.itemUsageType.set itemId "common" }
  calculateCosts server st1

/-- The function toggleExperiment on the selection set. -/
def toggleExperiment (server : Server) (st : State) (expId : String) : State :=
  let st0 : State :=
    if st.selectedExperiments.contains expId then
      { st with selectedExperiments := st.selectedExperiments.filter (fun x => !(x == expId)) }
    else
      { st with selectedExperiments := st.selectedExperiments ++ [expId] }
  let st1 := { st0 with effects := st0.effects ++ [Effect.renderExperiments] }
  calculateCosts server st1

/-- One user action on the results panel or the experiment list.  The first
two are the only functions of the script that write to itemCustomQuantity. -/
inductive Op where
  | updateCustomQuantity (itemId value : String) : Op
  | markAsUnique (itemId : String) : Op
  | markAsCommon (itemId : String) : Op
  | toggleExperiment (expId : String) : Op
  deriving DecidableEq

/-- One handler call, with the service answering during that call. -/
def step (parseFloat : String → JsNum) (st : State) (call : Server × Op) : State :=
  match call.2 with
  | Op.updateCustomQuantity itemId value => updateCustomQuantity parseFloat call.1 st itemId value
  | Op.markAsUnique itemId => markAsUnique call.1 st itemId
  | Op.markAsCommon itemId => markAsCommon call.1 st itemId
  | Op.toggleExperiment expId => toggleExperiment call.1 st expId

/-- A sequence of handler calls, run from left to right. -/
def run (parseFloat : String → JsNum) (st : State) (calls : List (Server × Op)) : State :=
  calls.foldl (step parseFloat) st

/-- A map value that is a number and at least zero. -/
def NonNegNumber (v : JsNum) : Prop :=
  v.isNaN = false ∧ v.ge (JsNum.fin 0) = true

instance (v : JsNum) : Decidable (NonNegNumber v) :=
  inferInstanceAs (Decidable (v.isNaN = false ∧ v.ge (JsNum.fin 0) = true))

/-! ## Export totals -/

/-- The quantity exportToExcel lists for a common item: the custom quantity
stored under item.id when there is one, else item.total_quantity. -/
def exportDisplayQty (st : State) (item : ResultItem) : JsNum :=
  match st.itemCustomQuantity.get item.id with
  | some customQty => customQty
  | none => JsNum.ofField item.total_quantity

/-- The reduce call of exportToExcel that totals the Common Items sheet. -/
def totalCommonCost (st : State) (results : Results) : JsNum :=
  results.common_items.foldl
    (fun sum item => sum + exportDisplayQty st item * JsNum.fin item.price) (JsNum.fin 0)

/-- The reduce call of exportToExcel that totals the Unique Items sheet. -/
def totalUniqueCost (results : Results) : JsNum :=
  results.unique_items.foldl (fun sum item => sum + JsNum.fin item.total_cost) (JsNum.fin 0)

/-- The three cost lines of the Procurement Summary sheet, before toFixed(2). -/
structure ProcurementSummary where
  commonItemsCost : JsNum
  uniqueItemsCost : JsNum
  grandTotal : JsNum
  deriving DecidableEq

/-- The cost lines exportToExcel writes; none when it returns early (no
current results, or the XLSX library is not loaded). -/
def exportToExcel (xlsxLoaded : Bool) (st : State) : Option ProcurementSummary :=
  match st.currentResults with
  | none => none
  | some results =>
    if !xlsxLoaded then none
    else
      some { commonItemsCost := totalCommonCost st results
             uniqueItemsCost := totalUniqueCost results
             grandTotal := JsNum.fin results.total_cost }

/-! ## The aggregation engine behind `/api/calculate`

The service that answers `/api/calculate` is not part of the script; the
definitions of this section follow section 3 and section 4.1 of the
specification. -/

/-- Modelled from the spec: the item category of a line item (Consumable,
Packing, NonConsumable); the service itself is not in the script. -/
inductive ItemCategory where
  | consumable : ItemCategory
  | packing : ItemCategory
  | nonConsumable : ItemCategory
  deriving DecidableEq

/-- Modelled from the spec: the category string the client compares against. -/
def ItemCategory.toJson : ItemCategory → String
  | ItemCategory.consumable => "consumable"
  | ItemCategory.packing => "packing"
  | ItemCategory.nonConsumable => "non_consumable"

/-- Modelled from the spec: LineItem of section 3. -/
structure LineItem where
  itemName : String
  quantity : ℚ
  unit : String
  pricePerUnit : ℚ
  category : ItemCategory
  deriving DecidableEq

/-- Modelled from the spec: Experiment of section 3 (a snapshot the engine
only reads). -/
structure Experiment where
  id : String
  name : String
  categoryRef : String := ""
  trials : ℕ
  grades : List ℕ := []
  items : List LineItem
  deriving DecidableEq

/-- Modelled from the spec: a value of the UsageOverrideMap. -/
inductive UsageKind where
  | common : UsageKind
  | unique : UsageKind
  deriving DecidableEq

/-- Modelled from the spec: one (experiment, lineItem) occurrence of step 1. -/
structure Occurrence where
  experiment : Experiment
  lineItem : LineItem
  deriving DecidableEq

/-- Modelled from the spec: an element of perExperimentUsage. -/
structure UsageDetail where
  expId : String
  expName : String
  quantity : ℚ
  trials : ℕ
  deriving DecidableEq

/-- Modelled from the spec: ItemGroup of section 3. -/
structure ItemGroup where
  itemName : String
  category : ItemCategory
  pricePerUnit : ℚ
  unit : String
  perExperimentUsage : List UsageDetail
  requiredQuantity : ℚ
  effectiveQuantity : ℚ
  cost : ℚ
  deriving DecidableEq

/-- Modelled from the spec: AggregationResult of section 3. -/
structure AggregationResult where
  selectedCount : ℕ
  totalCost : ℚ
  commonItems : List ItemGroup
  uniqueItems : List ItemGroup
  deriving DecidableEq

/-- Modelled from the spec: step 1, every line item of every selected
experiment, in selection order. -/
def allOccurrences (selectedExperiments : List Experiment) : List Occurrence :=
  selectedExperiments.flatMap (fun e => e.items.map (fun li => ⟨e, li⟩))

/-- Modelled from the spec: step 1, the first occurrence of each distinct item
name (exact, case-sensitive match), in the order the names are met. -/
def firstOccurrences : List Occurrence → List Occurrence
  | [] => []
  | o :: os =>
    o :: (firstOccurrences os).filter (fun o2 => !(o2.lineItem.itemName == o.lineItem.itemName))

/-- Modelled from the spec: step 1, the occurrences of one item name. -/
def occurrencesOf (all : List Occurrence) (itemName : String) : List Occurrence :=
  all.filter (fun o => o.lineItem.itemName == itemName)

/-- Modelled from the spec: the strings of a list without repetition. -/
def distinctStrings : List String → List String
  | [] => []
  | x :: xs => x :: (distinctStrings xs).filter (fun y => !(y == x))

/-- Modelled from the spec: step 2, the override if present, else Common iff
the group has occurrences in at least 2 distinct experiments. -/
def classify (usageOverrides : JsMap UsageKind) (all : List Occurrence) (first : Occurrence) :
    UsageKind :=
  match usageOverrides.get first.lineItem.itemName with
  | some kind => kind
  | none =>
    if 2 ≤ (distinctStrings
        ((occurrencesOf all first.lineItem.itemName).map (fun o => o.experiment.id))).length
    then UsageKind.common else UsageKind.unique

/-- Modelled from the spec: step 3, the effective quantity of one occurrence
under the category of its group. -/
def effectivePerExperiment (category : ItemCategory) (o : Occurrence) : ℚ :=
  match category with
  | ItemCategory.nonConsumable => o.lineItem.quantity
  | _ => o.lineItem.quantity * o.experiment.trials

/-- Modelled from the spec: step 4, max for NonConsumable, sum otherwise; the
first occurrence is among the occurrences of its own name. -/
def requiredQuantityOf (category : ItemCategory) (first : Occurrence) (occ : List Occurrence) : ℚ :=
  match category with
  | ItemCategory.nonConsumable =>
    (occ.map (effectivePerExperiment category)).foldl max (effectivePerExperiment category first)
  | _ => (occ.map (effectivePerExperiment category)).sum

/-- Modelled from the spec: steps 1 and 3 to 6 for the group of one item name;
price, unit and category are those of the first occurrence. -/
def buildGroup (usageOverrides : JsMap UsageKind) (customQuantities : JsMap ℚ)
    (all : List Occurrence) (first : Occurrence) : ItemGroup :=
  let itemName := first.lineItem.itemName
  let occ := occurrencesOf all itemName
  let category := first.lineItem.category
  let requiredQuantity := requiredQuantityOf category first occ
  let effectiveQuantity :=
    match classify usageOverrides all first with
    | UsageKind.common =>
      match customQuantities.get itemName with
      | some custom => custom
      | none => requiredQuantity
    | UsageKind.unique => requiredQuantity
  { itemName := itemName
    category := category
    pricePerUnit := first.lineItem.pricePerUnit
    unit := first.lineItem.unit
    perExperimentUsage := occ.map (fun o =>
      { expId := o.experiment.id, expName := o.experiment.name,
        quantity := o.lineItem.quantity, trials := o.experiment.trials })
    requiredQuantity := requiredQuantity
    effectiveQuantity := effectiveQuantity
    cost := effectiveQuantity * first.lineItem.pricePerUnit }

/-- Modelled from the spec: the operation aggregate of section 4.1. -/
def aggregate (selectedExperiments : List Experiment) (usageOverrides : JsMap UsageKind)
    (customQuantities : JsMap ℚ) : AggregationResult :=
  let all := allOccurrences selectedExperiments
  let firsts := firstOccurrences all
  { selectedCount := selectedExperiments.length
    totalCost :=
      ((firsts.map (buildGroup usageOverrides customQuantities all)).map (fun g => g.cost)).sum
    commonItems :=
      (firsts.filter (fun f => decide (classify usageOverrides all f = UsageKind.common))).map
        (buildGroup usageOverrides customQuantities all)
    uniqueItems :=
      (firsts.filter (fun f => !decide (classify usageOverrides all f = UsageKind.common))).map
        (buildGroup usageOverrides customQuantities all) }

/-- Modelled from the spec: an ItemGroup as the JSON object the client reads.
The maps are keyed by item name, so the id is the name; total_quantity
carries effectiveQuantity, required_quantity carries requiredQuantity and
total_cost carries cost. -/
def ItemGroup.toJson (g : ItemGroup) : ResultItem :=
  { id := g.itemName
    name := g.itemName
    category := g.category.toJson
    unit := g.unit
    price := g.pricePerUnit
    experiments := g.perExperimentUsage.map (fun u =>
      { exp_name := u.expName, quantity := u.quantity, trials := u.trials })
    total_quantity := some g.effectiveQuantity
    required_quantity := some g.requiredQuantity
    total_cost := g.cost }

/-- Modelled from the spec: an AggregationResult as the response body. -/
def AggregationResult.toJson (r : AggregationResult) : Results :=
  { selected_count := r.selectedCount
    total_cost := r.totalCost
    common_items := r.commonItems.map ItemGroup.toJson
    unique_items := r.uniqueItems.map ItemGroup.toJson }

/-- The custom quantities of the engine as the client map holds them. -/
def clientQuantities (customQuantities : JsMap ℚ) : JsMap JsNum :=
  ⟨customQuantities.entries.map (fun p => (p.1, JsNum.fin p.2))⟩

/-- Experiment A of the end-to-end scenario of the specification. -/
def experimentA : Experiment :=
  { id := "A", name := "A", trials := 2,
    items := [⟨"Beaker", 1, "pcs", 50, ItemCategory.nonConsumable⟩,
              ⟨"Acid", 5, "ml", 2, ItemCategory.consumable⟩] }

/-- Experiment B of the end-to-end scenario of the specification. -/
def experimentB : Experiment :=
  { id := "B", name := "B", trials := 1,
    items := [⟨"Beaker", 1, "pcs", 50, ItemCategory.nonConsumable⟩,
              ⟨"Salt", 3, "g", 1, ItemCategory.consumable⟩] }

/-! ## Per-experiment breakdowns of the preview and the exports -/

/-- The quantity renderPreviewModal shows for a unique item in one experiment. -/
def previewUniqueQty (item : ResultItem) (expData : ExpUsage) : JsNum :=
  let isEquipment := decide (item.category = "non_consumable")
  let isPacking := decide (item.category = "packing")
  if isEquipment then JsNum.fin expData.quantity
  else if isPacking then JsNum.fin expData.quantity * JsNum.fin expData.trials
  else JsNum.fin expData.quantity * JsNum.fin expData.trials

/-- The quantity renderPreviewModal shows for a common item in one experiment. -/
def previewCommonQty (item : ResultItem) (expData : ExpUsage) : JsNum :=
  let isEquipment := decide (item.category = "non_consumable")
  let isPacking := decide (item.category = "packing")
  if isEquipment then JsNum.fin expData.quantity
  else if isPacking then JsNum.fin expData.quantity * JsNum.fin expData.trials
  else JsNum.fin expData.quantity * JsNum.fin expData.trials

/-- The quantity savePreviewData writes for a unique item of one experiment. -/
def savePreviewUniqueQty (item : ResultItem) (expItemData : ExpUsage) : JsNum :=
  let isEquipment := decide (item.category = "non_consumable")
  let isPacking := decide (item.category = "packing")
  if isEquipment then JsNum.fin expItemData.quantity
  else if isPacking then JsNum.fin expItemData.quantity * JsNum.fin expItemData.trials
  else JsNum.fin expItemData.quantity * JsNum.fin expItemData.trials

/-- The quantity_needed savePreviewData writes for a common item of one
experiment. -/
def savePreviewCommonQty (item : ResultItem) (expItemData : ExpUsage) : JsNum :=
  let isEquipment := decide (item.category = "non_consumable")
  let isPacking := decide (item.category = "packing")
  if isEquipment then JsNum.fin expItemData.quantity
  else if isPacking then JsNum.fin expItemData.quantity * JsNum.fin expItemData.trials
  else JsNum.fin expItemData.quantity * JsNum.fin expItemData.trials

/-- The quantity of a Unique row of the sheet "Experiments & Items". -/
def excelExperimentsUniqueQty (item : ResultItem) (expItemData : ExpUsage) : JsNum :=
  let isEquipment := decide (item.category = "non_consumable")
  let isPacking := decide (item.category = "packing")
  if isEquipment then JsNum.fin expItemData.quantity
  else if isPacking then JsNum.fin expItemData.quantity * JsNum.fin expItemData.trials
  else JsNum.fin expItemData.quantity * JsNum.fin expItemData.trials

/-- The quantity of a Common row of the sheet "Experiments & Items". -/
def excelExperimentsCommonQty (item : ResultItem) (expItemData : ExpUsage) : JsNum :=
  let isEquipment := decide (item.category = "non_consumable")
  let isPacking := decide (item.category = "packing")
  if isEquipment then JsNum.fin expItemData.quantity
  else if isPacking then JsNum.fin expItemData.quantity * JsNum.fin expItemData.trials
  else JsNum.fin expItemData.quantity * JsNum.fin expItemData.trials

/-- The quantity of a row of the sheet "Unique Items". -/
def excelUniqueSheetQty (item : ResultItem) (expItemData : ExpUsage) : JsNum :=
  let isEquipment := decide (item.category = "non_consumable")
  if isEquipment then JsNum.fin expItemData.quantity
  else JsNum.fin expItemData.quantity * JsNum.fin expItemData.trials

/-- The per-experiment quantity as section 6 of the specification words it:
equipment is the raw quantity with no trial multiplication, packing and
consumable are quantity times trials. -/
def perExperimentQtySpec (category : ItemCategory) (quantity trials : ℚ) : ℚ :=
  match category with
  | ItemCategory.nonConsumable => quantity
  | ItemCategory.packing => quantity * trials
  | ItemCategory.consumable => quantity * trials

/-- The procure quantity renderPreviewModal shows in "Common Items to
Procure": the custom quantity looked up under item.name, else total_quantity. -/
def previewDisplayQty (st : State) (item : ResultItem) : JsNum :=
  match st.itemCustomQuantity.get item.name with
  | some customQty => customQty
  | none => JsNum.ofField item.total_quantity

/-- The total_quantity savePreviewData writes in common_items_to_procure: the
custom quantity looked up under item.name, else total_quantity. -/
def savePreviewDisplayQty (st : State) (item : ResultItem) : JsNum :=
  match st.itemCustomQuantity.get item.name with
  | some customQty => customQty
  | none => JsNum.ofField item.total_quantity

/-- The item with the trials of every usage entry multiplied by k. -/
def scaleTrials (k : ℚ) (item : ResultItem) : ResultItem :=
  { item with experiments := item.experiments.map (fun e => { e with trials := k * e.trials }) }

/-! ## Item dialogs and the experiment form -/

/-- The expression a || b on two numbers: a when it is truthy (not NaN and
not zero), b otherwise. -/
def JsNum.orElse (a b : JsNum) : JsNum :=
  match a with
  | JsNum.nan => b
  | JsNum.fin q => if q = 0 then b else a
  | _ => a

/-- The values of the five inputs of the item dialog. -/
structure ItemForm where
  itemName : String
  itemQuantity : String
  itemUnit : String
  itemPrice : String
  itemCategory : String
  deriving DecidableEq

/-- The object itemData of saveModalItem and saveItem; parseFloat and trim
are the built-ins, taken as parameters. -/
def readItemForm (parseFloat : String → JsNum) (trim : String → String) (form : ItemForm) :
    ItemData :=
  { name := trim form.itemName
    quantity := (parseFloat form.itemQuantity).orElse (JsNum.fin 0)
    unit := form.itemUnit
    price := (parseFloat form.itemPrice).orElse (JsNum.fin 0)
    category := form.itemCategory }

/-- The element access state.modalItems[index]; undefined is none. -/
def modalItemAt (st : State) (index : Option ℕ) : Option ModalItem :=
  match index with
  | some i => (st.modalItems.get? i).join
  | none => st.modalItemsNullKey

/-- An assignment array[i] = v: past the end it leaves holes behind. -/
def arrayAssign {α : Type} (slots : List (Option α)) (i : ℕ) (v : α) : List (Option α) :=
  if i < slots.length then slots.set i (some v)
  else slots ++ List.replicate (i - slots.length) none ++ [some v]

/-- The duplicate test of saveModalItem: some element at another index has the
same name ignoring case (holes are skipped by Array.prototype.some). -/
def modalIsDuplicate (toLowerCase : String → String) (st : State) (name : String) : Bool :=
  st.modalItems.enum.any (fun p =>
    match p.2 with
    | none => false
    | some item =>
      if some p.1 = st.modalEditingItemIndex then false
      else toLowerCase item.name == toLowerCase name)

/-- The flag hasChanges of saveModalItem for an element being edited. -/
def modalHasChanges (currentItem : ModalItem) (itemData : ItemData) : Bool :=
  decide (currentItem.name ≠ itemData.name) ||
  JsNum.strictNe currentItem.quantity itemData.quantity ||
  decide (currentItem.unit ≠ itemData.unit) ||
  JsNum.strictNe currentItem.price itemData.price ||
  decide (currentItem.category ≠ itemData.category)

/-- The function saveModalItem; confirmAnswer is what the user answers to the
confirm dialog, toLowerCase the built-in. -/
def saveModalItem (parseFloat : String → JsNum) (trim toLowerCase : String → String)
    (confirmAnswer : Bool) (form : ItemForm) (st : State) : State :=
  let itemData := readItemForm parseFloat trim form
  if itemData.name = "" then
    { st with effects := st.effects ++ [Effect.alert] }
  else if itemData.quantity.le (JsNum.fin 0) then
    { st with effects := st.effects ++ [Effect.alert] }
  else if itemData.price.le (JsNum.fin 0) then
    { st with effects := st.effects ++ [Effect.alert] }
  else if modalIsDuplicate toLowerCase st itemData.name then
    { st with effects := st.effects ++ [Effect.alert] }
  else
    let currentItem := modalItemAt st st.modalEditingItemIndex
    let isEditing :=
      match currentItem with
      | some item => decide (item.name ≠ "")
      | none => false
    let unchanged :=
      match currentItem with
      | some item => isEditing && !modalHasChanges item itemData
      | none => false
    if unchanged then
      { st with effects := st.effects ++ [Effect.alert] }
    else if !confirmAnswer then
      { st with effects := st.effects ++ [Effect.confirm] }
    else
      let newItem : ModalItem :=
        { id := currentItem.bind (fun item => item.id)
          name := itemData.name
          quantity := itemData.quantity
          unit := itemData.unit
          price := itemData.price
          category := itemData.category }
      match st.modalEditingItemIndex with
      | some idx =>
        { st with
          modalItems := arrayAssign st.modalItems idx newItem
          modalEditingItemIndex := none
          effects := st.effects ++
            [Effect.confirm, Effect.renderModalItems, Effect.closeModal] }
      | none =>
        { st with
          modalItemsNullKey := some newItem
          modalEditingItemIndex := none
          effects := st.effects ++
            [Effect.confirm, Effect.renderModalItems, Effect.closeModal] }

/-- The truthiness of state.editingItemData.itemId. -/
def itemIdTruthy (itemId : Option String) : Bool :=
  match itemId with
  | some s => decide (s ≠ "")
  | none => false

/-- The flag hasChanges of saveItem for the item being edited. -/
def itemHasChanges (currentItem : ExpItem) (itemData : ItemData) : Bool :=
  decide (currentItem.name ≠ itemData.name) ||
  JsNum.strictNe (JsNum.fin currentItem.quantity) itemData.quantity ||
  decide (currentItem.unit ≠ itemData.unit) ||
  JsNum.strictNe (JsNum.fin currentItem.price) itemData.price ||
  decide (currentItem.category ≠ itemData.category)

/-- The function saveItem, up to the request it fires: updateItem and
addItemToExperiment are recorded as the request they send (their awaited
continuation reloads the experiments later). -/
def saveItem (parseFloat : String → JsNum) (trim toLowerCase : String → String)
    (confirmAnswer : Bool) (form : ItemForm) (st : State) : State :=
  let itemData := readItemForm parseFloat trim form
  if itemData.name = "" then
    { st with effects := st.effects ++ [Effect.alert] }
  else if itemData.quantity.le (JsNum.fin 0) then
    { st with effects := st.effects ++ [Effect.alert] }
  else if itemData.price.le (JsNum.fin 0) then
    { st with effects := st.effects ++ [Effect.alert] }
  else
    match st.editingItemData with
    | none => { st with effects := st.effects ++ [Effect.typeError] }
    | some editing =>
      let exp := st.experiments.find? (fun e => e.id == editing.expId)
      let isDuplicate :=
        !itemIdTruthy editing.itemId &&
        (match exp with
          | some e => e.items.any (fun item => toLowerCase item.name == toLowerCase itemData.name)
          | none => false)
      if isDuplicate then
        { st with effects := st.effects ++ [Effect.alert] }
      else
        let isEditing := itemIdTruthy editing.itemId
        let currentItem :=
          match exp with
          | some e => e.items.find? (fun i => some i.id == editing.itemId)
          | none => none
        let unchanged :=
          isEditing &&
          (match currentItem with
            | some item => !itemHasChanges item itemData
            | none => false)
        if unchanged then
          { st with effects := st.effects ++ [Effect.alert] }
        else if !confirmAnswer then
          { st with effects := st.effects ++ [Effect.confirm] }
        else
          match editing.itemId with
          | some itemId =>
            if itemId ≠ "" then
              { st with effects := st.effects ++
                  [Effect.confirm, Effect.updateItemRequest editing.expId itemId itemData,
                   Effect.closeModal] }
            else
              { st with effects := st.effects ++
                  [Effect.confirm, Effect.addItemRequest editing.expId itemData,
                   Effect.closeModal] }
          | none =>
            { st with effects := st.effects ++
                [Effect.confirm, Effect.addItemRequest editing.expId itemData,
                 Effect.closeModal] }

/-- An effect that is an add-item or update-item request. -/
def Effect.isItemRequest : Effect → Bool
  | Effect.addItemRequest _ _ => true
  | Effect.updateItemRequest _ _ _ => true
  | _ => false

/-- The result of parseInt as a number: none is NaN. -/
def JsNum.ofParsedInt : Option ℤ → JsNum
  | some n => JsNum.fin n
  | none => JsNum.nan

/-- The constant trials of saveExperiment, which the function passes on
unchanged to createExperimentWithItems or updateExperimentWithItems; parseInt
is the built-in, an integer or NaN. -/
def saveExperimentTrials (parseInt : String → Option ℤ) (value : String) : JsNum :=
  JsNum.mathMax [JsNum.fin 1, (JsNum.ofParsedInt (parseInt value)).orElse (JsNum.fin 1)]

/-- An item name occurs in some line item of some selected experiment. -/
def OccursIn (selectedExperiments : List Experiment) (itemName : String) : Prop :=
  ∃ e ∈ selectedExperiments, ∃ li ∈ e.items, li.itemName = itemName

/-- An item name occurs in two selected experiments with different ids. -/
def OccursInAtLeastTwo (selectedExperiments : List Experiment) (itemName : String) : Prop :=
  ∃ e1 ∈ selectedExperiments, ∃ e2 ∈ selectedExperiments, e1.id ≠ e2.id ∧
    (∃ li ∈ e1.items, li.itemName = itemName) ∧ (∃ li ∈ e2.items, li.itemName = itemName)

/-- Modelled from the spec: the UsageOverrideMap value a string of the request
field item_usage_type stands for; the service that decodes it is not in the
script. -/
def usageKindOfString (s : String) : Option UsageKind :=
  if s = "common" then some UsageKind.common
  else if s = "unique" then some UsageKind.unique
  else none

/-- Modelled from the spec: the UsageOverrideMap the engine is given for the
request field item_usage_type. -/
def engineOverrides (itemUsageType : JsMap String) : JsMap UsageKind :=
  ⟨itemUsageType.entries.filterMap (fun p => (usageKindOfString p.2).map (fun k => (p.1, k)))⟩

/-- The item names of the groups of a response, common first. -/
def resultNames (r : Results) : List String :=
  (r.common_items ++ r.unique_items).map (fun item => item.name)

/-- The JSON body createExperimentWithItems and updateExperimentWithItems
send for the experiment itself. -/
structure ExperimentBody where
  name : String
  category : String
  trials : JsNum
  grade : List ℕ
  deriving DecidableEq

/-- The body of the POST request of createExperimentWithItems. -/
def createExperimentBody (name category : String) (trials : JsNum) (grade : List ℕ) :
    ExperimentBody :=
  { name := name, category := category, trials := trials, grade := grade }

/-- The body of the PUT request of updateExperimentWithItems. -/
def updateExperimentBody (name category : String) (trials : JsNum) (grade : List ℕ) :
    ExperimentBody :=
  { name := name, category := category, trials := trials, grade := grade }

/-! ## Logout -/

/-- The function handleLogout; confirmAnswer is what the user answers to the
confirm dialog.  The writes to the page and to the two storages are recorded
as effects. -/
def handleLogout (confirmAnswer : Bool) (st : State) : State :=
  if !confirmAnswer then
    { st with effects := st.effects ++ [Effect.confirm] }
  else
    { st with
      loginState :=
        { isLoggedIn := false, username := none, selectedSubject := none,
          allowedSubject := none }
      currentSubjectFilter := ""
      currentCategoryFilter := ""
      currentGradeFilter := ""
      selectedExperiments := []
      experiments := []
      categories := []
      filteredExperiments := []
      itemsCache := []
      effects := st.effects ++
        [Effect.confirm, Effect.removeLoginStorage, Effect.clearPanels, Effect.logoutRequest,
         Effect.showLoginModal] }

/-! ## Labels and row costs of the exports -/

/-- The category column of the sheet "Common Items" of exportToExcel. -/
def excelCommonCategoryLabel (item : ResultItem) : String :=
  if item.category = "consumable" then "Consumable" else "Equipment"

/-- The category column of the sheet "Unique Items" of exportToExcel. -/
def excelUniqueCategoryLabel (item : ResultItem) : String :=
  if item.category = "consumable" then "Consumable" else "Equipment"

/-- The cost renderPreviewModal shows for a unique item in one experiment. -/
def previewUniqueCost (item : ResultItem) (expData : ExpUsage) : JsNum :=
  previewUniqueQty item expData * JsNum.fin item.price

/-- The total_cost savePreviewData writes for a unique item of one experiment. -/
def savePreviewUniqueCost (item : ResultItem) (expItemData : ExpUsage) : JsNum :=
  savePreviewUniqueQty item expItemData * JsNum.fin item.price

/-- The cost of a Unique row of the sheet "Experiments & Items". -/
def excelExperimentsUniqueCost (item : ResultItem) (expItemData : ExpUsage) : JsNum :=
  excelExperimentsUniqueQty item expItemData * JsNum.fin item.price

/-- The cost of a row of the sheet "Unique Items". -/
def excelUniqueSheetCost (item : ResultItem) (expItemData : ExpUsage) : JsNum :=
  excelUniqueSheetQty item expItemData * JsNum.fin item.price

/-! ## The coupling of the two override maps -/

/-- No key has both a "unique" entry in itemUsageType and an entry in
itemCustomQuantity. -/
def CouplingInvariant (st : State) : Prop :=
  ∀ k : String, st.itemUsageType.get k = some "unique" → st.itemCustomQuantity.get k = none

/-- A call that is not an updateCustomQuantity for a key currently marked
"unique" (the results panel has a quantity input on common cards only). -/
def CallAllowed (st : State) (call : Server × Op) : Prop :=
  match call.2 with
  | Op.updateCustomQuantity itemId _ => st.itemUsageType.get itemId ≠ some "unique"
  | _ => True

/-- Every call of the sequence is allowed in the state it is made in. -/
def RunAllowed (parseFloat : String → JsNum) : State → List (Server × Op) → Prop
  | _, [] => True
  | st, call :: calls => CallAllowed st call ∧ RunAllowed parseFloat (step parseFloat st call) calls

/-! ## The item list of the experiment dialog -/

/-- The function openModalItemDialog up to the fields it fills: reading the
name of a missing element throws. -/
def openModalItemDialog (st : State) (index : ℕ) : State :=
  match (st.modalItems.get? index).join with
  | some _ => { st with effects := st.effects ++ [Effect.showModal] }
  | none => { st with effects := st.effects ++ [Effect.typeError] }

/-- The function addItemToModal; now is the value of Date.now(). -/
def addItemToModal (now : ℕ) (st : State) : State :=
  let newItem : ModalItem :=
    { id := some ("ITM_TEMP_" ++ toString now)
      name := ""
      quantity := JsNum.fin 1
      unit := "ml"
      price := JsNum.fin 0
      category := "consumable" }
  let st1 := { st with modalItems := st.modalItems ++ [some newItem] }
  let st2 := { st1 with modalEditingItemIndex := some (st1.modalItems.length - 1) }
  openModalItemDialog st2 (st2.modalItems.length - 1)

/-- The function editModalItem. -/
def editModalItem (index : ℕ) (st : State) : State :=
  openModalItemDialog { st with modalEditingItemIndex := some index } index

/-- The function deleteModalItem; splice(index, 1) removes the slot at the
index, if there is one. -/
def deleteModalItem (confirmAnswer : Bool) (index : ℕ) (st : State) : State :=
  if confirmAnswer then
    { st with
      modalItems := st.modalItems.eraseIdx index
      effects := st.effects ++ [Effect.confirm, Effect.renderModalItems] }
  else
    { st with effects := st.effects ++ [Effect.confirm] }

/-- One user action on the item list of the experiment dialog. -/
inductive ModalOp where
  | addItemToModal (now : ℕ) : ModalOp
  | editModalItem (index : ℕ) : ModalOp
  | saveModalItem (confirmAnswer : Bool) (form : ItemForm) : ModalOp
  | deleteModalItem (confirmAnswer : Bool) (index : ℕ) : ModalOp
  deriving DecidableEq

/-- One call of a handler of the item list. -/
def modalStep (parseFloat : String → JsNum) (trim toLowerCase : String → String)
    (st : State) (op : ModalOp) : State :=
  match op with
  | ModalOp.addItemToModal now => addItemToModal now st
  | ModalOp.editModalItem index => editModalItem index st
  | ModalOp.saveModalItem confirmAnswer form =>
    saveModalItem parseFloat trim toLowerCase confirmAnswer form st
  | ModalOp.deleteModalItem confirmAnswer index => deleteModalItem confirmAnswer index st

/-- A sequence of calls on the item list, run from left to right. -/
def modalRun (parseFloat : String → JsNum) (trim toLowerCase : String → String)
    (st : State) (ops : List ModalOp) : State :=
  ops.foldl (modalStep parseFloat trim toLowerCase) st

/-- The function closeModal once its timeout of 300 ms has run: the dialog of
the experiment gives up its item list, the dialog of an item only what points
at the element being edited; state.modalItems is not touched for "itemModal". -/
def closeModal (modalId : String) (st : State) : State :=
  let st0 := { st with effects := st.effects ++ [Effect.closeModal] }
  if modalId = "experimentModal" then
    { st0 with
      editingExperimentId := none
      modalItems := []
      modalItemsNullKey := none
      modalEditingItemIndex := none }
  else if modalId = "itemModal" then
    { st0 with
      editingItemData := none
      modalEditingItemIndex := none }
  else st0

/-- The loop of createExperimentWithItems over state.modalItems, every
response being ok: one POST per element, carrying its name, quantity, unit,
price and category as they are; at a hole item.name throws, which ends the
loop in the catch block. -/
def createItemRequests (newExpId : String) : List (Option ModalItem) → List Effect
  | [] => []
  | none :: _ => [Effect.consoleError, Effect.showError]
  | some item :: rest =>
    Effect.addItemRequest newExpId
      { name := item.name, quantity := item.quantity, unit := item.unit, price := item.price,
        category := item.category } :: createItemRequests newExpId rest

/-- The function createExperimentWithItems from the answer to the POST of the
experiment up to the end of its loop; newExpId is the id of the experiment in
an ok response, none stands for a response that is not ok. -/
def createExperimentWithItems (newExpId : Option String) (st : State) : State :=
  match newExpId with
  | none => { st with effects := st.effects ++ [Effect.consoleError, Effect.showError] }
  | some expId => { st with effects := st.effects ++ createItemRequests expId st.modalItems }

/-- An element that could be a line item: a name, quantity > 0, price > 0. -/
def ModalItem.Valid (item : ModalItem) : Prop :=
  item.name ≠ "" ∧ JsNum.lt (JsNum.fin 0) item.quantity = true ∧
    JsNum.lt (JsNum.fin 0) item.price = true

/-- The blank element addItemToModal pushes, as long as it is not saved. -/
def ModalItem.IsPlaceholder (item : ModalItem) : Prop :=
  item.name = "" ∧ item.quantity = JsNum.fin 1 ∧ item.unit = "ml" ∧
    item.price = JsNum.fin 0 ∧ item.category = "consumable"

instance (item : ModalItem) : Decidable item.Valid :=
  inferInstanceAs (Decidable (item.name ≠ "" ∧ JsNum.lt (JsNum.fin 0) item.quantity = true ∧
    JsNum.lt (JsNum.fin 0) item.price = true))

instance (item : ModalItem) : Decidable item.IsPlaceholder :=
  inferInstanceAs (Decidable (item.name = "" ∧ item.quantity = JsNum.fin 1 ∧ item.unit = "ml" ∧
    item.price = JsNum.fin 0 ∧ item.category = "consumable"))

/-- The names that are not empty are pairwise distinct ignoring case. -/
def NamesDistinct (toLowerCase : String → String) (slots : List (Option ModalItem)) : Prop :=
  ∀ (i j : ℕ) (a b : ModalItem), i ≠ j →
    slots.get? i = some (some a) → slots.get? j = some (some b) →
    a.name ≠ "" → b.name ≠ "" → toLowerCase a.name ≠ toLowerCase b.name

/-! ## Item changes of an edited experiment -/

/-- The label detectItemChanges gives a category. -/
def changeCategoryLabel (category : String) : String :=
  if category = "consumable" then "Consumable"
  else if category = "packing" then "Packing" else "Equipment"

/-- The object changes of detectItemChanges: each field is present when the
old and the new value differ, and holds both. -/
structure ItemChanges where
  name : Option (String × String)
  quantity : Option (JsNum × JsNum)
  unit : Option (String × String)
  price : Option (JsNum × JsNum)
  category : Option (String × String)
  deriving DecidableEq

/-- An element of the list modified of detectItemChanges. -/
structure ModifiedEntry where
  name : String
  changes : ItemChanges
  deriving DecidableEq

/-- The object detectItemChanges returns. -/
structure ItemChangeResult where
  hasChanges : Bool
  added : List ModalItem
  removed : List ModalItem
  modified : List ModifiedEntry
  deriving DecidableEq

/-- The object changes built for an old and a new item with the same id. -/
def itemChangesOf (oldItem newItem : ModalItem) : ItemChanges :=
  { name := if oldItem.name ≠ newItem.name then some (oldItem.name, newItem.name) else none
    quantity :=
      if JsNum.strictNe oldItem.quantity newItem.quantity
      then some (oldItem.quantity, newItem.quantity) else none
    unit := if oldItem.unit ≠ newItem.unit then some (oldItem.unit, newItem.unit) else none
    price :=
      if JsNum.strictNe oldItem.price newItem.price
      then some (oldItem.price, newItem.price) else none
    category :=
      if oldItem.category ≠ newItem.category
      then some (changeCategoryLabel oldItem.category, changeCategoryLabel newItem.category)
      else none }

/-- The flag hasItemChanges of detectItemChanges. -/
def hasItemChanges (oldItem newItem : ModalItem) : Bool :=
  decide (oldItem.name ≠ newItem.name) ||
  JsNum.strictNe oldItem.quantity newItem.quantity ||
  decide (oldItem.unit ≠ newItem.unit) ||
  JsNum.strictNe oldItem.price newItem.price ||
  decide (oldItem.category ≠ newItem.category)

/-- The function detectItemChanges on two item lists: the three loops build
added, removed and modified, and hasChanges is set whenever one of them
receives an element. -/
def detectItemChanges (oldItems newItems : List ModalItem) : ItemChangeResult :=
  let added := newItems.filter (fun newItem =>
    (oldItems.find? (fun old => old.id == newItem.id)).isNone)
  let removed := oldItems.filter (fun oldItem =>
    (newItems.find? (fun n => n.id == oldItem.id)).isNone)
  let modified := newItems.filterMap (fun newItem =>
    match oldItems.find? (fun old => old.id == newItem.id) with
    | some oldItem =>
      if hasItemChanges oldItem newItem then
        some { name := newItem.name, changes := itemChangesOf oldItem newItem }
      else none
    | none => none)
  { hasChanges := !added.isEmpty || !removed.isEmpty || !modified.isEmpty
    added := added
    removed := removed
    modified := modified }

/-! ## Binary64 arithmetic

The card functions above compute with exact rational numbers.  The
definitions of this section read the required quantity of renderCommonItemCard
with the Number type as it is: every value is a binary64 number, and every
product and every sum is rounded to the nearest one. -/

/-- Rounding to the nearest integer, a tie going to the even one. -/
def roundHalfEven (x : ℚ) : ℤ :=
  if Int.fract x < 1 / 2 then ⌊x⌋
  else if 1 / 2 < Int.fract x then ⌊x⌋ + 1
  else if ⌊x⌋ % 2 = 0 then ⌊x⌋
  else ⌊x⌋ + 1

/-- The exponent of the spacing of the binary64 numbers at x: 52 below the
binade of x, the binade being held at -1022 in the subnormal range. -/
def ulpExponent (x : ℚ) : ℤ := max (Int.log 2 |x|) (-1022) - 52

/-- The Number value of a real number: IEEE 754 binary64, round to nearest,
ties to even, overflow to an infinity (-0 is not told from 0). -/
def roundDouble (x : ℚ) : JsNum :=
  if x = 0 then JsNum.fin 0
  else if 2 ^ 1024 ≤ (roundHalfEven (x / 2 ^ ulpExponent x) : ℚ) * 2 ^ ulpExponent x then
    JsNum.posInf
  else if (roundHalfEven (x / 2 ^ ulpExponent x) : ℚ) * 2 ^ ulpExponent x ≤ -(2 ^ 1024) then
    JsNum.negInf
  else JsNum.fin ((roundHalfEven (x / 2 ^ ulpExponent x) : ℚ) * 2 ^ ulpExponent x)

/-- The exact result of an operation as the Number the operation returns. -/
def JsNum.toDouble : JsNum → JsNum
  | JsNum.fin q => roundDouble q
  | v => v

/-- The operator * on binary64 numbers. -/
def JsNum.mulDouble (a b : JsNum) : JsNum := (a * b).toDouble

/-- The operator + on binary64 numbers. -/
def JsNum.addDouble (a b : JsNum) : JsNum := (a + b).toDouble

/-- The per-experiment quantity of renderCommonItemCard in binary64: the two
JSON numbers are the doubles nearest to them, and their product is rounded. -/
def usageQtyDouble (category : String) (e : ExpUsage) : JsNum :=
  if category = "non_consumable" then roundDouble e.quantity
  else if category = "packing" then (roundDouble e.quantity).mulDouble (roundDouble e.trials)
  else (roundDouble e.quantity).mulDouble (roundDouble e.trials)

/-- The reduce call summing quantity * trials, in binary64. -/
def sumScaledDouble (experiments : List ExpUsage) : JsNum :=
  experiments.foldl
    (fun sum e => sum.addDouble ((roundDouble e.quantity).mulDouble (roundDouble e.trials)))
    (JsNum.fin 0)

/-- The local requiredQty of renderCommonItemCard in binary64. -/
def requiredQtyDouble (item : ResultItem) : JsNum :=
  if item.category = "non_consumable" then
    JsNum.mathMax (item.experiments.map (fun e => roundDouble e.quantity))
  else if item.category = "packing" then sumScaledDouble item.experiments
  else sumScaledDouble item.experiments

/-! ## Concrete inputs used by the witnesses and counterexamples -/

/-- An equipment item used with quantity 5 (3 trials) and quantity 2 (1 trial). -/
def equipmentTwoExps : ResultItem :=
  { id := "Microscope", name := "Microscope", category := "non_consumable", unit := "pcs",
    price := 50,
    experiments := [⟨"A", 5, 3⟩, ⟨"B", 2, 1⟩],
    total_quantity := some 5, required_quantity := some 5, total_cost := 250 }

/-- A consumable item used with quantity 10 in one experiment of 2 trials. -/
def consumableOneExp : ResultItem :=
  { id := "Acid", name := "Acid", category := "consumable", unit := "ml", price := 3,
    experiments := [⟨"A", 10, 2⟩],
    total_quantity := some 20, required_quantity := some 20, total_cost := 60 }

/-- The initial state of the page: nothing selected, both maps empty. -/
def initialState : State := {}

/-- A state whose custom-quantity map holds 0 for the item "Acid". -/
def stateAcidZero : State :=
  { itemCustomQuantity := ⟨[("Acid", JsNum.fin 0)]⟩ }

/-- The values of the built-in parseFloat on the strings used below; every
other string stands for text that is not numeric. -/
def parseFloatSample (value : String) : JsNum :=
  if value = "20" then JsNum.fin 20
  else if value = "25" then JsNum.fin 25
  else if value = "3" then JsNum.fin 3
  else if value = "-1" then JsNum.fin (-1)
  else JsNum.nan

/-- A service that fails every request. -/
def serverDown : Server := fun _ => none

/-- A result with "Acid" as its only common item, required quantity 20. -/
def resultsAcidCommon : Results :=
  { selected_count := 2, total_cost := 60, common_items := [consumableOneExp], unique_items := [] }

/-- A state showing resultsAcidCommon, with 25 stored for "Acid" and 4 for
"Salt", and "Salt" marked common. -/
def stateAcidCommon : State :=
  { selectedExperiments := ["A", "B"]
    itemUsageType := ⟨[("Salt", "common")]⟩
    itemCustomQuantity := ⟨[("Acid", JsNum.fin 25), ("Salt", JsNum.fin 4)]⟩
    currentResults := some resultsAcidCommon }

/-- Every value held in a custom-quantity map is a number and at least zero. -/
def AllNonNeg (m : JsMap JsNum) : Prop :=
  ∀ p ∈ m.entries, NonNegNumber p.2

instance (m : JsMap JsNum) : Decidable (AllNonNeg m) :=
  inferInstanceAs (Decidable (∀ p ∈ m.entries, NonNegNumber p.2))

/-- The scenario state: both experiments selected, 3 beakers to procure, and
the response of the engine for that selection as the current results. -/
def stateScenario : State :=
  { selectedExperiments := ["A", "B"]
    itemCustomQuantity := clientQuantities ⟨[("Beaker", 3)]⟩
    currentResults :=
      some (aggregate [experimentA, experimentB] JsMap.empty ⟨[("Beaker", 3)]⟩).toJson }

/-- The group "Beaker" of the end-to-end scenario, as a common item. -/
def beakerGroup : ResultItem :=
  { id := "Beaker", name := "Beaker", category := "non_consumable", unit := "pcs", price := 50,
    experiments := [⟨"A", 1, 2⟩, ⟨"B", 1, 1⟩],
    total_quantity := some 1, required_quantity := some 1, total_cost := 50 }

/-- The group "Acid" of the end-to-end scenario, as a unique item. -/
def acidGroup : ResultItem :=
  { id := "Acid", name := "Acid", category := "consumable", unit := "ml", price := 2,
    experiments := [⟨"A", 5, 2⟩],
    total_quantity := some 10, required_quantity := some 10, total_cost := 20 }

/-- The group "Salt" of the end-to-end scenario, as a unique item. -/
def saltGroup : ResultItem :=
  { id := "Salt", name := "Salt", category := "consumable", unit := "g", price := 1,
    experiments := [⟨"B", 3, 1⟩],
    total_quantity := some 3, required_quantity := some 3, total_cost := 3 }

/-- A common item whose id is not its name. -/
def idDiffersItem : ResultItem :=
  { id := "ITM_7", name := "Beaker", category := "non_consumable", unit := "pcs", price := 50,
    experiments := [⟨"A", 1, 2⟩, ⟨"B", 1, 1⟩],
    total_quantity := some 1, required_quantity := some 1, total_cost := 50 }

/-- A state showing idDiffersItem as the only common item, no custom quantity
stored yet. -/
def stateIdDiffers : State :=
  { selectedExperiments := ["A", "B"]
    currentResults := some
      { selected_count := 2, total_cost := 50, common_items := [idDiffersItem],
        unique_items := [] } }

/-- The values of the built-in parseInt on the strings used below; every
other string stands for text that does not start with an integer. -/
def parseIntSample (value : String) : Option ℤ :=
  if value = "5" then some 5
  else if value = "2.7" then some 2
  else if value = "0" then some 0
  else if value = "-4" then some (-4)
  else none

/-- A state with "Acid" of experiment A open in the item dialog for adding,
and one blank element being edited in the experiment dialog. -/
def stateDialogs : State :=
  { experiments := [{ id := "A", name := "A", items := [⟨"ITM_1", "Acid", 5, "ml", 2, "consumable"⟩] }]
    editingItemData := some ⟨"A", none⟩
    modalItems := [some ⟨some "ITM_TEMP_1", "", JsNum.fin 1, "ml", JsNum.fin 0, "consumable"⟩]
    modalEditingItemIndex := some 0 }

/-- A form with a name, the quantity "-1" and the price "3". -/
def formNegativeQuantity : ItemForm :=
  { itemName := "Salt", itemQuantity := "-1", itemUnit := "g", itemPrice := "3",
    itemCategory := "consumable" }

/-- A form with a name and a quantity, and a price that is not numeric. -/
def formNoPrice : ItemForm :=
  { itemName := "Salt", itemQuantity := "3", itemUnit := "g", itemPrice := "",
    itemCategory := "consumable" }

/-- A state whose custom-quantity map holds 3 for the item "Acid". -/
def stateAcidThree : State :=
  { itemCustomQuantity := ⟨[("Acid", JsNum.fin 3)]⟩ }

/-- A packing item used in one experiment. -/
def packingGroup : ResultItem :=
  { id := "Foil", name := "Foil", category := "packing", unit := "m", price := 4,
    experiments := [⟨"A", 2, 2⟩],
    total_quantity := some 4, required_quantity := some 4, total_cost := 16 }

/-- The form as openModalItemDialog fills it for the blank element of
addItemToModal. -/
def formBlank : ItemForm :=
  { itemName := "", itemQuantity := "1", itemUnit := "ml", itemPrice := "0",
    itemCategory := "consumable" }

/-- A form that passes the guards: "Salt", quantity "3", price "3". -/
def formSalt : ItemForm :=
  { itemName := "Salt", itemQuantity := "3", itemUnit := "g", itemPrice := "3",
    itemCategory := "consumable" }

/-- A state whose list holds "Acid" and "Salt", with "Salt" (index 1) open in
the item dialog. -/
def stateTwoModalItems : State :=
  { modalItems :=
      [some ⟨some "ITM_1", "Acid", JsNum.fin 5, "ml", JsNum.fin 2, "consumable"⟩,
       some ⟨some "ITM_2", "Salt", JsNum.fin 3, "g", JsNum.fin 1, "consumable"⟩]
    modalEditingItemIndex := some 1 }

/-- A form that renames the edited element to "ACID". -/
def formAcidUpper : ItemForm :=
  { itemName := "ACID", itemQuantity := "3", itemUnit := "g", itemPrice := "3",
    itemCategory := "consumable" }

/-- The values of the built-in toLowerCase on the names used below; every
other string is taken to be in lower case already. -/
def toLowerCaseSample (name : String) : String :=
  if name = "ACID" then "acid"
  else if name = "Acid" then "acid"
  else if name = "Salt" then "salt"
  else name

/-- The built-in trim on the names used below, none of which has white space
at either end. -/
def trimSample (name : String) : String := name

/-- The items "Acid" and "Salt" of an experiment, as detectItemChanges gets
them. -/
def itemsAcidSalt : List ModalItem :=
  [⟨some "ITM_1", "Acid", JsNum.fin 5, "ml", JsNum.fin 2, "consumable"⟩,
   ⟨some "ITM_2", "Salt", JsNum.fin 3, "g", JsNum.fin 1, "consumable"⟩]

/-- A consumable item used with quantity 2.5 in one experiment of 2 trials. -/
def halvesGroup : ResultItem :=
  { id := "Ethanol", name := "Ethanol", category := "consumable", unit := "ml", price := 4,
    experiments := [⟨"A", 5 / 2, 2⟩] }

/-- A consumable item used with quantity 0.1 in one experiment of 3 trials. -/
def tenthGroup : ResultItem :=
  { id := "Indicator", name := "Indicator", category := "consumable", unit := "ml", price := 2,
    experiments := [⟨"A", 1 / 10, 3⟩] }

/-! ## Arithmetic of the number model -/

namespace JsNum

@[simp] theorem fin_add_fin (a b : ℚ) : fin a + fin b = fin (a + b) := rfl

@[simp] theorem fin_mul_fin (a b : ℚ) : fin a * fin b = fin (a * b) := rfl

@[simp] theorem max2_negInf_fin (a : ℚ) : max2 negInf (fin a) = fin a := rfl

@[simp] theorem max2_fin_fin (a b : ℚ) : max2 (fin a) (fin b) = fin (max a b) := by
  simp only [max2, lt]
  by_cases h : a < b
  · simp [h, max_eq_right h.le]
  · simp [h, max_eq_left (not_lt.mp h)]

theorem foldl_max2_fin (qs : List ℚ) (a : ℚ) :
    (qs.map fin).foldl max2 (fin a) = fin (qs.foldl max a) := by
  induction qs generalizing a with
  | nil => rfl
  | cons q qs ih => simp [ih]

end JsNum

theorem foldl_max_ge_init (qs : List ℚ) (a : ℚ) : a ≤ qs.foldl max a := by
  induction qs generalizing a with
  | nil => simp
  | cons q qs ih => exact le_trans (le_max_left a q) (ih (max a q))

theorem foldl_max_ge_mem (qs : List ℚ) (a : ℚ) : ∀ x ∈ qs, x ≤ qs.foldl max a := by
  induction qs generalizing a with
  | nil => simp
  | cons q qs ih =>
    intro x hx
    rcases List.mem_cons.mp hx with rfl | hx
    · exact le_trans (le_max_right a x) (foldl_max_ge_init qs (max a x))
    · exact ih (max a q) x hx

theorem foldl_max_mem (qs : List ℚ) (a : ℚ) : qs.foldl max a = a ∨ qs.foldl max a ∈ qs := by
  induction qs generalizing a with
  | nil => simp
  | cons q qs ih =>
    rw [List.foldl_cons]
    rcases ih (max a q) with h | h
    · rcases max_choice a q with h2 | h2
      · left; rw [h, h2]
      · right; rw [h, h2]; exact List.mem_cons_self _ _
    · right; exact List.mem_cons_of_mem _ h

/-- Math.max over the raw quantities of a non-empty usage list is finite, is
one of the quantities and bounds them all. -/
theorem mathMax_quantities (es : List ExpUsage) (hne : es ≠ []) :
    ∃ q : ℚ, JsNum.mathMax (es.map (fun e => JsNum.fin e.quantity)) = JsNum.fin q ∧
      (∃ e ∈ es, e.quantity = q) ∧ ∀ e ∈ es, e.quantity ≤ q := by
  cases es with
  | nil => exact absurd rfl hne
  | cons e es =>
    have hmap : (e :: es).map (fun e => JsNum.fin e.quantity)
        = JsNum.fin e.quantity :: (es.map (fun e => e.quantity)).map JsNum.fin := by
      simp [List.map_map, Function.comp]
    refine ⟨(es.map (fun e => e.quantity)).foldl max e.quantity, ?_, ?_, ?_⟩
    · rw [JsNum.mathMax, hmap, List.foldl_cons, JsNum.max2_negInf_fin, JsNum.foldl_max2_fin]
    · rcases foldl_max_mem (es.map (fun e => e.quantity)) e.quantity with h | h
      · exact ⟨e, List.mem_cons_self _ _, h.symm⟩
      · obtain ⟨e2, he2, hq⟩ := List.mem_map.mp h
        exact ⟨e2, List.mem_cons_of_mem _ he2, hq⟩
    · intro x hx
      rcases List.mem_cons.mp hx with rfl | hx
      · exact foldl_max_ge_init _ _
      · exact foldl_max_ge_mem _ _ _ (List.mem_map_of_mem _ hx)

theorem foldl_scaled (es : List ExpUsage) (a : ℚ) :
    es.foldl (fun sum e => sum + JsNum.fin e.quantity * JsNum.fin e.trials) (JsNum.fin a)
      = JsNum.fin (a + (es.map (fun e => e.quantity * e.trials)).sum) := by
  induction es generalizing a with
  | nil => simp
  | cons e es ih =>
    rw [List.foldl_cons, JsNum.fin_mul_fin, JsNum.fin_add_fin, ih, List.map_cons,
      List.sum_cons, add_assoc]

theorem sumScaled_eq (es : List ExpUsage) :
    sumScaled es = JsNum.fin ((es.map (fun e => e.quantity * e.trials)).sum) := by
  rw [sumScaled, foldl_scaled, zero_add]

theorem foldl_raw (es : List ExpUsage) (a : ℚ) :
    es.foldl (fun sum e => sum + JsNum.fin e.quantity) (JsNum.fin a)
      = JsNum.fin (a + (es.map (fun e => e.quantity)).sum) := by
  induction es generalizing a with
  | nil => simp
  | cons e es ih =>
    rw [List.foldl_cons, JsNum.fin_add_fin, ih, List.map_cons, List.sum_cons, add_assoc]

theorem sumRaw_eq (es : List ExpUsage) :
    sumRaw es = JsNum.fin ((es.map (fun e => e.quantity)).sum) := by
  rw [sumRaw, foldl_raw, zero_add]

theorem requiredQty_equipment (st : State) (item : ResultItem)
    (hcat : item.category = "non_consumable") :
    (renderCommonItemCard st item).requiredQty
      = JsNum.mathMax (item.experiments.map (fun e => JsNum.fin e.quantity)) := by
  simp [renderCommonItemCard, hcat]

theorem requiredQty_scaled (st : State) (item : ResultItem)
    (hcat : item.category ≠ "non_consumable") :
    (renderCommonItemCard st item).requiredQty = sumScaled item.experiments := by
  simp [renderCommonItemCard, hcat]

/-! ## Required and total quantities of the item cards -/

/-- Claim C1: for a common item group of category non_consumable with at least
one usage entry, the required quantity renderCommonItemCard computes is the
maximum of the raw quantities of the entries (one of them, and at least every
one of them); it is the same for any other trials, in any state. -/
theorem renderCommonItemCard_equipment_requiredQty_is_max (st : State) (item : ResultItem)
    (hcat : item.category = "non_consumable") (hne : item.experiments ≠ []) :
    (∃ q : ℚ, (renderCommonItemCard st item).requiredQty = JsNum.fin q ∧
      (∃ e ∈ item.experiments, e.quantity = q) ∧ ∀ e ∈ item.experiments, e.quantity ≤ q) ∧
    (∀ (st2 : State) (item2 : ResultItem), item2.category = "non_consumable" →
      item2.experiments.map (fun e => e.quantity) = item.experiments.map (fun e => e.quantity) →
      (renderCommonItemCard st2 item2).requiredQty = (renderCommonItemCard st item).requiredQty) := by
  constructor
  · rw [requiredQty_equipment st item hcat]
    exact mathMax_quantities item.experiments hne
  · intro st2 item2 hcat2 hq
    rw [requiredQty_equipment st item hcat, requiredQty_equipment st2 item2 hcat2]
    have h : ∀ es : List ExpUsage, es.map (fun e => JsNum.fin e.quantity)
        = (es.map (fun e => e.quantity)).map JsNum.fin := by
      intro es; simp [List.map_map, Function.comp]
    rw [h, h, hq]

/-- Witness for C1: quantities 5 (3 trials) and 2 (1 trial) give 5. -/
theorem renderCommonItemCard_equipment_requiredQty_is_max_witness :
    equipmentTwoExps.category = "non_consumable" ∧ equipmentTwoExps.experiments ≠ [] ∧
    (renderCommonItemCard initialState equipmentTwoExps).requiredQty = JsNum.fin 5 := by
  have hne : equipmentTwoExps.experiments ≠ [] := by simp [equipmentTwoExps]
  refine ⟨rfl, hne, ?_⟩
  obtain ⟨q, hq, ⟨e, he, heq⟩, hmax⟩ :=
    (renderCommonItemCard_equipment_requiredQty_is_max initialState equipmentTwoExps rfl hne).1
  have h5 : (5 : ℚ) ≤ q := hmax ⟨"A", 5, 3⟩ (by simp [equipmentTwoExps])
  have hcases : q = 5 ∨ q = 2 := by
    simp only [equipmentTwoExps, List.mem_cons, List.mem_singleton, List.not_mem_nil,
      or_false] at he
    rcases he with rfl | rfl
    · left; exact heq.symm
    · right; exact heq.symm
  rcases hcases with h | h
  · rw [hq, h]
  · rw [h] at h5; norm_num at h5

/-- Claim C2: for an item group of category consumable or packing, the required
quantity of renderCommonItemCard and the total quantity of renderUniqueItemCard
are both the sum over the usage entries of quantity * trials, and the cost the
unique card shows is that sum times the price (so is the common card cost when
no custom quantity is stored). -/
theorem consumable_packing_quantity_is_scaled_sum (st : State) (item : ResultItem)
    (hcat : item.category = "consumable" ∨ item.category = "packing") :
    (renderCommonItemCard st item).requiredQty
      = JsNum.fin ((item.experiments.map (fun e => e.quantity * e.trials)).sum) ∧
    (renderUniqueItemCard item).totalQty
      = JsNum.fin ((item.experiments.map (fun e => e.quantity * e.trials)).sum) ∧
    (renderUniqueItemCard item).totalCost
      = JsNum.fin ((item.experiments.map (fun e => e.quantity * e.trials)).sum * item.price) ∧
    (st.itemCustomQuantity.get item.id = none →
      (renderCommonItemCard st item).displayCost
        = JsNum.fin ((item.experiments.map (fun e => e.quantity * e.trials)).sum * item.price)) := by
  have hneq : item.category ≠ "non_consumable" := by
    rcases hcat with h | h <;> rw [h] <;> decide
  have hu : (renderUniqueItemCard item).totalQty = sumScaled item.experiments := by
    simp [renderUniqueItemCard, hneq]
  refine ⟨?_, ?_, ?_, ?_⟩
  · rw [requiredQty_scaled st item hneq, sumScaled_eq]
  · rw [hu, sumScaled_eq]
  · have hc : (renderUniqueItemCard item).totalCost
        = (renderUniqueItemCard item).totalQty * JsNum.fin item.price := rfl
    rw [hc, hu, sumScaled_eq, JsNum.fin_mul_fin]
  · intro hnone
    have hc : (renderCommonItemCard st item).displayCost
        = (renderCommonItemCard st item).requiredQty * JsNum.fin item.price := by
      simp [renderCommonItemCard, hnone]
    rw [hc, requiredQty_scaled st item hneq, sumScaled_eq, JsNum.fin_mul_fin]

/-- Witness for C2: a consumable with quantity 10 and 2 trials in one
experiment gives 20, and cost 20 times the price 3. -/
theorem consumable_packing_quantity_is_scaled_sum_witness :
    (consumableOneExp.category = "consumable" ∨ consumableOneExp.category = "packing") ∧
    (renderCommonItemCard initialState consumableOneExp).requiredQty = JsNum.fin 20 ∧
    (renderUniqueItemCard consumableOneExp).totalQty = JsNum.fin 20 ∧
    (renderUniqueItemCard consumableOneExp).totalCost = JsNum.fin 60 := by
  have h := consumable_packing_quantity_is_scaled_sum initialState consumableOneExp (Or.inl rfl)
  have hs : (consumableOneExp.experiments.map (fun e => e.quantity * e.trials)).sum = 20 := by
    norm_num [consumableOneExp]
  have hp : consumableOneExp.price = 3 := rfl
  rw [hs, hp] at h
  refine ⟨Or.inl rfl, h.1, h.2.1, ?_⟩
  rw [h.2.2.1]; norm_num

/-- Claim C3: the quantity renderCommonItemCard uses for costing is the custom
quantity stored under the item id when there is one (a stored 0 included) and
the computed required quantity otherwise; the displayed cost is that quantity
times the price. -/
theorem renderCommonItemCard_costing_quantity (st : State) (item : ResultItem) :
    (∀ c : JsNum, st.itemCustomQuantity.get item.id = some c →
      (renderCommonItemCard st item).displayQty = c ∧
      (renderCommonItemCard st item).displayCost = c * JsNum.fin item.price) ∧
    (st.itemCustomQuantity.get item.id = some (JsNum.fin 0) →
      (renderCommonItemCard st item).displayQty = JsNum.fin 0 ∧
      (renderCommonItemCard st item).displayCost = JsNum.fin 0) ∧
    (st.itemCustomQuantity.get item.id = none →
      (renderCommonItemCard st item).displayQty = (renderCommonItemCard st item).requiredQty ∧
      (renderCommonItemCard st item).displayCost
        = (renderCommonItemCard st item).requiredQty * JsNum.fin item.price) := by
  refine ⟨?_, ?_, ?_⟩
  · intro c hc
    simp [renderCommonItemCard, hc]
  · intro hc
    simp [renderCommonItemCard, hc]
  · intro hc
    simp [renderCommonItemCard, hc]

/-- Witness for C3: with 0 stored for "Acid" the card costs 0 units, and
without a stored quantity it costs the required 20 units at price 3. -/
theorem renderCommonItemCard_costing_quantity_witness :
    (renderCommonItemCard stateAcidZero consumableOneExp).displayQty = JsNum.fin 0 ∧
    (renderCommonItemCard stateAcidZero consumableOneExp).displayCost = JsNum.fin 0 ∧
    (renderCommonItemCard initialState consumableOneExp).displayQty
      = (renderCommonItemCard initialState consumableOneExp).requiredQty := by
  have h := renderCommonItemCard_costing_quantity stateAcidZero consumableOneExp
  have h0 := renderCommonItemCard_costing_quantity initialState consumableOneExp
  exact ⟨(h.2.1 rfl).1, (h.2.1 rfl).2, (h0.2.2 rfl).1⟩

/-- Counterexample for C4: for an equipment group with raw quantities 5 and 2
renderUniqueItemCard costs 7 units, while the maximum of the raw quantities
(what renderCommonItemCard requires for the same group) is 5. -/
theorem renderUniqueItemCard_equipment_not_max :
    equipmentTwoExps.category = "non_consumable" ∧
    (renderUniqueItemCard equipmentTwoExps).totalQty = JsNum.fin 7 ∧
    (renderUniqueItemCard equipmentTwoExps).totalCost = JsNum.fin 350 ∧
    ¬ (∃ q : ℚ, (renderUniqueItemCard equipmentTwoExps).totalQty = JsNum.fin q ∧
        (∃ e ∈ equipmentTwoExps.experiments, e.quantity = q) ∧
        ∀ e ∈ equipmentTwoExps.experiments, e.quantity ≤ q) := by
  have hq : (renderUniqueItemCard equipmentTwoExps).totalQty = JsNum.fin 7 := by
    have h : (renderUniqueItemCard equipmentTwoExps).totalQty
        = sumRaw equipmentTwoExps.experiments := rfl
    rw [h, sumRaw_eq]; norm_num [equipmentTwoExps]
  have hc : (renderUniqueItemCard equipmentTwoExps).totalCost
      = (renderUniqueItemCard equipmentTwoExps).totalQty * JsNum.fin equipmentTwoExps.price := rfl
  refine ⟨rfl, hq, ?_, ?_⟩
  · rw [hc, hq, JsNum.fin_mul_fin]; norm_num [equipmentTwoExps]
  · rintro ⟨q, h1, ⟨e, he, heq⟩, -⟩
    rw [hq] at h1
    have hq7 : q = 7 := (JsNum.fin.inj h1).symm
    simp only [equipmentTwoExps, List.mem_cons, List.mem_singleton, List.not_mem_nil,
      or_false] at he
    rcases he with rfl | rfl
    · rw [hq7] at heq; norm_num at heq
    · rw [hq7] at heq; norm_num at heq

/-- Claim C4, amended: the quantity renderUniqueItemCard uses for costing is,
for an equipment group, the sum of the raw quantities of its usage entries
(trials not applied) and, for any other category, the sum of quantity * trials;
the cost is that quantity times the price; no stored custom quantity changes
the unique cards of the results panel. -/
theorem renderUniqueItemCard_costing_quantity (item : ResultItem) :
    (item.category = "non_consumable" →
      (renderUniqueItemCard item).totalQty
        = JsNum.fin ((item.experiments.map (fun e => e.quantity)).sum)) ∧
    (item.category ≠ "non_consumable" →
      (renderUniqueItemCard item).totalQty
        = JsNum.fin ((item.experiments.map (fun e => e.quantity * e.trials)).sum)) ∧
    (renderUniqueItemCard item).totalCost
      = (renderUniqueItemCard item).totalQty * JsNum.fin item.price ∧
    (∀ (st st2 : State) (results : Results),
      (renderResultsPanel st (some results)).map (fun p => p.uniqueCards)
        = (renderResultsPanel st2 (some results)).map (fun p => p.uniqueCards)) := by
  refine ⟨?_, ?_, rfl, ?_⟩
  · intro h
    have hu : (renderUniqueItemCard item).totalQty = sumRaw item.experiments := by
      simp [renderUniqueItemCard, h]
    rw [hu, sumRaw_eq]
  · intro h
    have hu : (renderUniqueItemCard item).totalQty = sumScaled item.experiments := by
      simp [renderUniqueItemCard, h]
    rw [hu, sumScaled_eq]
  · intro st st2 results
    rfl

/-- Witness for C4 amended: the equipment group with raw quantities 5 and 2
is costed at 5 + 2 = 7 units. -/
theorem renderUniqueItemCard_costing_quantity_witness :
    equipmentTwoExps.category = "non_consumable" ∧
    (renderUniqueItemCard equipmentTwoExps).totalQty = JsNum.fin (5 + 2) := by
  have h := (renderUniqueItemCard_costing_quantity equipmentTwoExps).1 rfl
  refine ⟨rfl, ?_⟩
  rw [h]; norm_num [equipmentTwoExps]

/-! ## The map operations -/

namespace JsMap

variable {β : Type}

theorem find_replace_of_any (l : List (String × β)) (k : String) (v : β)
    (h : l.any (fun p => p.1 == k) = true) :
    (l.map (fun p => if p.1 == k then (k, v) else p)).find? (fun p => p.1 == k) = some (k, v) := by
  induction l with
  | nil => simp at h
  | cons p l ih =>
    by_cases hp : p.1 = k
    · simp [hp]
    · have hl : l.any (fun p => p.1 == k) = true := by
        simpa [hp] using h
      simp [hp, List.find?_cons]
      simpa using ih hl

theorem find_replace_of_ne (l : List (String × β)) (k k2 : String) (v : β) (hne : k2 ≠ k) :
    ((l.map (fun p => if p.1 == k then (k, v) else p)).find? (fun p => p.1 == k2)).map Prod.snd
      = (l.find? (fun p => p.1 == k2)).map Prod.snd := by
  induction l with
  | nil => rfl
  | cons p l ih =>
    have hk : (k == k2) = false := by
      rw [beq_eq_false_iff_ne]; exact fun h => hne h.symm
    rw [List.map_cons]
    cases hpk : (p.1 == k)
    · simp only [Bool.false_eq_true, ↓reduceIte, List.find?_cons]
      cases hp2 : (p.1 == k2)
      · exact ih
      · rfl
    · have hp2 : (p.1 == k2) = false := by
        rw [beq_iff_eq] at hpk; rw [hpk]; exact hk
      simp only [↓reduceIte, List.find?_cons, hk, hp2]
      exact ih

theorem find_none_of_not_any (l : List (String × β)) (k : String)
    (h : l.any (fun p => p.1 == k) = false) : l.find? (fun p => p.1 == k) = none := by
  induction l with
  | nil => rfl
  | cons p l ih =>
    simp only [List.any_cons, Bool.or_eq_false_iff] at h
    simp [List.find?_cons, h.1, ih h.2]

theorem get_set_self (m : JsMap β) (k : String) (v : β) : (m.set k v).get k = some v := by
  unfold set get
  by_cases h : m.has k = true
  · rw [if_pos h]
    simp only [has] at h
    show Option.map Prod.snd
      ((m.entries.map (fun p => if p.1 == k then (k, v) else p)).find? (fun p => p.1 == k)) = some v
    rw [find_replace_of_any m.entries k v h]; rfl
  · rw [if_neg h]
    have h2 : m.has k = false := by simpa using h
    show Option.map Prod.snd ((m.entries ++ [(k, v)]).find? (fun p => p.1 == k)) = some v
    rw [List.find?_append, find_none_of_not_any m.entries k h2]
    simp

theorem get_set_of_ne (m : JsMap β) (k k2 : String) (v : β) (hne : k2 ≠ k) :
    (m.set k v).get k2 = m.get k2 := by
  unfold set get
  by_cases h : m.has k = true
  · rw [if_pos h]
    exact find_replace_of_ne m.entries k k2 v hne
  · rw [if_neg h]
    show Option.map Prod.snd ((m.entries ++ [(k, v)]).find? (fun p => p.1 == k2))
      = Option.map Prod.snd (m.entries.find? (fun p => p.1 == k2))
    have hk : ¬ k = k2 := fun h => hne h.symm
    rw [List.find?_append]
    cases hf : m.entries.find? (fun p => p.1 == k2) with
    | none => simp [hk]
    | some p => simp

theorem get_delete_self (m : JsMap β) (k : String) : (m.delete k).get k = none := by
  unfold delete get
  have : (m.entries.filter (fun p => !(p.1 == k))).find? (fun p => p.1 == k) = none := by
    rw [List.find?_eq_none]
    intro p hp
    have := (List.mem_filter.mp hp).2
    simpa using this
  show Option.map Prod.snd ((m.entries.filter (fun p => !(p.1 == k))).find? (fun p => p.1 == k))
    = none
  rw [this]; rfl

theorem find_filter_of_ne (l : List (String × β)) (k k2 : String) (hne : k2 ≠ k) :
    (l.filter (fun p => !(p.1 == k))).find? (fun p => p.1 == k2)
      = l.find? (fun p => p.1 == k2) := by
  induction l with
  | nil => rfl
  | cons p l ih =>
    have hk : (k == k2) = false := by
      rw [beq_eq_false_iff_ne]; exact fun h => hne h.symm
    cases hpk : (p.1 == k)
    · rw [List.filter_cons_of_pos (by simp [hpk])]
      simp only [List.find?_cons]
      cases hp2 : (p.1 == k2)
      · exact ih
      · rfl
    · have hp2 : (p.1 == k2) = false := by
        rw [beq_iff_eq] at hpk; rw [hpk]; exact hk
      rw [List.filter_cons_of_neg (by simp [hpk])]
      simp only [List.find?_cons, hp2]
      exact ih

theorem get_delete_of_ne (m : JsMap β) (k k2 : String) (hne : k2 ≠ k) :
    (m.delete k).get k2 = m.get k2 := by
  unfold delete get
  show Option.map Prod.snd ((m.entries.filter (fun p => !(p.1 == k))).find? (fun p => p.1 == k2))
    = Option.map Prod.snd (m.entries.find? (fun p => p.1 == k2))
  rw [find_filter_of_ne m.entries k k2 hne]

theorem mem_set_entries (m : JsMap β) (k : String) (v : β) (p : String × β)
    (hp : p ∈ (m.set k v).entries) : p ∈ m.entries ∨ p = (k, v) := by
  unfold set at hp
  by_cases h : m.has k = true
  · rw [if_pos h] at hp
    obtain ⟨p0, hp0, rfl⟩ := List.mem_map.mp hp
    by_cases hk : (p0.1 == k) = true
    · right; simp [hk]
    · left; simpa [hk] using hp0
  · rw [if_neg h] at hp
    rcases List.mem_append.mp hp with h1 | h1
    · exact Or.inl h1
    · exact Or.inr (List.mem_singleton.mp h1)

theorem mem_delete_entries (m : JsMap β) (k : String) (p : String × β)
    (hp : p ∈ (m.delete k).entries) : p ∈ m.entries :=
  (List.mem_filter.mp hp).1

end JsMap

/-! ## The override handlers -/

theorem calculateCosts_itemCustomQuantity (server : Server) (st : State) :
    (calculateCosts server st).itemCustomQuantity = st.itemCustomQuantity := by
  unfold calculateCosts
  split
  · rfl
  · split <;> rfl

theorem calculateCosts_itemUsageType (server : Server) (st : State) :
    (calculateCosts server st).itemUsageType = st.itemUsageType := by
  unfold calculateCosts
  split
  · rfl
  · split <;> rfl

theorem calculateCosts_selectedExperiments (server : Server) (st : State) :
    (calculateCosts server st).selectedExperiments = st.selectedExperiments := by
  unfold calculateCosts
  split
  · rfl
  · split <;> rfl

theorem JsNum.not_ge_zero_of_lt_zero (n : JsNum) (h : n.lt (JsNum.fin 0) = true) :
    n.ge (JsNum.fin 0) = false := by
  cases n with
  | nan => rfl
  | negInf => rfl
  | posInf => simp [JsNum.lt] at h
  | fin q =>
    simp only [JsNum.lt, decide_eq_true_eq] at h
    simp [JsNum.ge, JsNum.le, h]

/-- The map updateCustomQuantity leaves behind for an accepted value. -/
theorem updateCustomQuantity_accepted (parseFloat : String → JsNum) (server : Server)
    (st : State) (itemId value : String)
    (hnan : (parseFloat value).isNaN = false) (hge : (parseFloat value).ge (JsNum.fin 0) = true) :
    (updateCustomQuantity parseFloat server st itemId value).itemCustomQuantity =
      match findCommonItem st itemId with
      | some commonItem =>
        if strictNeField (parseFloat value) (requiredQtyOf commonItem) then
          st.itemCustomQuantity.set itemId (parseFloat value)
        else st.itemCustomQuantity.delete itemId
      | none => st.itemCustomQuantity.set itemId (parseFloat value) := by
  have hfind : findCommonItem { st with effects := st.effects ++ [Effect.consoleLog] } itemId
      = findCommonItem st itemId := rfl
  unfold updateCustomQuantity
  simp only [hnan, hge, Bool.not_false, Bool.and_self, ↓reduceIte, hfind,
    calculateCosts_itemCustomQuantity]
  cases findCommonItem st itemId with
  | none => rfl
  | some commonItem =>
    simp only
    split <;> rfl

/-- The state updateCustomQuantity leaves behind for a rejected value. -/
theorem updateCustomQuantity_rejected (parseFloat : String → JsNum) (server : Server)
    (st : State) (itemId value : String)
    (hbad : (parseFloat value).isNaN = true ∨ (parseFloat value).ge (JsNum.fin 0) = false) :
    updateCustomQuantity parseFloat server st itemId value
      = { st with effects := st.effects ++ [Effect.consoleLog, Effect.consoleError] } := by
  unfold updateCustomQuantity
  rcases hbad with h | h
  · simp [h]
  · simp [h]

/-- Claim C5: when the item id finds a common item in the current results and
the submitted value parses to that item's required quantity (as
updateCustomQuantity reads it: required_quantity, else total_quantity), a
quantity that is not negative, then afterwards the custom-quantity map has no
entry for the item, whatever it held before. -/
theorem updateCustomQuantity_collapses_required (parseFloat : String → JsNum) (server : Server)
    (st : State) (itemId value : String) (commonItem : ResultItem) (q : ℚ)
    (hfind : findCommonItem st itemId = some commonItem)
    (hreq : requiredQtyOf commonItem = some q)
    (hparse : parseFloat value = JsNum.fin q)
    (hq : 0 ≤ q) :
    (updateCustomQuantity parseFloat server st itemId value).itemCustomQuantity.get itemId = none ∧
    (updateCustomQuantity parseFloat server st itemId value).itemCustomQuantity.has itemId
      = false := by
  have hnan : (parseFloat value).isNaN = false := by rw [hparse]; rfl
  have hge : (parseFloat value).ge (JsNum.fin 0) = true := by
    rw [hparse]; simp [JsNum.ge, JsNum.le, hq]
  have hmap := updateCustomQuantity_accepted parseFloat server st itemId value hnan hge
  rw [hfind] at hmap
  have hs : strictNeField (parseFloat value) (requiredQtyOf commonItem) = false := by
    rw [hreq, hparse]; simp [strictNeField, JsNum.strictNe, JsNum.isNaN]
  simp only [hs, Bool.false_eq_true, ↓reduceIte] at hmap
  rw [hmap]
  refine ⟨JsMap.get_delete_self _ _, ?_⟩
  simp [JsMap.has, JsMap.delete]

/-- Witness for C5: "Acid" is a common item with required quantity 20 and a
stored custom quantity 25; submitting "20" removes the entry. -/
theorem updateCustomQuantity_collapses_required_witness :
    findCommonItem stateAcidCommon "Acid" = some consumableOneExp ∧
    requiredQtyOf consumableOneExp = some 20 ∧
    parseFloatSample "20" = JsNum.fin 20 ∧
    stateAcidCommon.itemCustomQuantity.get "Acid" = some (JsNum.fin 25) ∧
    (updateCustomQuantity parseFloatSample serverDown stateAcidCommon "Acid" "20"
      ).itemCustomQuantity.get "Acid" = none := by
  have hreq : requiredQtyOf consumableOneExp = some 20 := by
    simp [requiredQtyOf, jsOr, consumableOneExp]
  exact ⟨rfl, hreq, rfl, rfl,
    (updateCustomQuantity_collapses_required parseFloatSample serverDown stateAcidCommon
      "Acid" "20" consumableOneExp 20 rfl hreq rfl (by norm_num)).1⟩

/-- Claim C6: when the item id finds a common item and the submitted value
parses to a number n >= 0 that differs from the item's required quantity,
afterwards the custom-quantity map holds exactly n for the item (whether n is
above or below the required quantity) and every other key reads as before. -/
theorem updateCustomQuantity_stores_differing (parseFloat : String → JsNum) (server : Server)
    (st : State) (itemId value : String) (commonItem : ResultItem) (n : JsNum)
    (hfind : findCommonItem st itemId = some commonItem)
    (hparse : parseFloat value = n)
    (hnum : NonNegNumber n)
    (hne : ∀ r : ℚ, requiredQtyOf commonItem = some r → n ≠ JsNum.fin r) :
    (updateCustomQuantity parseFloat server st itemId value).itemCustomQuantity.get itemId
      = some n ∧
    ∀ k : String, k ≠ itemId →
      (updateCustomQuantity parseFloat server st itemId value).itemCustomQuantity.get k
        = st.itemCustomQuantity.get k := by
  subst hparse
  have hmap := updateCustomQuantity_accepted parseFloat server st itemId value hnum.1 hnum.2
  rw [hfind] at hmap
  have hs : strictNeField (parseFloat value) (requiredQtyOf commonItem) = true := by
    cases hr : requiredQtyOf commonItem with
    | none => rfl
    | some r =>
      have := hne r hr
      simp [strictNeField, JsNum.strictNe, this]
  simp only [hs, ↓reduceIte] at hmap
  rw [hmap]
  exact ⟨JsMap.get_set_self _ _ _, fun k hk => JsMap.get_set_of_ne _ _ _ _ hk⟩

/-- Witness for C6: with required quantity 20, submitting "25" (above) stores
25 and submitting "3" (below) stores 3; the entry of "Salt" stays 4. -/
theorem updateCustomQuantity_stores_differing_witness :
    findCommonItem stateAcidCommon "Acid" = some consumableOneExp ∧
    (updateCustomQuantity parseFloatSample serverDown stateAcidCommon "Acid" "25"
      ).itemCustomQuantity.get "Acid" = some (JsNum.fin 25) ∧
    (updateCustomQuantity parseFloatSample serverDown stateAcidCommon "Acid" "3"
      ).itemCustomQuantity.get "Acid" = some (JsNum.fin 3) ∧
    (updateCustomQuantity parseFloatSample serverDown stateAcidCommon "Acid" "3"
      ).itemCustomQuantity.get "Salt" = some (JsNum.fin 4) := by
  have hreq : requiredQtyOf consumableOneExp = some 20 := by
    simp [requiredQtyOf, jsOr, consumableOneExp]
  have h25 := updateCustomQuantity_stores_differing parseFloatSample serverDown stateAcidCommon
    "Acid" "25" consumableOneExp (JsNum.fin 25) rfl rfl
    ⟨rfl, by simp [JsNum.ge, JsNum.le]⟩
    (by intro r hr; rw [hreq] at hr; cases hr; intro h; have := JsNum.fin.inj h; norm_num at this)
  have h3 := updateCustomQuantity_stores_differing parseFloatSample serverDown stateAcidCommon
    "Acid" "3" consumableOneExp (JsNum.fin 3) rfl rfl
    ⟨rfl, by simp [JsNum.ge, JsNum.le]⟩
    (by intro r hr; rw [hreq] at hr; cases hr; intro h; have := JsNum.fin.inj h; norm_num at this)
  refine ⟨rfl, h25.1, h3.1, ?_⟩
  rw [h3.2 "Salt" (by decide)]
  rfl

theorem allNonNeg_set (m : JsMap JsNum) (k : String) (v : JsNum)
    (hm : AllNonNeg m) (hv : NonNegNumber v) : AllNonNeg (m.set k v) := by
  intro p hp
  rcases JsMap.mem_set_entries m k v p hp with h | h
  · exact hm p h
  · rw [h]; exact hv

theorem allNonNeg_delete (m : JsMap JsNum) (k : String) (hm : AllNonNeg m) :
    AllNonNeg (m.delete k) :=
  fun p hp => hm p (JsMap.mem_delete_entries m k p hp)

theorem updateCustomQuantity_allNonNeg (parseFloat : String → JsNum) (server : Server)
    (st : State) (itemId value : String) (hm : AllNonNeg st.itemCustomQuantity) :
    AllNonNeg (updateCustomQuantity parseFloat server st itemId value).itemCustomQuantity := by
  cases hnan : (parseFloat value).isNaN with
  | true => rw [updateCustomQuantity_rejected parseFloat server st itemId value (Or.inl hnan)]
            exact hm
  | false =>
    cases hge : (parseFloat value).ge (JsNum.fin 0) with
    | false => rw [updateCustomQuantity_rejected parseFloat server st itemId value (Or.inr hge)]
               exact hm
    | true =>
      rw [updateCustomQuantity_accepted parseFloat server st itemId value hnan hge]
      cases findCommonItem st itemId with
      | none => exact allNonNeg_set _ _ _ hm ⟨hnan, hge⟩
      | some commonItem =>
        simp only
        split
        · exact allNonNeg_set _ _ _ hm ⟨hnan, hge⟩
        · exact allNonNeg_delete _ _ hm

theorem markAsUnique_itemCustomQuantity (server : Server) (st : State) (itemId : String) :
    (markAsUnique server st itemId).itemCustomQuantity = st.itemCustomQuantity.delete itemId := by
  unfold markAsUnique
  simp only [calculateCosts_itemCustomQuantity]

theorem markAsUnique_itemUsageType (server : Server) (st : State) (itemId : String) :
    (markAsUnique server st itemId).itemUsageType = st.itemUsageType.set itemId "unique" := by
  unfold markAsUnique
  simp only [calculateCosts_itemUsageType]

theorem markAsCommon_itemCustomQuantity (server : Server) (st : State) (itemId : String) :
    (markAsCommon server st itemId).itemCustomQuantity = st.itemCustomQuantity := by
  unfold markAsCommon
  simp only [calculateCosts_itemCustomQuantity]

theorem markAsCommon_itemUsageType (server : Server) (st : State) (itemId : String) :
    (markAsCommon server st itemId).itemUsageType = st.itemUsageType.set itemId "common" := by
  unfold markAsCommon
  simp only [calculateCosts_itemUsageType]

theorem toggleExperiment_itemCustomQuantity (server : Server) (st : State) (expId : String) :
    (toggleExperiment server st expId).itemCustomQuantity = st.itemCustomQuantity := by
  unfold toggleExperiment
  simp only [calculateCosts_itemCustomQuantity]
  split <;> rfl

theorem toggleExperiment_itemUsageType (server : Server) (st : State) (expId : String) :
    (toggleExperiment server st expId).itemUsageType = st.itemUsageType := by
  unfold toggleExperiment
  simp only [calculateCosts_itemUsageType]
  split <;> rfl

theorem step_allNonNeg (parseFloat : String → JsNum) (st : State) (call : Server × Op)
    (hm : AllNonNeg st.itemCustomQuantity) :
    AllNonNeg (step parseFloat st call).itemCustomQuantity := by
  obtain ⟨server, op⟩ := call
  cases op with
  | updateCustomQuantity itemId value =>
    exact updateCustomQuantity_allNonNeg parseFloat server st itemId value hm
  | markAsUnique itemId =>
    show AllNonNeg (markAsUnique server st itemId).itemCustomQuantity
    rw [markAsUnique_itemCustomQuantity]; exact allNonNeg_delete _ _ hm
  | markAsCommon itemId =>
    show AllNonNeg (markAsCommon server st itemId).itemCustomQuantity
    rw [markAsCommon_itemCustomQuantity]; exact hm
  | toggleExperiment expId =>
    show AllNonNeg (toggleExperiment server st expId).itemCustomQuantity
    rw [toggleExperiment_itemCustomQuantity]; exact hm

theorem run_allNonNeg (parseFloat : String → JsNum) (calls : List (Server × Op)) (st : State)
    (hm : AllNonNeg st.itemCustomQuantity) :
    AllNonNeg (run parseFloat st calls).itemCustomQuantity := by
  induction calls generalizing st with
  | nil => exact hm
  | cons call calls ih => exact ih (step parseFloat st call) (step_allNonNeg parseFloat st call hm)

/-- Claim C7: for a submitted value that parses to NaN or to a negative number,
updateCustomQuantity leaves both override maps and the current results as they
were and does nothing but write to the console (no request, no rendering);
and from an empty custom-quantity map, after any sequence of handler calls,
every value held in the map is a number, not NaN, that is at least zero. -/
theorem updateCustomQuantity_rejects_invalid :
    (∀ (parseFloat : String → JsNum) (server : Server) (st : State) (itemId value : String),
      ((parseFloat value).isNaN = true ∨ (parseFloat value).lt (JsNum.fin 0) = true) →
      (updateCustomQuantity parseFloat server st itemId value).itemCustomQuantity
        = st.itemCustomQuantity ∧
      (updateCustomQuantity parseFloat server st itemId value).itemUsageType
        = st.itemUsageType ∧
      (updateCustomQuantity parseFloat server st itemId value).currentResults
        = st.currentResults ∧
      (updateCustomQuantity parseFloat server st itemId value).effects
        = st.effects ++ [Effect.consoleLog, Effect.consoleError]) ∧
    (∀ (parseFloat : String → JsNum) (st : State) (calls : List (Server × Op)),
      st.itemCustomQuantity = JsMap.empty →
      AllNonNeg (run parseFloat st calls).itemCustomQuantity) := by
  constructor
  · intro parseFloat server st itemId value hbad
    have hrej : (parseFloat value).isNaN = true ∨ (parseFloat value).ge (JsNum.fin 0) = false :=
      hbad.imp id (JsNum.not_ge_zero_of_lt_zero _)
    rw [updateCustomQuantity_rejected parseFloat server st itemId value hrej]
    exact ⟨rfl, rfl, rfl, rfl⟩
  · intro parseFloat st calls hempty
    apply run_allNonNeg
    rw [hempty]
    intro p hp
    simp [JsMap.empty] at hp

/-- Witness for C7: the text "abc" and the value "-1" leave the map of
stateAcidCommon as it was, and a run from the initial state that submits "3"
and then "-1" for "Acid" holds only values that are at least zero. -/
theorem updateCustomQuantity_rejects_invalid_witness :
    (parseFloatSample "abc").isNaN = true ∧
    (parseFloatSample "-1").lt (JsNum.fin 0) = true ∧
    (updateCustomQuantity parseFloatSample serverDown stateAcidCommon "Acid" "abc"
      ).itemCustomQuantity = stateAcidCommon.itemCustomQuantity ∧
    (updateCustomQuantity parseFloatSample serverDown stateAcidCommon "Acid" "-1"
      ).itemCustomQuantity = stateAcidCommon.itemCustomQuantity ∧
    AllNonNeg (run parseFloatSample initialState
      [(serverDown, Op.updateCustomQuantity "Acid" "3"),
       (serverDown, Op.updateCustomQuantity "Acid" "-1")]).itemCustomQuantity := by
  have hneg : (parseFloatSample "-1").lt (JsNum.fin 0) = true := by
    have hp : parseFloatSample "-1" = JsNum.fin (-1) := rfl
    rw [hp]; simp [JsNum.lt]
  exact ⟨rfl, hneg,
    (updateCustomQuantity_rejects_invalid.1 parseFloatSample serverDown stateAcidCommon
      "Acid" "abc" (Or.inl rfl)).1,
    (updateCustomQuantity_rejects_invalid.1 parseFloatSample serverDown stateAcidCommon
      "Acid" "-1" (Or.inr hneg)).1,
    updateCustomQuantity_rejects_invalid.2 parseFloatSample initialState _ rfl⟩

/-- Claim C8: after markAsUnique the usage-type map holds "unique" for the key
and the custom-quantity map has no entry for it, and both maps read as before
at every other key. -/
theorem markAsUnique_sets_unique_clears_custom (server : Server) (st : State) (k : String) :
    (markAsUnique server st k).itemUsageType.get k = some "unique" ∧
    (markAsUnique server st k).itemCustomQuantity.get k = none ∧
    ∀ k2 : String, k2 ≠ k →
      (markAsUnique server st k).itemUsageType.get k2 = st.itemUsageType.get k2 ∧
      (markAsUnique server st k).itemCustomQuantity.get k2 = st.itemCustomQuantity.get k2 := by
  rw [markAsUnique_itemUsageType, markAsUnique_itemCustomQuantity]
  exact ⟨JsMap.get_set_self _ _ _, JsMap.get_delete_self _ _,
    fun k2 hk => ⟨JsMap.get_set_of_ne _ _ _ _ hk, JsMap.get_delete_of_ne _ _ _ hk⟩⟩

/-- Witness for C8: marking "Acid" unique in stateAcidCommon drops its stored
25 and keeps the entries of "Salt" in both maps. -/
theorem markAsUnique_sets_unique_clears_custom_witness :
    stateAcidCommon.itemCustomQuantity.get "Acid" = some (JsNum.fin 25) ∧
    (markAsUnique serverDown stateAcidCommon "Acid").itemUsageType.get "Acid" = some "unique" ∧
    (markAsUnique serverDown stateAcidCommon "Acid").itemCustomQuantity.get "Acid" = none ∧
    (markAsUnique serverDown stateAcidCommon "Acid").itemUsageType.get "Salt" = some "common" ∧
    (markAsUnique serverDown stateAcidCommon "Acid").itemCustomQuantity.get "Salt"
      = some (JsNum.fin 4) := by
  have h := markAsUnique_sets_unique_clears_custom serverDown stateAcidCommon "Acid"
  have h2 := h.2.2 "Salt" (by decide)
  refine ⟨rfl, h.1, h.2.1, ?_, ?_⟩
  · rw [h2.1]; rfl
  · rw [h2.2]; rfl

/-- Counterexample for C9: with no current results, and also with results in
which "Salt" is not a common item, submitting the valid value "3" for "Salt"
changes the custom-quantity map: it then holds 3 for "Salt". -/
theorem updateCustomQuantity_stores_for_non_common :
    (findCommonItem initialState "Salt" = none ∧
     NonNegNumber (parseFloatSample "3") ∧
     (updateCustomQuantity parseFloatSample serverDown initialState "Salt" "3"
       ).itemCustomQuantity.get "Salt" = some (JsNum.fin 3) ∧
     (updateCustomQuantity parseFloatSample serverDown initialState "Salt" "3"
       ).itemCustomQuantity ≠ initialState.itemCustomQuantity) ∧
    (findCommonItem stateAcidCommon "Salt" = none ∧
     (updateCustomQuantity parseFloatSample serverDown stateAcidCommon "Salt" "3"
       ).itemCustomQuantity.get "Salt" = some (JsNum.fin 3) ∧
     (updateCustomQuantity parseFloatSample serverDown stateAcidCommon "Salt" "3"
       ).itemCustomQuantity ≠ stateAcidCommon.itemCustomQuantity) := by
  have hp : parseFloatSample "3" = JsNum.fin 3 := rfl
  have hnum : NonNegNumber (parseFloatSample "3") := by
    rw [hp]; exact ⟨rfl, by simp [JsNum.ge, JsNum.le]⟩
  have h1 := updateCustomQuantity_accepted parseFloatSample serverDown initialState
    "Salt" "3" hnum.1 hnum.2
  have h2 := updateCustomQuantity_accepted parseFloatSample serverDown stateAcidCommon
    "Salt" "3" hnum.1 hnum.2
  have hf1 : findCommonItem initialState "Salt" = none := rfl
  have hf2 : findCommonItem stateAcidCommon "Salt" = none := rfl
  rw [hf1] at h1
  rw [hf2] at h2
  simp only at h1 h2
  have g1 : (updateCustomQuantity parseFloatSample serverDown initialState "Salt" "3"
      ).itemCustomQuantity.get "Salt" = some (JsNum.fin 3) := by
    rw [h1, JsMap.get_set_self, hp]
  have g2 : (updateCustomQuantity parseFloatSample serverDown stateAcidCommon "Salt" "3"
      ).itemCustomQuantity.get "Salt" = some (JsNum.fin 3) := by
    rw [h2, JsMap.get_set_self, hp]
  refine ⟨⟨hf1, hnum, g1, ?_⟩, ⟨hf2, g2, ?_⟩⟩
  · intro heq
    rw [heq] at g1
    exact absurd g1 (by simp [initialState, JsMap.get, JsMap.empty])
  · intro heq
    rw [heq] at g2
    have h4 : stateAcidCommon.itemCustomQuantity.get "Salt" = some (JsNum.fin 4) := rfl
    rw [h4] at g2
    have := JsNum.fin.inj (Option.some.inj g2)
    norm_num at this

/-- Claim C9, amended: when the item id finds no common item in the current
results (or there are no current results) and the submitted value parses to a
number that is at least zero, updateCustomQuantity stores that number under
the id, and every other key reads as before. -/
theorem updateCustomQuantity_non_common_stored (parseFloat : String → JsNum) (server : Server)
    (st : State) (itemId value : String)
    (hnone : findCommonItem st itemId = none)
    (hnum : NonNegNumber (parseFloat value)) :
    (updateCustomQuantity parseFloat server st itemId value).itemCustomQuantity.get itemId
      = some (parseFloat value) ∧
    ∀ k : String, k ≠ itemId →
      (updateCustomQuantity parseFloat server st itemId value).itemCustomQuantity.get k
        = st.itemCustomQuantity.get k := by
  have hmap := updateCustomQuantity_accepted parseFloat server st itemId value hnum.1 hnum.2
  rw [hnone] at hmap
  simp only at hmap
  rw [hmap]
  exact ⟨JsMap.get_set_self _ _ _, fun k hk => JsMap.get_set_of_ne _ _ _ _ hk⟩

/-- Witness for C9 amended: with no current results, "3" submitted for "Salt"
is stored. -/
theorem updateCustomQuantity_non_common_stored_witness :
    findCommonItem initialState "Salt" = none ∧
    NonNegNumber (parseFloatSample "3") ∧
    (updateCustomQuantity parseFloatSample serverDown initialState "Salt" "3"
      ).itemCustomQuantity.get "Salt" = some (parseFloatSample "3") := by
  have hnum : NonNegNumber (parseFloatSample "3") := by
    have hp : parseFloatSample "3" = JsNum.fin 3 := rfl
    rw [hp]; exact ⟨rfl, by simp [JsNum.ge, JsNum.le]⟩
  exact ⟨rfl, hnum,
    (updateCustomQuantity_non_common_stored parseFloatSample serverDown initialState
      "Salt" "3" rfl hnum).1⟩

/-! ## Total cost -/

theorem sum_map_filter_split {α : Type} (l : List α) (p : α → Bool) (f : α → ℚ) :
    (l.map f).sum = ((l.filter p).map f).sum + ((l.filter (fun x => !p x)).map f).sum := by
  induction l with
  | nil => simp
  | cons x l ih =>
    cases hp : p x
    · rw [List.filter_cons_of_neg (by simp [hp]), List.filter_cons_of_pos (by simp [hp]),
        List.map_cons, List.map_cons, List.sum_cons, List.sum_cons, ih]
      ring
    · rw [List.filter_cons_of_pos (by simp [hp]), List.filter_cons_of_neg (by simp [hp]),
        List.map_cons, List.map_cons, List.sum_cons, List.sum_cons, ih]
      ring

theorem foldl_add_fin {α : Type} (items : List α) (F : α → JsNum) (f : α → ℚ)
    (h : ∀ x ∈ items, F x = JsNum.fin (f x)) (a : ℚ) :
    items.foldl (fun sum x => sum + F x) (JsNum.fin a) = JsNum.fin (a + (items.map f).sum) := by
  induction items generalizing a with
  | nil => simp
  | cons x items ih =>
    rw [List.foldl_cons, h x (List.mem_cons_self _ _), JsNum.fin_add_fin,
      ih (fun y hy => h y (List.mem_cons_of_mem _ hy)), List.map_cons, List.sum_cons, add_assoc]

theorem clientQuantities_get (customQuantities : JsMap ℚ) (k : String) :
    (clientQuantities customQuantities).get k = (customQuantities.get k).map JsNum.fin := by
  unfold clientQuantities JsMap.get
  induction customQuantities.entries with
  | nil => rfl
  | cons p l ih =>
    simp only [List.map_cons, List.find?_cons]
    cases hp : (p.1 == k)
    · exact ih
    · rfl

theorem buildGroup_cost (usageOverrides : JsMap UsageKind) (customQuantities : JsMap ℚ)
    (all : List Occurrence) (first : Occurrence) :
    (buildGroup usageOverrides customQuantities all first).cost
      = (buildGroup usageOverrides customQuantities all first).effectiveQuantity
        * (buildGroup usageOverrides customQuantities all first).pricePerUnit := rfl

/-- For a group classified Common, the export lists the effective quantity of
the engine when the client map agrees with the map the engine was given. -/
theorem exportDisplayQty_common (usageOverrides : JsMap UsageKind) (customQuantities : JsMap ℚ)
    (all : List Occurrence) (first : Occurrence) (st : State)
    (hmap : ∀ k, st.itemCustomQuantity.get k = (customQuantities.get k).map JsNum.fin)
    (hcommon : classify usageOverrides all first = UsageKind.common) :
    exportDisplayQty st (buildGroup usageOverrides customQuantities all first).toJson
      = JsNum.fin (buildGroup usageOverrides customQuantities all first).effectiveQuantity := by
  have hid : (buildGroup usageOverrides customQuantities all first).toJson.id
      = first.lineItem.itemName := rfl
  unfold exportDisplayQty
  rw [hid, hmap]
  cases hc : customQuantities.get first.lineItem.itemName with
  | none => rfl
  | some c =>
    simp only [Option.map_some', buildGroup, hcommon, hc]

theorem scenario_results :
    (aggregate [experimentA, experimentB] JsMap.empty ⟨[("Beaker", 3)]⟩).toJson
      = { selected_count := 2, total_cost := 173,
          common_items :=
            [{ id := "Beaker", name := "Beaker", category := "non_consumable", unit := "pcs",
               price := 50, experiments := [⟨"A", 1, 2⟩, ⟨"B", 1, 1⟩],
               total_quantity := some 3, required_quantity := some 1, total_cost := 150 }],
          unique_items :=
            [{ id := "Acid", name := "Acid", category := "consumable", unit := "ml",
               price := 2, experiments := [⟨"A", 5, 2⟩],
               total_quantity := some 10, required_quantity := some 10, total_cost := 20 },
             { id := "Salt", name := "Salt", category := "consumable", unit := "g",
               price := 1, experiments := [⟨"B", 3, 1⟩],
               total_quantity := some 3, required_quantity := some 3, total_cost := 3 }] } := by
  simp [aggregate, allOccurrences, firstOccurrences, buildGroup, experimentA, experimentB,
    classify, occurrencesOf, JsMap.get, JsMap.empty, distinctStrings, requiredQuantityOf,
    effectivePerExperiment, AggregationResult.toJson, ItemGroup.toJson, ItemCategory.toJson]
  norm_num

/-- Counterexample for C10: the scenario state holds the response of the
engine for 3 beakers (GRAND TOTAL 173 = 150 + 23).  The user types 25 for
"Beaker" and the request to /api/calculate fails: updateCustomQuantity has
stored 25, the results are still the old ones, and exportToExcel writes Common
Items Cost 1250 and Unique Items Cost 23 beside GRAND TOTAL 173. -/
theorem export_total_stale_after_failed_request :
    exportToExcel true stateScenario
      = some { commonItemsCost := JsNum.fin 150, uniqueItemsCost := JsNum.fin 23,
               grandTotal := JsNum.fin 173 } ∧
    (updateCustomQuantity parseFloatSample serverDown stateScenario "Beaker" "25"
      ).itemCustomQuantity.get "Beaker" = some (JsNum.fin 25) ∧
    (updateCustomQuantity parseFloatSample serverDown stateScenario "Beaker" "25"
      ).currentResults = stateScenario.currentResults ∧
    exportToExcel true
        (updateCustomQuantity parseFloatSample serverDown stateScenario "Beaker" "25")
      = some { commonItemsCost := JsNum.fin 1250, uniqueItemsCost := JsNum.fin 23,
               grandTotal := JsNum.fin 173 } ∧
    JsNum.fin 173 ≠ JsNum.fin 1250 + JsNum.fin 23 := by
  have hp : parseFloatSample "25" = JsNum.fin 25 := by decide
  have hst : stateScenario
      = { selectedExperiments := ["A", "B"]
          itemCustomQuantity := ⟨[("Beaker", JsNum.fin 3)]⟩
          currentResults := some
            { selected_count := 2, total_cost := 173,
              common_items :=
                [{ id := "Beaker", name := "Beaker", category := "non_consumable", unit := "pcs",
                   price := 50, experiments := [⟨"A", 1, 2⟩, ⟨"B", 1, 1⟩],
                   total_quantity := some 3, required_quantity := some 1, total_cost := 150 }],
              unique_items :=
                [{ id := "Acid", name := "Acid", category := "consumable", unit := "ml",
                   price := 2, experiments := [⟨"A", 5, 2⟩],
                   total_quantity := some 10, required_quantity := some 10, total_cost := 20 },
                 { id := "Salt", name := "Salt", category := "consumable", unit := "g",
                   price := 1, experiments := [⟨"B", 3, 1⟩],
                   total_quantity := some 3, required_quantity := some 3, total_cost := 3 }] } } := by
    unfold stateScenario
    rw [scenario_results]
    rfl
  have hupd : updateCustomQuantity parseFloatSample serverDown stateScenario "Beaker" "25"
      = { stateScenario with
          itemCustomQuantity := ⟨[("Beaker", JsNum.fin 25)]⟩
          effects := [Effect.consoleLog,
            Effect.fetchCalculate
              { experiment_ids := ["A", "B"], item_usage_type := JsMap.empty,
                item_custom_quantity := ⟨[("Beaker", JsNum.fin 25)]⟩ },
            Effect.consoleError, Effect.showError] } := by
    rw [hst]
    simp [updateCustomQuantity, hp, findCommonItem, requiredQtyOf, jsOr,
      strictNeField, JsNum.strictNe, JsNum.isNaN, JsNum.ge, JsNum.le, calculateCosts,
      calcRequestOf, serverDown, JsMap.set, JsMap.has, JsMap.get]
  refine ⟨?_, ?_, ?_, ?_, ?_⟩
  · rw [hst]
    simp [exportToExcel, totalCommonCost, totalUniqueCost, exportDisplayQty, JsMap.get]
    norm_num
  · rw [hupd]; rfl
  · rw [hupd]
  · rw [hupd, hst]
    simp [exportToExcel, totalCommonCost, totalUniqueCost, exportDisplayQty, JsMap.get]
    norm_num
  · rw [JsNum.fin_add_fin]
    intro h
    have := JsNum.fin.inj h
    norm_num at this

/-- Claim C10, amended: the total cost the engine reports is the sum, over the
groups of common_items and unique_items, of effective quantity * price; and
whenever state.currentResults is the response of the engine to the custom
quantities state.itemCustomQuantity holds, exportToExcel writes a GRAND TOTAL
equal to its Common Items Cost plus its Unique Items Cost (values before
toFixed). -/
theorem total_cost_identity (selectedExperiments : List Experiment)
    (usageOverrides : JsMap UsageKind) (customQuantities : JsMap ℚ) :
    (aggregate selectedExperiments usageOverrides customQuantities).totalCost =
      (((aggregate selectedExperiments usageOverrides customQuantities).commonItems ++
        (aggregate selectedExperiments usageOverrides customQuantities).uniqueItems).map
          (fun g => g.effectiveQuantity * g.pricePerUnit)).sum ∧
    ∀ st : State,
      st.currentResults
        = some (aggregate selectedExperiments usageOverrides customQuantities).toJson →
      (∀ k, st.itemCustomQuantity.get k = (customQuantities.get k).map JsNum.fin) →
      ∃ summary : ProcurementSummary,
        exportToExcel true st = some summary ∧
        summary.grandTotal
          = JsNum.fin (aggregate selectedExperiments usageOverrides customQuantities).totalCost ∧
        summary.grandTotal = summary.commonItemsCost + summary.uniqueItemsCost := by
  have hsplit := sum_map_filter_split
    (firstOccurrences (allOccurrences selectedExperiments))
    (fun f => decide (classify usageOverrides (allOccurrences selectedExperiments) f
      = UsageKind.common))
    (fun f => (buildGroup usageOverrides customQuantities
      (allOccurrences selectedExperiments) f).cost)
  constructor
  · simp only [aggregate, List.map_append, List.sum_append, List.map_map]
    exact hsplit
  · intro st hres hmap
    refine ⟨{ commonItemsCost := totalCommonCost st
                (aggregate selectedExperiments usageOverrides customQuantities).toJson
              uniqueItemsCost := totalUniqueCost
                (aggregate selectedExperiments usageOverrides customQuantities).toJson
              grandTotal := JsNum.fin
                (aggregate selectedExperiments usageOverrides customQuantities).toJson.total_cost },
      by simp [exportToExcel, hres], rfl, ?_⟩
    have hcommon : totalCommonCost st
        (aggregate selectedExperiments usageOverrides customQuantities).toJson
        = JsNum.fin (0 + (((firstOccurrences (allOccurrences selectedExperiments)).filter
            (fun f => decide (classify usageOverrides (allOccurrences selectedExperiments) f
              = UsageKind.common))).map
            (fun f => (buildGroup usageOverrides customQuantities
              (allOccurrences selectedExperiments) f).cost)).sum) := by
      simp only [totalCommonCost, AggregationResult.toJson, aggregate, List.map_map,
        List.foldl_map]
      apply foldl_add_fin
      intro f hf
      have hc : classify usageOverrides (allOccurrences selectedExperiments) f
          = UsageKind.common := by
        simpa using (List.mem_filter.mp hf).2
      simp only [Function.comp]
      rw [exportDisplayQty_common usageOverrides customQuantities _ f st hmap hc]
      rfl
    have hunique : totalUniqueCost
        (aggregate selectedExperiments usageOverrides customQuantities).toJson
        = JsNum.fin (0 + (((firstOccurrences (allOccurrences selectedExperiments)).filter
            (fun f => !decide (classify usageOverrides (allOccurrences selectedExperiments) f
              = UsageKind.common))).map
            (fun f => (buildGroup usageOverrides customQuantities
              (allOccurrences selectedExperiments) f).cost)).sum) := by
      simp only [totalUniqueCost, AggregationResult.toJson, aggregate, List.map_map,
        List.foldl_map]
      apply foldl_add_fin
      intro f _
      rfl
    show JsNum.fin _ = totalCommonCost st _ + totalUniqueCost _
    rw [hcommon, hunique, JsNum.fin_add_fin, zero_add, zero_add]
    congr 1
    simp only [AggregationResult.toJson, aggregate, List.map_map]
    exact hsplit

/-- Witness for C10: in the scenario of experiments A and B with 3 beakers to
procure the engine reports 173, and the export writes that grand total as the
sum of its two cost lines. -/
theorem total_cost_identity_witness :
    (aggregate [experimentA, experimentB] JsMap.empty ⟨[("Beaker", 3)]⟩).totalCost = 173 ∧
    stateScenario.currentResults
      = some (aggregate [experimentA, experimentB] JsMap.empty ⟨[("Beaker", 3)]⟩).toJson ∧
    (∀ k, stateScenario.itemCustomQuantity.get k
      = (JsMap.get (⟨[("Beaker", 3)]⟩ : JsMap ℚ) k).map JsNum.fin) ∧
    ∃ summary : ProcurementSummary,
      exportToExcel true stateScenario = some summary ∧
      summary.grandTotal = JsNum.fin 173 ∧
      summary.grandTotal = summary.commonItemsCost + summary.uniqueItemsCost := by
  have htotal :
      (aggregate [experimentA, experimentB] JsMap.empty ⟨[("Beaker", 3)]⟩).totalCost = 173 := by
    simp [aggregate, allOccurrences, firstOccurrences, buildGroup, experimentA, experimentB,
      classify, occurrencesOf, JsMap.get, JsMap.empty, distinctStrings, requiredQuantityOf,
      effectivePerExperiment]
    norm_num
  have hmap : ∀ k, stateScenario.itemCustomQuantity.get k
      = (JsMap.get (⟨[("Beaker", 3)]⟩ : JsMap ℚ) k).map JsNum.fin :=
    fun k => clientQuantities_get _ k
  obtain ⟨summary, h1, h2, h3⟩ :=
    (total_cost_identity [experimentA, experimentB] JsMap.empty ⟨[("Beaker", 3)]⟩).2
      stateScenario rfl hmap
  rw [htotal] at h2
  exact ⟨htotal, rfl, hmap, summary, h1, h2, h3⟩

/-! ## The end-to-end scenario -/

/-- Claim C11: in the scenario of experiments A (2 trials: Beaker 1, Acid 5)
and B (1 trial: Beaker 1, Salt 3) with no custom quantity stored, the common
card of Beaker requires 1 and costs 50, the unique cards give Acid 10 units
costing 20 and Salt 3 units costing 3, and the three costs add up to 73. -/
theorem scenario_cards (st : State) (hnone : st.itemCustomQuantity = JsMap.empty) :
    (renderCommonItemCard st beakerGroup).requiredQty = JsNum.fin 1 ∧
    (renderCommonItemCard st beakerGroup).displayCost = JsNum.fin 50 ∧
    (renderUniqueItemCard acidGroup).totalQty = JsNum.fin 10 ∧
    (renderUniqueItemCard acidGroup).totalCost = JsNum.fin 20 ∧
    (renderUniqueItemCard saltGroup).totalQty = JsNum.fin 3 ∧
    (renderUniqueItemCard saltGroup).totalCost = JsNum.fin 3 ∧
    (renderCommonItemCard st beakerGroup).displayCost + (renderUniqueItemCard acidGroup).totalCost
      + (renderUniqueItemCard saltGroup).totalCost = JsNum.fin 73 := by
  have hreq : (renderCommonItemCard st beakerGroup).requiredQty = JsNum.fin 1 := by
    rw [requiredQty_equipment st beakerGroup rfl]
    simp [beakerGroup, JsNum.mathMax]
  have hget : st.itemCustomQuantity.get beakerGroup.id = none := by
    rw [hnone]; rfl
  have hcost : (renderCommonItemCard st beakerGroup).displayCost = JsNum.fin 50 := by
    have hc : (renderCommonItemCard st beakerGroup).displayCost
        = (renderCommonItemCard st beakerGroup).requiredQty * JsNum.fin beakerGroup.price := by
      simp [renderCommonItemCard, hget]
    rw [hc, hreq, JsNum.fin_mul_fin]; norm_num [beakerGroup]
  have hacid : (renderUniqueItemCard acidGroup).totalQty = JsNum.fin 10 := by
    have h : (renderUniqueItemCard acidGroup).totalQty = sumScaled acidGroup.experiments := rfl
    rw [h, sumScaled_eq]; norm_num [acidGroup]
  have hsalt : (renderUniqueItemCard saltGroup).totalQty = JsNum.fin 3 := by
    have h : (renderUniqueItemCard saltGroup).totalQty = sumScaled saltGroup.experiments := rfl
    rw [h, sumScaled_eq]; norm_num [saltGroup]
  have hacidCost : (renderUniqueItemCard acidGroup).totalCost = JsNum.fin 20 := by
    have h : (renderUniqueItemCard acidGroup).totalCost
        = (renderUniqueItemCard acidGroup).totalQty * JsNum.fin acidGroup.price := rfl
    rw [h, hacid, JsNum.fin_mul_fin]; norm_num [acidGroup]
  have hsaltCost : (renderUniqueItemCard saltGroup).totalCost = JsNum.fin 3 := by
    have h : (renderUniqueItemCard saltGroup).totalCost
        = (renderUniqueItemCard saltGroup).totalQty * JsNum.fin saltGroup.price := rfl
    rw [h, hsalt, JsNum.fin_mul_fin]; norm_num [saltGroup]
  refine ⟨hreq, hcost, hacid, hacidCost, hsalt, hsaltCost, ?_⟩
  rw [hcost, hacidCost, hsaltCost, JsNum.fin_add_fin, JsNum.fin_add_fin]
  norm_num

/-- Witness for C11: the initial state of the page stores no custom quantity. -/
theorem scenario_cards_witness :
    initialState.itemCustomQuantity = JsMap.empty ∧
    (renderCommonItemCard initialState beakerGroup).requiredQty = JsNum.fin 1 ∧
    (renderCommonItemCard initialState beakerGroup).displayCost
      + (renderUniqueItemCard acidGroup).totalCost
      + (renderUniqueItemCard saltGroup).totalCost = JsNum.fin 73 :=
  ⟨rfl, (scenario_cards initialState rfl).1, (scenario_cards initialState rfl).2.2.2.2.2.2⟩

/-! ## Per-experiment breakdowns -/

/-- Claim C12: renderPreviewModal, savePreviewData and both sheets of
exportToExcel, for unique and for common items, compute one and the same
per-experiment quantity for every category string, quantity and trials; it is
the raw quantity for non_consumable and quantity * trials for packing and
consumable, as the specification words it. -/
theorem per_experiment_quantity_consistent (item : ResultItem) (e : ExpUsage) :
    (previewCommonQty item e = previewUniqueQty item e ∧
     savePreviewUniqueQty item e = previewUniqueQty item e ∧
     savePreviewCommonQty item e = previewUniqueQty item e ∧
     excelExperimentsUniqueQty item e = previewUniqueQty item e ∧
     excelExperimentsCommonQty item e = previewUniqueQty item e ∧
     excelUniqueSheetQty item e = previewUniqueQty item e) ∧
    (∀ c : ItemCategory, item.category = c.toJson →
      previewUniqueQty item e = JsNum.fin (perExperimentQtySpec c e.quantity e.trials)) := by
  constructor
  · refine ⟨rfl, rfl, rfl, rfl, rfl, ?_⟩
    unfold excelUniqueSheetQty previewUniqueQty
    by_cases h : item.category = "non_consumable"
    · simp [h]
    · simp [h]
  · intro c hc
    cases c with
    | consumable =>
      have h1 : item.category ≠ "non_consumable" := by rw [hc]; decide
      simp [previewUniqueQty, h1, perExperimentQtySpec]
    | packing =>
      have h1 : item.category ≠ "non_consumable" := by rw [hc]; decide
      simp [previewUniqueQty, h1, perExperimentQtySpec]
    | nonConsumable =>
      have h1 : item.category = "non_consumable" := hc
      simp [previewUniqueQty, h1, perExperimentQtySpec]

/-- Witness for C12: the Beaker entry of experiment A (quantity 1, 2 trials)
is listed as 1 and the Acid entry (quantity 5, 2 trials) as 10. -/
theorem per_experiment_quantity_consistent_witness :
    beakerGroup.category = ItemCategory.nonConsumable.toJson ∧
    excelUniqueSheetQty beakerGroup ⟨"A", 1, 2⟩ = JsNum.fin 1 ∧
    acidGroup.category = ItemCategory.consumable.toJson ∧
    savePreviewCommonQty acidGroup ⟨"A", 5, 2⟩ = JsNum.fin 10 := by
  have hb := per_experiment_quantity_consistent beakerGroup ⟨"A", 1, 2⟩
  have ha := per_experiment_quantity_consistent acidGroup ⟨"A", 5, 2⟩
  refine ⟨rfl, ?_, rfl, ?_⟩
  · rw [hb.1.2.2.2.2.2, hb.2 ItemCategory.nonConsumable rfl]
    simp [perExperimentQtySpec]
  · rw [ha.1.2.2.1, ha.2 ItemCategory.consumable rfl]
    norm_num [perExperimentQtySpec]

/-! ## Keys of the custom-quantity map -/

/-- Claim C13 (the code departs from it): renderPreviewModal and
savePreviewData look the custom quantity up under item.name, while the card
stores it, and renderCommonItemCard and exportToExcel look it up, under
item.id.  The two pairs agree for an item whose id is its name; for the item
with id "ITM_7" and name "Beaker", after the card submits "3", the card and the
export report 3 and the preview and the saved JSON report total_quantity 1,
whatever the service answers about other items. -/
theorem custom_quantity_lookup_keys :
    (∀ (st : State) (item : ResultItem), item.id = item.name →
      previewDisplayQty st item = exportDisplayQty st item ∧
      savePreviewDisplayQty st item = exportDisplayQty st item) ∧
    (∀ server : Server,
      (updateCustomQuantity parseFloatSample server stateIdDiffers idDiffersItem.id "3"
        ).itemCustomQuantity.get idDiffersItem.id = some (JsNum.fin 3) ∧
      (updateCustomQuantity parseFloatSample server stateIdDiffers idDiffersItem.id "3"
        ).itemCustomQuantity.get idDiffersItem.name = none ∧
      (renderCommonItemCard
        (updateCustomQuantity parseFloatSample server stateIdDiffers idDiffersItem.id "3")
        idDiffersItem).displayQty = JsNum.fin 3 ∧
      exportDisplayQty
        (updateCustomQuantity parseFloatSample server stateIdDiffers idDiffersItem.id "3")
        idDiffersItem = JsNum.fin 3 ∧
      previewDisplayQty
        (updateCustomQuantity parseFloatSample server stateIdDiffers idDiffersItem.id "3")
        idDiffersItem = JsNum.fin 1 ∧
      savePreviewDisplayQty
        (updateCustomQuantity parseFloatSample server stateIdDiffers idDiffersItem.id "3")
        idDiffersItem = JsNum.fin 1) := by
  constructor
  · intro st item hid
    unfold previewDisplayQty savePreviewDisplayQty exportDisplayQty
    rw [hid]
    exact ⟨rfl, rfl⟩
  · intro server
    have hp : parseFloatSample "3" = JsNum.fin 3 := rfl
    have hmap : (updateCustomQuantity parseFloatSample server stateIdDiffers idDiffersItem.id "3"
        ).itemCustomQuantity = ⟨[("ITM_7", JsNum.fin 3)]⟩ := by
      rw [updateCustomQuantity_accepted parseFloatSample server stateIdDiffers idDiffersItem.id
        "3" rfl (by rw [hp]; simp [JsNum.ge, JsNum.le])]
      have hf : findCommonItem stateIdDiffers idDiffersItem.id = some idDiffersItem := rfl
      have hs : strictNeField (parseFloatSample "3") (requiredQtyOf idDiffersItem) = true := by
        rw [hp]
        simp [strictNeField, requiredQtyOf, jsOr, idDiffersItem, JsNum.strictNe, JsNum.isNaN]
      rw [hf]
      simp only [hs, ↓reduceIte]
      rfl
    have hid : (updateCustomQuantity parseFloatSample server stateIdDiffers idDiffersItem.id "3"
        ).itemCustomQuantity.get idDiffersItem.id = some (JsNum.fin 3) := by
      rw [hmap]; rfl
    have hname : (updateCustomQuantity parseFloatSample server stateIdDiffers idDiffersItem.id "3"
        ).itemCustomQuantity.get idDiffersItem.name = none := by
      rw [hmap]; rfl
    refine ⟨hid, hname, ?_, ?_, ?_, ?_⟩
    · simp only [renderCommonItemCard, hid]
    · simp only [exportDisplayQty, hid]
    · simp only [previewDisplayQty, hname]; rfl
    · simp only [savePreviewDisplayQty, hname]; rfl

/-- Witness for C13: acidGroup has its name as id, so there the preview and
the saved JSON list what the export lists. -/
theorem custom_quantity_lookup_keys_witness :
    acidGroup.id = acidGroup.name ∧
    previewDisplayQty stateAcidZero acidGroup = exportDisplayQty stateAcidZero acidGroup ∧
    savePreviewDisplayQty stateAcidZero acidGroup = exportDisplayQty stateAcidZero acidGroup :=
  ⟨rfl, custom_quantity_lookup_keys.1 stateAcidZero acidGroup rfl⟩

/-! ## Grouping and classification of the engine -/

theorem mem_allOccurrences (selectedExperiments : List Experiment) (o : Occurrence) :
    o ∈ allOccurrences selectedExperiments ↔
      ∃ e ∈ selectedExperiments, ∃ li ∈ e.items, o = ⟨e, li⟩ := by
  unfold allOccurrences
  rw [List.mem_flatMap]
  constructor
  · rintro ⟨e, he, ho⟩
    obtain ⟨li, hli, rfl⟩ := List.mem_map.mp ho
    exact ⟨e, he, li, hli, rfl⟩
  · rintro ⟨e, he, li, hli, rfl⟩
    exact ⟨e, he, List.mem_map.mpr ⟨li, hli, rfl⟩⟩

theorem occursIn_iff_occurrence (selectedExperiments : List Experiment) (n : String) :
    OccursIn selectedExperiments n ↔
      ∃ o ∈ allOccurrences selectedExperiments, o.lineItem.itemName = n := by
  constructor
  · rintro ⟨e, he, li, hli, hn⟩
    exact ⟨⟨e, li⟩, (mem_allOccurrences _ _).mpr ⟨e, he, li, hli, rfl⟩, hn⟩
  · rintro ⟨o, ho, hn⟩
    obtain ⟨e, he, li, hli, rfl⟩ := (mem_allOccurrences _ _).mp ho
    exact ⟨e, he, li, hli, hn⟩

theorem firstOccurrences_subset (l : List Occurrence) :
    ∀ f ∈ firstOccurrences l, f ∈ l := by
  induction l with
  | nil => intro f hf; simp [firstOccurrences] at hf
  | cons o os ih =>
    intro f hf
    rw [firstOccurrences, List.mem_cons] at hf
    rcases hf with rfl | hf
    · exact List.mem_cons_self _ _
    · exact List.mem_cons_of_mem _ (ih f (List.mem_filter.mp hf).1)

theorem firstOccurrences_cover (l : List Occurrence) :
    ∀ o ∈ l, ∃ f ∈ firstOccurrences l, f.lineItem.itemName = o.lineItem.itemName := by
  induction l with
  | nil => intro o ho; simp at ho
  | cons a os ih =>
    intro o ho
    rw [firstOccurrences]
    by_cases hname : o.lineItem.itemName = a.lineItem.itemName
    · exact ⟨a, List.mem_cons_self _ _, hname.symm⟩
    · rcases List.mem_cons.mp ho with rfl | ho
      · exact absurd rfl hname
      · obtain ⟨f, hf, hfn⟩ := ih o ho
        refine ⟨f, List.mem_cons_of_mem _ (List.mem_filter.mpr ⟨hf, ?_⟩), hfn⟩
        have : f.lineItem.itemName ≠ a.lineItem.itemName := by rw [hfn]; exact hname
        simpa using this

theorem firstOccurrences_pairwise (l : List Occurrence) :
    (firstOccurrences l).Pairwise (fun a b => a.lineItem.itemName ≠ b.lineItem.itemName) := by
  induction l with
  | nil => simp [firstOccurrences]
  | cons o os ih =>
    rw [firstOccurrences, List.pairwise_cons]
    refine ⟨?_, ih.filter _⟩
    intro f hf
    have := (List.mem_filter.mp hf).2
    intro heq
    simp [heq] at this

theorem firstOccurrences_nodup_names (l : List Occurrence) :
    ((firstOccurrences l).map (fun f => f.lineItem.itemName)).Nodup := by
  unfold List.Nodup
  rw [List.pairwise_map]
  exact firstOccurrences_pairwise l

/-- The item names of the response of the engine are the names of the first
occurrences, those classified Common first. -/
theorem resultNames_aggregate (selectedExperiments : List Experiment)
    (usageOverrides : JsMap UsageKind) (customQuantities : JsMap ℚ) :
    resultNames (aggregate selectedExperiments usageOverrides customQuantities).toJson =
      (((firstOccurrences (allOccurrences selectedExperiments)).filter
          (fun f => decide (classify usageOverrides (allOccurrences selectedExperiments) f
            = UsageKind.common))) ++
        ((firstOccurrences (allOccurrences selectedExperiments)).filter
          (fun f => !decide (classify usageOverrides (allOccurrences selectedExperiments) f
            = UsageKind.common)))).map (fun f => f.lineItem.itemName) := by
  simp only [resultNames, AggregationResult.toJson, aggregate, List.map_append, List.map_map]
  rfl

theorem commonNames_aggregate (selectedExperiments : List Experiment)
    (usageOverrides : JsMap UsageKind) (customQuantities : JsMap ℚ) (n : String) :
    n ∈ (aggregate selectedExperiments usageOverrides customQuantities).toJson.common_items.map
        (fun item => item.name) ↔
      ∃ f ∈ firstOccurrences (allOccurrences selectedExperiments),
        classify usageOverrides (allOccurrences selectedExperiments) f = UsageKind.common ∧
        f.lineItem.itemName = n := by
  simp only [AggregationResult.toJson, aggregate, List.map_map, List.mem_map, List.mem_filter,
    decide_eq_true_eq, Function.comp]
  constructor
  · rintro ⟨f, ⟨hf, hc⟩, hn⟩
    exact ⟨f, hf, hc, hn⟩
  · rintro ⟨f, hf, hc, hn⟩
    exact ⟨f, ⟨hf, hc⟩, hn⟩

theorem uniqueNames_aggregate (selectedExperiments : List Experiment)
    (usageOverrides : JsMap UsageKind) (customQuantities : JsMap ℚ) (n : String) :
    n ∈ (aggregate selectedExperiments usageOverrides customQuantities).toJson.unique_items.map
        (fun item => item.name) ↔
      ∃ f ∈ firstOccurrences (allOccurrences selectedExperiments),
        classify usageOverrides (allOccurrences selectedExperiments) f ≠ UsageKind.common ∧
        f.lineItem.itemName = n := by
  simp only [AggregationResult.toJson, aggregate, List.map_map, List.mem_map, List.mem_filter,
    Bool.not_eq_true', decide_eq_false_iff_not, Function.comp]
  constructor
  · rintro ⟨f, ⟨hf, hc⟩, hn⟩
    exact ⟨f, hf, hc, hn⟩
  · rintro ⟨f, hf, hc, hn⟩
    exact ⟨f, ⟨hf, hc⟩, hn⟩

/-- The classification of a first occurrence depends on its item name only. -/
theorem classify_congr (usageOverrides : JsMap UsageKind) (all : List Occurrence)
    (f g : Occurrence) (h : f.lineItem.itemName = g.lineItem.itemName) :
    classify usageOverrides all f = classify usageOverrides all g := by
  unfold classify
  rw [h]

theorem resultNames_count_one (selectedExperiments : List Experiment)
    (usageOverrides : JsMap UsageKind) (customQuantities : JsMap ℚ) (n : String)
    (hocc : OccursIn selectedExperiments n) :
    (resultNames (aggregate selectedExperiments usageOverrides customQuantities).toJson).count n
      = 1 := by
  obtain ⟨o, ho, hon⟩ := (occursIn_iff_occurrence _ _).mp hocc
  obtain ⟨f, hf, hfn⟩ := firstOccurrences_cover _ o ho
  have hperm := (List.filter_append_perm
    (fun f => decide (classify usageOverrides (allOccurrences selectedExperiments) f
      = UsageKind.common))
    (firstOccurrences (allOccurrences selectedExperiments))).map (fun f => f.lineItem.itemName)
  rw [resultNames_aggregate, hperm.count_eq]
  exact List.count_eq_one_of_mem (firstOccurrences_nodup_names _)
    (List.mem_map.mpr ⟨f, hf, hfn.trans hon⟩)

theorem common_unique_exclusive (selectedExperiments : List Experiment)
    (usageOverrides : JsMap UsageKind) (customQuantities : JsMap ℚ) (n : String)
    (hocc : OccursIn selectedExperiments n) :
    ¬ (n ∈ (aggregate selectedExperiments usageOverrides customQuantities).toJson.common_items.map
        (fun item => item.name) ∧
       n ∈ (aggregate selectedExperiments usageOverrides customQuantities).toJson.unique_items.map
        (fun item => item.name)) := by
  have hcount := resultNames_count_one selectedExperiments usageOverrides customQuantities n hocc
  rw [resultNames, List.map_append, List.count_append] at hcount
  rintro ⟨h1, h2⟩
  have c1 := List.one_le_count_iff.mpr h1
  have c2 := List.one_le_count_iff.mpr h2
  omega

/-- A name that occurs in the selection is in common_items exactly when its
group is classified Common, and in unique_items exactly when it is not. -/
theorem names_by_classification (selectedExperiments : List Experiment)
    (usageOverrides : JsMap UsageKind) (customQuantities : JsMap ℚ) (n : String)
    (f : Occurrence) (hf : f ∈ firstOccurrences (allOccurrences selectedExperiments))
    (hfn : f.lineItem.itemName = n) :
    (n ∈ (aggregate selectedExperiments usageOverrides customQuantities).toJson.common_items.map
        (fun item => item.name) ↔
      classify usageOverrides (allOccurrences selectedExperiments) f = UsageKind.common) ∧
    (n ∈ (aggregate selectedExperiments usageOverrides customQuantities).toJson.unique_items.map
        (fun item => item.name) ↔
      classify usageOverrides (allOccurrences selectedExperiments) f ≠ UsageKind.common) := by
  constructor
  · rw [commonNames_aggregate]
    constructor
    · rintro ⟨g, _, hc, hgn⟩
      rw [classify_congr usageOverrides _ f g (hfn.trans hgn.symm)]
      exact hc
    · intro hc
      exact ⟨f, hf, hc, hfn⟩
  · rw [uniqueNames_aggregate]
    constructor
    · rintro ⟨g, _, hc, hgn⟩
      rw [classify_congr usageOverrides _ f g (hfn.trans hgn.symm)]
      exact hc
    · intro hc
      exact ⟨f, hf, hc, hfn⟩

theorem exists_first_of_occursIn (selectedExperiments : List Experiment) (n : String)
    (hocc : OccursIn selectedExperiments n) :
    ∃ f ∈ firstOccurrences (allOccurrences selectedExperiments), f.lineItem.itemName = n := by
  obtain ⟨o, ho, hon⟩ := (occursIn_iff_occurrence _ _).mp hocc
  obtain ⟨f, hf, hfn⟩ := firstOccurrences_cover _ o ho
  exact ⟨f, hf, hfn.trans hon⟩

/-- Claim C14: for every selection and every pair of override maps, an item
name that occurs in a line item of a selected experiment is the name of
exactly one group of the response: it is in common_items or in unique_items,
and not in both. -/
theorem partition_property (selectedExperiments : List Experiment)
    (usageOverrides : JsMap UsageKind) (customQuantities : JsMap ℚ) (n : String)
    (hocc : OccursIn selectedExperiments n) :
    (resultNames (aggregate selectedExperiments usageOverrides customQuantities).toJson).count n
      = 1 ∧
    (n ∈ (aggregate selectedExperiments usageOverrides customQuantities).toJson.common_items.map
        (fun item => item.name) ∨
     n ∈ (aggregate selectedExperiments usageOverrides customQuantities).toJson.unique_items.map
        (fun item => item.name)) ∧
    ¬ (n ∈ (aggregate selectedExperiments usageOverrides customQuantities).toJson.common_items.map
        (fun item => item.name) ∧
       n ∈ (aggregate selectedExperiments usageOverrides customQuantities).toJson.unique_items.map
        (fun item => item.name)) := by
  obtain ⟨f, hf, hfn⟩ := exists_first_of_occursIn selectedExperiments n hocc
  have hby := names_by_classification selectedExperiments usageOverrides customQuantities n f hf hfn
  refine ⟨resultNames_count_one _ _ _ n hocc, ?_,
    common_unique_exclusive _ _ _ n hocc⟩
  by_cases hc : classify usageOverrides (allOccurrences selectedExperiments) f = UsageKind.common
  · exact Or.inl (hby.1.mpr hc)
  · exact Or.inr (hby.2.mpr hc)

theorem occursIn_scenario_beaker : OccursIn [experimentA, experimentB] "Beaker" :=
  ⟨experimentA, List.mem_cons_self _ _,
    ⟨"Beaker", 1, "pcs", 50, ItemCategory.nonConsumable⟩, by simp [experimentA], rfl⟩

theorem occursIn_scenario_acid : OccursIn [experimentA, experimentB] "Acid" :=
  ⟨experimentA, List.mem_cons_self _ _,
    ⟨"Acid", 5, "ml", 2, ItemCategory.consumable⟩, by simp [experimentA], rfl⟩

/-- Witness for C14: in the scenario "Beaker" names exactly one group, and
"Acid" too when the overrides force it Common with a custom quantity. -/
theorem partition_property_witness :
    OccursIn [experimentA, experimentB] "Beaker" ∧
    (resultNames (aggregate [experimentA, experimentB] JsMap.empty JsMap.empty).toJson).count
      "Beaker" = 1 ∧
    (resultNames (aggregate [experimentA, experimentB] ⟨[("Acid", UsageKind.common)]⟩
      ⟨[("Acid", 7)]⟩).toJson).count "Acid" = 1 :=
  ⟨occursIn_scenario_beaker,
    (partition_property [experimentA, experimentB] JsMap.empty JsMap.empty "Beaker"
      occursIn_scenario_beaker).1,
    (partition_property [experimentA, experimentB] ⟨[("Acid", UsageKind.common)]⟩
      ⟨[("Acid", 7)]⟩ "Acid" occursIn_scenario_acid).1⟩

theorem mem_distinctStrings (l : List String) (x : String) :
    x ∈ distinctStrings l ↔ x ∈ l := by
  induction l with
  | nil => simp [distinctStrings]
  | cons a l ih =>
    rw [distinctStrings, List.mem_cons, List.mem_cons, List.mem_filter, ih]
    by_cases hx : x = a
    · simp [hx]
    · simp [hx]

theorem distinctStrings_nodup (l : List String) : (distinctStrings l).Nodup := by
  induction l with
  | nil => simp [distinctStrings]
  | cons a l ih =>
    rw [distinctStrings, List.nodup_cons]
    refine ⟨?_, ih.filter _⟩
    intro h
    have := (List.mem_filter.mp h).2
    simp at this

theorem two_le_length_iff_of_nodup (d : List String) (hd : d.Nodup) :
    2 ≤ d.length ↔ ∃ a ∈ d, ∃ b ∈ d, a ≠ b := by
  constructor
  · intro h
    match d, hd, h with
    | a :: b :: _, hd, _ =>
      have hab : a ≠ b := by
        intro heq
        have := (List.nodup_cons.mp hd).1
        exact this (by rw [heq]; exact List.mem_cons_self _ _)
      exact ⟨a, List.mem_cons_self _ _, b,
        List.mem_cons_of_mem _ (List.mem_cons_self _ _), hab⟩
  · rintro ⟨a, ha, b, hb, hab⟩
    match d, ha, hb with
    | [x], ha, hb =>
      rw [List.mem_singleton] at ha hb
      exact absurd (ha.trans hb.symm) hab
    | _ :: _ :: _, _, _ => simp

theorem two_le_distinct_iff (l : List String) :
    2 ≤ (distinctStrings l).length ↔ ∃ a ∈ l, ∃ b ∈ l, a ≠ b := by
  rw [two_le_length_iff_of_nodup _ (distinctStrings_nodup l)]
  constructor
  · rintro ⟨a, ha, b, hb, hab⟩
    exact ⟨a, (mem_distinctStrings l a).mp ha, b, (mem_distinctStrings l b).mp hb, hab⟩
  · rintro ⟨a, ha, b, hb, hab⟩
    exact ⟨a, (mem_distinctStrings l a).mpr ha, b, (mem_distinctStrings l b).mpr hb, hab⟩

/-- The group of a name has occurrences in two distinct experiments exactly
when the name occurs in two selected experiments with different ids. -/
theorem two_distinct_experiments_iff (selectedExperiments : List Experiment) (n : String) :
    2 ≤ (distinctStrings ((occurrencesOf (allOccurrences selectedExperiments) n).map
        (fun o => o.experiment.id))).length ↔
      OccursInAtLeastTwo selectedExperiments n := by
  rw [two_le_distinct_iff]
  constructor
  · rintro ⟨a, ha, b, hb, hab⟩
    obtain ⟨o1, ho1, rfl⟩ := List.mem_map.mp ha
    obtain ⟨o2, ho2, rfl⟩ := List.mem_map.mp hb
    obtain ⟨hm1, hn1⟩ := List.mem_filter.mp ho1
    obtain ⟨hm2, hn2⟩ := List.mem_filter.mp ho2
    obtain ⟨e1, he1, li1, hli1, rfl⟩ := (mem_allOccurrences _ _).mp hm1
    obtain ⟨e2, he2, li2, hli2, rfl⟩ := (mem_allOccurrences _ _).mp hm2
    exact ⟨e1, he1, e2, he2, hab, ⟨li1, hli1, by simpa using hn1⟩,
      ⟨li2, hli2, by simpa using hn2⟩⟩
  · rintro ⟨e1, he1, e2, he2, hne, ⟨li1, hli1, hn1⟩, ⟨li2, hli2, hn2⟩⟩
    refine ⟨e1.id, List.mem_map.mpr ⟨⟨e1, li1⟩, ?_, rfl⟩,
      e2.id, List.mem_map.mpr ⟨⟨e2, li2⟩, ?_, rfl⟩, hne⟩
    · exact List.mem_filter.mpr
        ⟨(mem_allOccurrences _ _).mpr ⟨e1, he1, li1, hli1, rfl⟩, by simpa using hn1⟩
    · exact List.mem_filter.mpr
        ⟨(mem_allOccurrences _ _).mpr ⟨e2, he2, li2, hli2, rfl⟩, by simpa using hn2⟩

theorem classify_default (usageOverrides : JsMap UsageKind)
    (selectedExperiments : List Experiment) (f : Occurrence)
    (hnone : usageOverrides.get f.lineItem.itemName = none) :
    classify usageOverrides (allOccurrences selectedExperiments) f = UsageKind.common ↔
      OccursInAtLeastTwo selectedExperiments f.lineItem.itemName := by
  rw [← two_distinct_experiments_iff]
  unfold classify
  rw [hnone]
  simp only
  split_ifs with h
  · simp [h]
  · simp [h]

theorem classify_override (usageOverrides : JsMap UsageKind) (all : List Occurrence)
    (f : Occurrence) (kind : UsageKind)
    (hsome : usageOverrides.get f.lineItem.itemName = some kind) :
    classify usageOverrides all f = kind := by
  unfold classify
  rw [hsome]

/-- Claim C15: for every selection and every item name of the selection that
has no usage-type override, the engine puts the item in common_items if and
only if the name occurs in at least 2 selected experiments with different
ids, and in unique_items otherwise. -/
theorem default_classification (selectedExperiments : List Experiment)
    (usageOverrides : JsMap UsageKind) (customQuantities : JsMap ℚ) (n : String)
    (hocc : OccursIn selectedExperiments n)
    (hnone : usageOverrides.get n = none) :
    (n ∈ (aggregate selectedExperiments usageOverrides customQuantities).toJson.common_items.map
        (fun item => item.name) ↔ OccursInAtLeastTwo selectedExperiments n) ∧
    (n ∈ (aggregate selectedExperiments usageOverrides customQuantities).toJson.unique_items.map
        (fun item => item.name) ↔ ¬ OccursInAtLeastTwo selectedExperiments n) := by
  obtain ⟨f, hf, hfn⟩ := exists_first_of_occursIn selectedExperiments n hocc
  have hby := names_by_classification selectedExperiments usageOverrides customQuantities n f hf hfn
  have hcl := classify_default usageOverrides selectedExperiments f (by rw [hfn]; exact hnone)
  rw [hfn] at hcl
  exact ⟨hby.1.trans hcl, hby.2.trans (not_congr hcl)⟩

/-- Witness for C15: in the scenario "Beaker" occurs in A and B and is common;
"Acid" occurs in A only and is unique. -/
theorem default_classification_witness :
    OccursIn [experimentA, experimentB] "Beaker" ∧
    OccursInAtLeastTwo [experimentA, experimentB] "Beaker" ∧
    "Beaker" ∈ (aggregate [experimentA, experimentB] JsMap.empty JsMap.empty
      ).toJson.common_items.map (fun item => item.name) ∧
    ¬ OccursInAtLeastTwo [experimentA, experimentB] "Acid" ∧
    "Acid" ∈ (aggregate [experimentA, experimentB] JsMap.empty JsMap.empty
      ).toJson.unique_items.map (fun item => item.name) := by
  have htwo : OccursInAtLeastTwo [experimentA, experimentB] "Beaker" :=
    ⟨experimentA, by simp, experimentB, by simp, by decide,
      ⟨⟨"Beaker", 1, "pcs", 50, ItemCategory.nonConsumable⟩, by simp [experimentA], rfl⟩,
      ⟨⟨"Beaker", 1, "pcs", 50, ItemCategory.nonConsumable⟩, by simp [experimentB], rfl⟩⟩
  have hone : ¬ OccursInAtLeastTwo [experimentA, experimentB] "Acid" := by
    rintro ⟨e1, he1, e2, he2, hne, ⟨l1, hl1, hn1⟩, ⟨l2, hl2, hn2⟩⟩
    have h1 : e1 = experimentA := by
      rcases List.mem_cons.mp he1 with h | h
      · exact h
      · rw [List.mem_singleton] at h
        subst h
        simp [experimentB] at hl1
        rcases hl1 with rfl | rfl <;> simp at hn1
    have h2 : e2 = experimentA := by
      rcases List.mem_cons.mp he2 with h | h
      · exact h
      · rw [List.mem_singleton] at h
        subst h
        simp [experimentB] at hl2
        rcases hl2 with rfl | rfl <;> simp at hn2
    exact hne (by rw [h1, h2])
  exact ⟨occursIn_scenario_beaker, htwo,
    (default_classification [experimentA, experimentB] JsMap.empty JsMap.empty "Beaker"
      occursIn_scenario_beaker rfl).1.mpr htwo,
    hone,
    (default_classification [experimentA, experimentB] JsMap.empty JsMap.empty "Acid"
      occursIn_scenario_acid rfl).2.mpr hone⟩

theorem find_filterMap_kind (l : List (String × String)) (k s : String) (kind : UsageKind)
    (hget : (l.find? (fun p => p.1 == k)).map Prod.snd = some s)
    (hkind : usageKindOfString s = some kind) :
    ((l.filterMap (fun p => (usageKindOfString p.2).map (fun u => (p.1, u)))).find?
      (fun p => p.1 == k)).map Prod.snd = some kind := by
  induction l with
  | nil => simp at hget
  | cons p l ih =>
    rw [List.find?_cons] at hget
    cases hp : (p.1 == k)
    · rw [hp] at hget
      cases hk : usageKindOfString p.2 with
      | none =>
        rw [List.filterMap_cons_none (by rw [hk]; rfl)]
        exact ih hget
      | some u =>
        rw [List.filterMap_cons_some (by rw [hk]; rfl), List.find?_cons]
        simp only [hp]
        exact ih hget
    · rw [hp] at hget
      have hs : p.2 = s := by simpa using hget
      rw [List.filterMap_cons_some (by rw [hs, hkind]; rfl), List.find?_cons]
      simp only [hp]
      rfl

theorem engineOverrides_get (itemUsageType : JsMap String) (k s : String) (kind : UsageKind)
    (hget : itemUsageType.get k = some s) (hkind : usageKindOfString s = some kind) :
    (engineOverrides itemUsageType).get k = some kind :=
  find_filterMap_kind itemUsageType.entries k s kind hget hkind

/-- Claim C16: an item of the selection that the usage-type map of the request
marks "common" is placed in common_items and not in unique_items, also when it
occurs in one selected experiment only; one marked "unique" is placed in
unique_items and not in common_items, also when it occurs in several; and
markAsCommon and markAsUnique leave exactly these marks in the map that
calculateCosts sends. -/
theorem override_precedence (selectedExperiments : List Experiment)
    (itemUsageType : JsMap String) (customQuantities : JsMap ℚ) (n : String)
    (hocc : OccursIn selectedExperiments n) :
    (itemUsageType.get n = some "common" →
      n ∈ (aggregate selectedExperiments (engineOverrides itemUsageType) customQuantities
          ).toJson.common_items.map (fun item => item.name) ∧
      n ∉ (aggregate selectedExperiments (engineOverrides itemUsageType) customQuantities
          ).toJson.unique_items.map (fun item => item.name)) ∧
    (itemUsageType.get n = some "unique" →
      n ∈ (aggregate selectedExperiments (engineOverrides itemUsageType) customQuantities
          ).toJson.unique_items.map (fun item => item.name) ∧
      n ∉ (aggregate selectedExperiments (engineOverrides itemUsageType) customQuantities
          ).toJson.common_items.map (fun item => item.name)) ∧
    (∀ (server : Server) (st : State),
      (calcRequestOf (markAsCommon server st n)).item_usage_type.get n = some "common" ∧
      (calcRequestOf (markAsUnique server st n)).item_usage_type.get n = some "unique") := by
  obtain ⟨f, hf, hfn⟩ := exists_first_of_occursIn selectedExperiments n hocc
  have hby := names_by_classification selectedExperiments (engineOverrides itemUsageType)
    customQuantities n f hf hfn
  have hex := common_unique_exclusive selectedExperiments (engineOverrides itemUsageType)
    customQuantities n hocc
  refine ⟨?_, ?_, ?_⟩
  · intro hget
    have hc : classify (engineOverrides itemUsageType) (allOccurrences selectedExperiments) f
        = UsageKind.common :=
      classify_override _ _ f _ (by rw [hfn]; exact engineOverrides_get _ n "common" _ hget rfl)
    have hmem := hby.1.mpr hc
    exact ⟨hmem, fun h => hex ⟨hmem, h⟩⟩
  · intro hget
    have hc : classify (engineOverrides itemUsageType) (allOccurrences selectedExperiments) f
        = UsageKind.unique :=
      classify_override _ _ f _ (by rw [hfn]; exact engineOverrides_get _ n "unique" _ hget rfl)
    have hmem := hby.2.mpr (by rw [hc]; decide)
    exact ⟨hmem, fun h => hex ⟨h, hmem⟩⟩
  · intro server st
    constructor
    · show (markAsCommon server st n).itemUsageType.get n = some "common"
      rw [markAsCommon_itemUsageType]; exact JsMap.get_set_self _ _ _
    · show (markAsUnique server st n).itemUsageType.get n = some "unique"
      rw [markAsUnique_itemUsageType]; exact JsMap.get_set_self _ _ _

/-- Witness for C16: "Acid" occurs in experiment A only and is placed in
common_items once marked "common"; "Beaker" occurs in A and B and is placed in
unique_items once marked "unique". -/
theorem override_precedence_witness :
    OccursIn [experimentA, experimentB] "Acid" ∧
    "Acid" ∈ (aggregate [experimentA, experimentB]
        (engineOverrides ⟨[("Acid", "common"), ("Beaker", "unique")]⟩) JsMap.empty
      ).toJson.common_items.map (fun item => item.name) ∧
    OccursIn [experimentA, experimentB] "Beaker" ∧
    "Beaker" ∈ (aggregate [experimentA, experimentB]
        (engineOverrides ⟨[("Acid", "common"), ("Beaker", "unique")]⟩) JsMap.empty
      ).toJson.unique_items.map (fun item => item.name) :=
  ⟨occursIn_scenario_acid,
    ((override_precedence [experimentA, experimentB]
      ⟨[("Acid", "common"), ("Beaker", "unique")]⟩ JsMap.empty "Acid"
      occursIn_scenario_acid).1 rfl).1,
    occursIn_scenario_beaker,
    ((override_precedence [experimentA, experimentB]
      ⟨[("Acid", "common"), ("Beaker", "unique")]⟩ JsMap.empty "Beaker"
      occursIn_scenario_beaker).2.1 rfl).1⟩

/-! ## Classification overrides and the selection -/

theorem calculateCosts_experiments (server : Server) (st : State) :
    (calculateCosts server st).experiments = st.experiments := by
  unfold calculateCosts
  split
  · rfl
  · split <;> rfl

theorem calculateCosts_effects_of_selection (server : Server) (st : State)
    (hsel : st.selectedExperiments ≠ []) :
    ∃ rest, (calculateCosts server st).effects
      = st.effects ++ Effect.fetchCalculate (calcRequestOf st) :: rest := by
  have hlen : ¬ st.selectedExperiments.length = 0 := by
    intro h; exact hsel (List.length_eq_zero.mp h)
  unfold calculateCosts
  rw [if_neg hlen]
  split
  · exact ⟨_, rfl⟩
  · exact ⟨_, rfl⟩

/-- Claim C17: markAsUnique and markAsCommon leave state.selectedExperiments
and state.experiments as they were, and the request their calculateCosts
sends, when anything is selected, carries exactly the experiment ids selected
before the override. -/
theorem classification_override_keeps_selection (server : Server) (st : State) (k : String) :
    (markAsUnique server st k).selectedExperiments = st.selectedExperiments ∧
    (markAsUnique server st k).experiments = st.experiments ∧
    (markAsCommon server st k).selectedExperiments = st.selectedExperiments ∧
    (markAsCommon server st k).experiments = st.experiments ∧
    (st.selectedExperiments ≠ [] →
      (∃ body rest, (markAsUnique server st k).effects
          = st.effects ++ Effect.consoleLog :: Effect.fetchCalculate body :: rest ∧
        body.experiment_ids = st.selectedExperiments) ∧
      (∃ body rest, (markAsCommon server st k).effects
          = st.effects ++ Effect.consoleLog :: Effect.fetchCalculate body :: rest ∧
        body.experiment_ids = st.selectedExperiments)) := by
  refine ⟨?_, ?_, ?_, ?_, ?_⟩
  · unfold markAsUnique; simp only [calculateCosts_selectedExperiments]
  · unfold markAsUnique; simp only [calculateCosts_experiments]
  · unfold markAsCommon; simp only [calculateCosts_selectedExperiments]
  · unfold markAsCommon; simp only [calculateCosts_experiments]
  · intro hsel
    constructor
    · obtain ⟨rest, hrest⟩ := calculateCosts_effects_of_selection server
        { st with
          effects := st.effects ++ [Effect.consoleLog]
          itemUsageType := st.itemUsageType.set k "unique"
          itemCustomQuantity := st.itemCustomQuantity.delete k } hsel
      refine ⟨{ experiment_ids := st.selectedExperiments
                item_usage_type := st.itemUsageType.set k "unique"
                item_custom_quantity := st.itemCustomQuantity.delete k }, rest, ?_, rfl⟩
      unfold markAsUnique
      rw [hrest]
      simp [calcRequestOf]
    · obtain ⟨rest, hrest⟩ := calculateCosts_effects_of_selection server
        { st with
          effects := st.effects ++ [Effect.consoleLog]
          itemUsageType := st.itemUsageType.set k "common" } hsel
      refine ⟨{ experiment_ids := st.selectedExperiments
                item_usage_type := st.itemUsageType.set k "common"
                item_custom_quantity := st.itemCustomQuantity }, rest, ?_, rfl⟩
      unfold markAsCommon
      rw [hrest]
      simp [calcRequestOf]

/-- Witness for C17: with A and B selected, marking "Acid" unique or common
keeps the selection and sends the ids A and B. -/
theorem classification_override_keeps_selection_witness :
    stateAcidCommon.selectedExperiments ≠ [] ∧
    (markAsUnique serverDown stateAcidCommon "Acid").selectedExperiments = ["A", "B"] ∧
    (markAsCommon serverDown stateAcidCommon "Acid").selectedExperiments = ["A", "B"] ∧
    (∃ body rest, (markAsUnique serverDown stateAcidCommon "Acid").effects
        = stateAcidCommon.effects ++ Effect.consoleLog :: Effect.fetchCalculate body :: rest ∧
      body.experiment_ids = ["A", "B"]) := by
  have hsel : stateAcidCommon.selectedExperiments ≠ [] := by simp [stateAcidCommon]
  have h := classification_override_keeps_selection serverDown stateAcidCommon "Acid"
  exact ⟨hsel, h.1, h.2.2.1, (h.2.2.2.2 hsel).1⟩

/-! ## Trial scaling -/

theorem sum_scaled_trials (k : ℚ) (es : List ExpUsage) :
    ((es.map (fun e => ({ e with trials := k * e.trials } : ExpUsage))).map
        (fun e => e.quantity * e.trials)).sum
      = k * (es.map (fun e => e.quantity * e.trials)).sum := by
  induction es with
  | nil => simp
  | cons e es ih =>
    simp only [List.map_cons, List.sum_cons, ih]
    ring

theorem perExperimentQty_equipment (st : State) (item : ResultItem)
    (hcat : item.category = "non_consumable") :
    (renderCommonItemCard st item).perExperimentQty
      = (item.experiments.map (fun e => e.quantity)).map JsNum.fin := by
  have h : (renderCommonItemCard st item).perExperimentQty
      = item.experiments.map (usageQty item.category) := rfl
  rw [h, List.map_map]
  apply List.map_congr_left
  intro e _
  simp [usageQty, hcat]

/-- In exact arithmetic: for a consumable or packing group, multiplying the
trials of every usage entry by k multiplies the required quantity of
renderCommonItemCard by k; for an equipment group, any other trials (same raw
quantities) leave the required quantity and every per-experiment quantity as
they were. -/
theorem trial_scaling (st : State) (item : ResultItem) :
    ((item.category = "consumable" ∨ item.category = "packing") →
      ∀ k : ℚ, ∃ r : ℚ,
        (renderCommonItemCard st item).requiredQty = JsNum.fin r ∧
        (renderCommonItemCard st (scaleTrials k item)).requiredQty = JsNum.fin (k * r)) ∧
    (item.category = "non_consumable" →
      ∀ item2 : ResultItem, item2.category = "non_consumable" →
        item2.experiments.map (fun e => e.quantity) = item.experiments.map (fun e => e.quantity) →
        (renderCommonItemCard st item2).requiredQty = (renderCommonItemCard st item).requiredQty ∧
        (renderCommonItemCard st item2).perExperimentQty
          = (renderCommonItemCard st item).perExperimentQty) := by
  constructor
  · intro hcat k
    have hneq : item.category ≠ "non_consumable" := by
      rcases hcat with h | h <;> rw [h] <;> decide
    have hneq2 : (scaleTrials k item).category ≠ "non_consumable" := hneq
    refine ⟨(item.experiments.map (fun e => e.quantity * e.trials)).sum, ?_, ?_⟩
    · rw [requiredQty_scaled st item hneq, sumScaled_eq]
    · rw [requiredQty_scaled st (scaleTrials k item) hneq2, sumScaled_eq]
      have hexp : (scaleTrials k item).experiments
          = item.experiments.map (fun e => ({ e with trials := k * e.trials } : ExpUsage)) := rfl
      rw [hexp, sum_scaled_trials]
  · intro hcat item2 hcat2 hq
    constructor
    · rw [requiredQty_equipment st item hcat, requiredQty_equipment st item2 hcat2]
      have h : ∀ es : List ExpUsage, es.map (fun e => JsNum.fin e.quantity)
          = (es.map (fun e => e.quantity)).map JsNum.fin := by
        intro es; simp [List.map_map, Function.comp]
      rw [h, h, hq]
    · rw [perExperimentQty_equipment st item hcat, perExperimentQty_equipment st item2 hcat2, hq]

/-- Tripling the trials of the Acid group triples its required quantity 10,
and the Beaker group with other trials still requires what it required. -/
theorem trial_scaling_witness :
    (acidGroup.category = "consumable" ∨ acidGroup.category = "packing") ∧
    (renderCommonItemCard initialState acidGroup).requiredQty = JsNum.fin 10 ∧
    (renderCommonItemCard initialState (scaleTrials 3 acidGroup)).requiredQty = JsNum.fin 30 ∧
    beakerGroup.category = "non_consumable" ∧
    (renderCommonItemCard initialState (scaleTrials 7 beakerGroup)).requiredQty
      = (renderCommonItemCard initialState beakerGroup).requiredQty := by
  obtain ⟨r, hr, hk⟩ := (trial_scaling initialState acidGroup).1 (Or.inl rfl) 3
  have h10 : (renderCommonItemCard initialState acidGroup).requiredQty = JsNum.fin 10 := by
    rw [requiredQty_scaled initialState acidGroup (by decide), sumScaled_eq]
    norm_num [acidGroup]
  have hr10 : r = 10 := by
    rw [h10] at hr
    exact (JsNum.fin.inj hr).symm
  rw [hr10] at hk
  refine ⟨Or.inl rfl, h10, ?_, rfl, ?_⟩
  · rw [hk]; norm_num
  · exact ((trial_scaling initialState beakerGroup).2 rfl (scaleTrials 7 beakerGroup) rfl
      (by simp [scaleTrials, List.map_map, Function.comp])).1

/-! ## Trial scaling in binary64 -/

theorem roundHalfEven_of_floor (x : ℚ) (n : ℤ) (h1 : (n : ℚ) ≤ x) (h2 : x < n + 1 / 2) :
    roundHalfEven x = n := by
  have hfl : ⌊x⌋ = n := Int.floor_eq_iff.mpr ⟨h1, by linarith⟩
  have hfr : Int.fract x < 1 / 2 := by
    rw [Int.fract, hfl]; linarith
  rw [roundHalfEven, if_pos hfr, hfl]

theorem roundHalfEven_of_ceil (x : ℚ) (n : ℤ) (h1 : (n : ℚ) + 1 / 2 < x) (h2 : x < n + 1) :
    roundHalfEven x = n + 1 := by
  have hfl : ⌊x⌋ = n := Int.floor_eq_iff.mpr ⟨by linarith, h2⟩
  have hfr : 1 / 2 < Int.fract x := by
    rw [Int.fract, hfl]; linarith
  rw [roundHalfEven, if_neg (not_lt.mpr hfr.le), if_pos hfr, hfl]

theorem roundHalfEven_tie (x : ℚ) (n : ℤ) (h : x = n + 1 / 2) :
    roundHalfEven x = if n % 2 = 0 then n else n + 1 := by
  have hfl : ⌊x⌋ = n := Int.floor_eq_iff.mpr ⟨by linarith, by linarith⟩
  have hfr : Int.fract x = 1 / 2 := by
    rw [Int.fract, hfl]; linarith
  rw [roundHalfEven, hfr, if_neg (lt_irrefl _), if_neg (lt_irrefl _), hfl]

theorem roundHalfEven_intCast (n : ℤ) : roundHalfEven (n : ℚ) = n :=
  roundHalfEven_of_floor _ n le_rfl (by linarith)

theorem ulpExponent_of_binade (x : ℚ) (e : ℤ) (h1 : (2 : ℚ) ^ e ≤ |x|) (h2 : |x| < 2 ^ (e + 1))
    (he : -1022 ≤ e) : ulpExponent x = e - 52 := by
  have hpos : 0 < |x| := lt_of_lt_of_le (by positivity) h1
  have hlog : Int.log 2 |x| = e := by
    apply le_antisymm
    · have := (Int.lt_zpow_iff_log_lt (b := 2) (by norm_num) hpos (x := e + 1)).mp
        (by exact_mod_cast h2)
      omega
    · exact (Int.zpow_le_iff_le_log (b := 2) (by norm_num) hpos).mp (by exact_mod_cast h1)
  rw [ulpExponent, hlog, max_eq_left he]

theorem roundDouble_of_ulp (x : ℚ) (u m : ℤ) (hx : x ≠ 0) (hu : ulpExponent x = u)
    (hm : roundHalfEven (x / 2 ^ u) = m) (hlo : -(2 ^ 1024) < (m : ℚ) * 2 ^ u)
    (hhi : (m : ℚ) * 2 ^ u < 2 ^ 1024) : roundDouble x = JsNum.fin ((m : ℚ) * 2 ^ u) := by
  rw [roundDouble, if_neg hx, hu, hm, if_neg (not_le.mpr hhi), if_neg (not_le.mpr hlo)]

/-- A whole number below 2^53 is a binary64 number. -/
theorem roundDouble_natCast (n : ℕ) (h : n < 2 ^ 53) : roundDouble (n : ℚ) = JsNum.fin n := by
  by_cases hn : n = 0
  · subst hn; simp [roundDouble]
  have hx : (n : ℚ) ≠ 0 := by exact_mod_cast hn
  have hl : Nat.log 2 n < 53 := Nat.log_lt_of_lt_pow hn h
  have hu : ulpExponent (n : ℚ) = (Nat.log 2 n : ℤ) - 52 := by
    rw [ulpExponent, abs_of_nonneg (by positivity), Int.log_natCast, max_eq_left (by omega)]
  have hpow : (2 : ℚ) ^ ((Nat.log 2 n : ℤ) - 52) = 1 / 2 ^ (52 - Nat.log 2 n) := by
    have : ((Nat.log 2 n : ℤ) - 52) = -((52 - Nat.log 2 n : ℕ) : ℤ) := by omega
    rw [this, zpow_neg, zpow_natCast, one_div]
  have hm : roundHalfEven ((n : ℚ) / 2 ^ ((Nat.log 2 n : ℤ) - 52))
      = ((n * 2 ^ (52 - Nat.log 2 n) : ℕ) : ℤ) := by
    have : (n : ℚ) / 2 ^ ((Nat.log 2 n : ℤ) - 52)
        = (((n * 2 ^ (52 - Nat.log 2 n) : ℕ) : ℤ) : ℚ) := by
      rw [hpow]; push_cast; field_simp
    rw [this, roundHalfEven_intCast]
  have hy : ((((n * 2 ^ (52 - Nat.log 2 n) : ℕ) : ℤ) : ℚ)) * 2 ^ ((Nat.log 2 n : ℤ) - 52)
      = (n : ℚ) := by
    rw [hpow]; push_cast; field_simp
  have hn' : (n : ℚ) < 2 ^ 53 := by exact_mod_cast h
  have h53 : (2 : ℚ) ^ 53 ≤ 2 ^ 1024 := pow_le_pow_right₀ (by norm_num) (by norm_num)
  have hn0 : (0 : ℚ) ≤ n := by positivity
  have h1024 : (0 : ℚ) < 2 ^ 1024 := by positivity
  rw [roundDouble_of_ulp (n : ℚ) _ _ hx hu hm (by rw [hy]; linarith) (by rw [hy]; linarith), hy]

/-- A whole multiple of 2^-j with fewer than 54 bits is a binary64 number. -/
theorem roundDouble_dyadic (n j : ℕ) (h : n < 2 ^ 53) (hj : j ≤ 1022) :
    roundDouble ((n : ℚ) / 2 ^ j) = JsNum.fin ((n : ℚ) / 2 ^ j) := by
  by_cases hn : n = 0
  · subst hn; simp [roundDouble]
  have hnq : (n : ℚ) ≠ 0 := by exact_mod_cast hn
  have hx : (n : ℚ) / 2 ^ j ≠ 0 := div_ne_zero hnq (by positivity)
  have hl : Nat.log 2 n < 53 := Nat.log_lt_of_lt_pow hn h
  have hlo : ((2 ^ Nat.log 2 n : ℕ) : ℚ) ≤ n := by
    exact_mod_cast Nat.pow_log_le_self 2 hn
  have hhi : (n : ℚ) < ((2 ^ (Nat.log 2 n + 1) : ℕ) : ℚ) := by
    exact_mod_cast Nat.lt_pow_succ_log_self (by norm_num) n
  have hu : ulpExponent ((n : ℚ) / 2 ^ j) = ((Nat.log 2 n : ℤ) - j) - 52 := by
    apply ulpExponent_of_binade
    · rw [abs_of_nonneg (by positivity), zpow_sub₀ (by norm_num), zpow_natCast, zpow_natCast]
      apply div_le_div_of_nonneg_right _ (by positivity)
      simpa using hlo
    · rw [abs_of_nonneg (by positivity)]
      have he : ((Nat.log 2 n : ℤ) - j + 1) = ((Nat.log 2 n + 1 : ℕ) : ℤ) - j := by
        push_cast; ring
      rw [he, zpow_sub₀ (by norm_num), zpow_natCast, zpow_natCast]
      apply div_lt_div_of_pos_right _ (by positivity)
      simpa using hhi
    · omega
  have hpow : (2 : ℚ) ^ (((Nat.log 2 n : ℤ) - j) - 52)
      = 1 / (2 ^ j * 2 ^ (52 - Nat.log 2 n)) := by
    have : (((Nat.log 2 n : ℤ) - j) - 52) = -((j + (52 - Nat.log 2 n) : ℕ) : ℤ) := by omega
    rw [this, zpow_neg, zpow_natCast, pow_add, one_div]
  have hm : roundHalfEven ((n : ℚ) / 2 ^ j / 2 ^ (((Nat.log 2 n : ℤ) - j) - 52))
      = ((n * 2 ^ (52 - Nat.log 2 n) : ℕ) : ℤ) := by
    have : (n : ℚ) / 2 ^ j / 2 ^ (((Nat.log 2 n : ℤ) - j) - 52)
        = (((n * 2 ^ (52 - Nat.log 2 n) : ℕ) : ℤ) : ℚ) := by
      rw [hpow]; push_cast; field_simp; ring
    rw [this, roundHalfEven_intCast]
  have hy : ((((n * 2 ^ (52 - Nat.log 2 n) : ℕ) : ℤ) : ℚ))
      * 2 ^ (((Nat.log 2 n : ℤ) - j) - 52) = (n : ℚ) / 2 ^ j := by
    rw [hpow]; push_cast; field_simp; ring
  have hn' : (n : ℚ) < 2 ^ 53 := by exact_mod_cast h
  have h53 : (2 : ℚ) ^ 53 ≤ 2 ^ 1024 := pow_le_pow_right₀ (by norm_num) (by norm_num)
  have hn0 : (0 : ℚ) ≤ (n : ℚ) / 2 ^ j := by positivity
  have hle : (n : ℚ) / 2 ^ j ≤ n := div_le_self (by positivity) (one_le_pow₀ (by norm_num))
  have h1024 : (0 : ℚ) < 2 ^ 1024 := by positivity
  rw [roundDouble_of_ulp _ _ _ hx hu hm (by rw [hy]; linarith) (by rw [hy]; linarith), hy]

theorem sum_dyadic_nonneg (j : ℕ) (es : List ExpUsage)
    (hdyadic : ∀ e ∈ es, ∃ a t : ℕ, 1 ≤ a ∧ 1 ≤ t ∧ e.quantity = a / 2 ^ j ∧ e.trials = t) :
    0 ≤ (es.map (fun e => e.quantity * e.trials)).sum := by
  apply List.sum_nonneg
  intro x hx
  obtain ⟨e, he, rfl⟩ := List.mem_map.mp hx
  obtain ⟨a, t, -, -, ha, ht⟩ := hdyadic e he
  rw [ha, ht]
  positivity

/-- On whole multiples of 2^-j whose total has fewer than 54 bits no step of
the reduce rounds. -/
theorem foldl_addDouble_dyadic (j : ℕ) (hj : j ≤ 1022) (es : List ExpUsage)
    (hdyadic : ∀ e ∈ es, ∃ a t : ℕ, 1 ≤ a ∧ 1 ≤ t ∧ e.quantity = a / 2 ^ j ∧ e.trials = t)
    (s : ℕ)
    (hb : ((s : ℚ) / 2 ^ j + (es.map (fun e => e.quantity * e.trials)).sum) * 2 ^ j < 2 ^ 53) :
    es.foldl
        (fun sum e => sum.addDouble ((roundDouble e.quantity).mulDouble (roundDouble e.trials)))
        (JsNum.fin ((s : ℚ) / 2 ^ j))
      = JsNum.fin ((s : ℚ) / 2 ^ j + (es.map (fun e => e.quantity * e.trials)).sum) := by
  induction es generalizing s with
  | nil => simp
  | cons e es ih =>
    have hrest := sum_dyadic_nonneg j es (fun x hx => hdyadic x (List.mem_cons_of_mem _ hx))
    obtain ⟨a, t, ha1, ht1, ha, ht⟩ := hdyadic e (List.mem_cons_self _ _)
    have hpos : (0 : ℚ) < 2 ^ j := by positivity
    rw [List.map_cons, List.sum_cons, ha, ht] at hb
    have hsat : s + a * t < 2 ^ 53 := by
      have h1 : ((s : ℚ) / 2 ^ j + ((a : ℚ) / 2 ^ j * t
          + (es.map (fun e => e.quantity * e.trials)).sum)) * 2 ^ j
          = ((s + a * t : ℕ) : ℚ)
            + (es.map (fun e => e.quantity * e.trials)).sum * 2 ^ j := by
        push_cast; field_simp; ring
      have h2 : 0 ≤ (es.map (fun e => e.quantity * e.trials)).sum * 2 ^ j :=
        mul_nonneg hrest hpos.le
      have : ((s + a * t : ℕ) : ℚ) < 2 ^ 53 := by linarith
      exact_mod_cast this
    have hat : a * t < 2 ^ 53 := by omega
    have hale : a ≤ a * t := Nat.le_mul_of_pos_right a ht1
    have htle : t ≤ a * t := Nat.le_mul_of_pos_left t ha1
    have hstep : (JsNum.fin ((s : ℚ) / 2 ^ j)).addDouble
        ((roundDouble e.quantity).mulDouble (roundDouble e.trials))
        = JsNum.fin (((s + a * t : ℕ) : ℚ) / 2 ^ j) := by
      rw [ha, ht, roundDouble_dyadic a j (by omega) hj, roundDouble_natCast t (by omega)]
      have hmul : (JsNum.fin ((a : ℚ) / 2 ^ j)).mulDouble (JsNum.fin (t : ℚ))
          = roundDouble (((a * t : ℕ) : ℚ) / 2 ^ j) := by
        show roundDouble ((a : ℚ) / 2 ^ j * (t : ℚ)) = _
        congr 1; push_cast; ring
      rw [hmul, roundDouble_dyadic _ j hat hj]
      show roundDouble ((s : ℚ) / 2 ^ j + ((a * t : ℕ) : ℚ) / 2 ^ j) = _
      have hsum : (s : ℚ) / 2 ^ j + ((a * t : ℕ) : ℚ) / 2 ^ j
          = ((s + a * t : ℕ) : ℚ) / 2 ^ j := by
        push_cast; ring
      rw [hsum, roundDouble_dyadic _ j hsat hj]
    rw [List.foldl_cons, hstep,
      ih (fun x hx => hdyadic x (List.mem_cons_of_mem _ hx)) (s + a * t)
        (by
          have h1 : (((s + a * t : ℕ) : ℚ) / 2 ^ j
              + (es.map (fun e => e.quantity * e.trials)).sum) * 2 ^ j
              = ((s : ℚ) / 2 ^ j + ((a : ℚ) / 2 ^ j * t
                + (es.map (fun e => e.quantity * e.trials)).sum)) * 2 ^ j := by
            push_cast; ring
          rw [h1]; exact hb),
      List.map_cons, List.sum_cons, ha, ht]
    congr 1
    push_cast
    ring

theorem roundDouble_three : roundDouble 3 = JsNum.fin 3 := by
  simpa using roundDouble_natCast 3 (by norm_num)

theorem roundDouble_nine : roundDouble 9 = JsNum.fin 9 := by
  simpa using roundDouble_natCast 9 (by norm_num)

/-- The double nearest to 0.1. -/
theorem roundDouble_tenth :
    roundDouble (1 / 10) = JsNum.fin (3602879701896397 / 36028797018963968) := by
  have hu : ulpExponent (1 / 10 : ℚ) = -4 - 52 :=
    ulpExponent_of_binade _ (-4) (by norm_num [abs_of_pos]) (by norm_num [abs_of_pos])
      (by norm_num)
  have hm : roundHalfEven ((1 / 10 : ℚ) / 2 ^ (-4 - 52 : ℤ)) = 7205759403792793 + 1 :=
    roundHalfEven_of_ceil _ _ (by norm_num) (by norm_num)
  rw [roundDouble_of_ulp _ _ _ (by norm_num) hu hm (by norm_num) (by norm_num)]
  norm_num

/-- The product 0.1 * 3 lies halfway between two doubles and goes to the even
one, 0.30000000000000004. -/
theorem mulDouble_tenth_three :
    (JsNum.fin (3602879701896397 / 36028797018963968)).mulDouble (JsNum.fin 3)
      = JsNum.fin (5404319552844596 / 18014398509481984) := by
  show roundDouble (3602879701896397 / 36028797018963968 * 3) = _
  have hu : ulpExponent (3602879701896397 / 36028797018963968 * 3 : ℚ) = -2 - 52 :=
    ulpExponent_of_binade _ (-2) (by norm_num [abs_of_pos]) (by norm_num [abs_of_pos])
      (by norm_num)
  have hm : roundHalfEven ((3602879701896397 / 36028797018963968 * 3 : ℚ) / 2 ^ (-2 - 52 : ℤ))
      = 5404319552844596 := by
    rw [roundHalfEven_tie _ 5404319552844595 (by norm_num)]
    norm_num
  rw [roundDouble_of_ulp _ _ _ (by norm_num) hu hm (by norm_num) (by norm_num)]
  norm_num

/-- The product 0.1 * 9 is rounded down to the double nearest to 0.9. -/
theorem mulDouble_tenth_nine :
    (JsNum.fin (3602879701896397 / 36028797018963968)).mulDouble (JsNum.fin 9)
      = JsNum.fin (8106479329266893 / 9007199254740992) := by
  show roundDouble (3602879701896397 / 36028797018963968 * 9) = _
  have hu : ulpExponent (3602879701896397 / 36028797018963968 * 9 : ℚ) = -1 - 52 :=
    ulpExponent_of_binade _ (-1) (by norm_num [abs_of_pos]) (by norm_num [abs_of_pos])
      (by norm_num)
  have hm : roundHalfEven ((3602879701896397 / 36028797018963968 * 9 : ℚ) / 2 ^ (-1 - 52 : ℤ))
      = 8106479329266893 :=
    roundHalfEven_of_floor _ _ (by norm_num) (by norm_num)
  rw [roundDouble_of_ulp _ _ _ (by norm_num) hu hm (by norm_num) (by norm_num)]
  norm_num

/-- The product 3 * 0.30000000000000004 is a double, 0.9000000000000001. -/
theorem mulDouble_three_sum :
    (JsNum.fin 3).mulDouble (JsNum.fin (5404319552844596 / 18014398509481984))
      = JsNum.fin (8106479329266894 / 9007199254740992) := by
  show roundDouble (3 * (5404319552844596 / 18014398509481984)) = _
  have hu : ulpExponent (3 * (5404319552844596 / 18014398509481984) : ℚ) = -1 - 52 :=
    ulpExponent_of_binade _ (-1) (by norm_num [abs_of_pos]) (by norm_num [abs_of_pos])
      (by norm_num)
  have hm : roundHalfEven ((3 * (5404319552844596 / 18014398509481984) : ℚ) / 2 ^ (-1 - 52 : ℤ))
      = 8106479329266894 :=
    roundHalfEven_of_floor _ _ (by norm_num) (by norm_num)
  rw [roundDouble_of_ulp _ _ _ (by norm_num) hu hm (by norm_num) (by norm_num)]
  norm_num

/-- Adding a double to 0 returns it: the sums of the two reduce calls. -/
theorem addDouble_zero_samples :
    (JsNum.fin 0).addDouble (JsNum.fin (5404319552844596 / 18014398509481984))
      = JsNum.fin (5404319552844596 / 18014398509481984) ∧
    (JsNum.fin 0).addDouble (JsNum.fin (8106479329266893 / 9007199254740992))
      = JsNum.fin (8106479329266893 / 9007199254740992) := by
  constructor
  · show roundDouble (0 + 5404319552844596 / 18014398509481984) = _
    have hu : ulpExponent (0 + 5404319552844596 / 18014398509481984 : ℚ) = -2 - 52 :=
      ulpExponent_of_binade _ (-2) (by norm_num [abs_of_pos]) (by norm_num [abs_of_pos])
        (by norm_num)
    have hm : roundHalfEven ((0 + 5404319552844596 / 18014398509481984 : ℚ) / 2 ^ (-2 - 52 : ℤ))
        = 5404319552844596 :=
      roundHalfEven_of_floor _ _ (by norm_num) (by norm_num)
    rw [roundDouble_of_ulp _ _ _ (by norm_num) hu hm (by norm_num) (by norm_num)]
    norm_num
  · show roundDouble (0 + 8106479329266893 / 9007199254740992) = _
    have hu : ulpExponent (0 + 8106479329266893 / 9007199254740992 : ℚ) = -1 - 52 :=
      ulpExponent_of_binade _ (-1) (by norm_num [abs_of_pos]) (by norm_num [abs_of_pos])
        (by norm_num)
    have hm : roundHalfEven ((0 + 8106479329266893 / 9007199254740992 : ℚ) / 2 ^ (-1 - 52 : ℤ))
        = 8106479329266893 :=
      roundHalfEven_of_floor _ _ (by norm_num) (by norm_num)
    rw [roundDouble_of_ulp _ _ _ (by norm_num) hu hm (by norm_num) (by norm_num)]
    norm_num

/-- Counterexample for C18: a consumable group used with quantity 0.1 in one
experiment of 3 trials requires 0.30000000000000004; with the trials tripled
to 9 it requires 0.9, which is not 3 times that, neither as the product
computed in binary64 (0.9000000000000001) nor as the exact product. -/
theorem trial_scaling_broken_by_rounding :
    tenthGroup.category = "consumable" ∧
    requiredQtyDouble tenthGroup = JsNum.fin (5404319552844596 / 18014398509481984) ∧
    requiredQtyDouble (scaleTrials 3 tenthGroup)
      = JsNum.fin (8106479329266893 / 9007199254740992) ∧
    (JsNum.fin 3).mulDouble (requiredQtyDouble tenthGroup)
      = JsNum.fin (8106479329266894 / 9007199254740992) ∧
    requiredQtyDouble (scaleTrials 3 tenthGroup)
      ≠ (JsNum.fin 3).mulDouble (requiredQtyDouble tenthGroup) ∧
    requiredQtyDouble (scaleTrials 3 tenthGroup) ≠ JsNum.fin 3 * requiredQtyDouble tenthGroup := by
  have h1 : requiredQtyDouble tenthGroup
      = JsNum.fin (5404319552844596 / 18014398509481984) := by
    show (JsNum.fin 0).addDouble ((roundDouble (1 / 10)).mulDouble (roundDouble 3)) = _
    rw [roundDouble_tenth, roundDouble_three, mulDouble_tenth_three, addDouble_zero_samples.1]
  have h2 : requiredQtyDouble (scaleTrials 3 tenthGroup)
      = JsNum.fin (8106479329266893 / 9007199254740992) := by
    show (JsNum.fin 0).addDouble ((roundDouble (1 / 10)).mulDouble (roundDouble (3 * 3))) = _
    have h9 : (3 * 3 : ℚ) = 9 := by norm_num
    rw [h9, roundDouble_tenth, roundDouble_nine, mulDouble_tenth_nine, addDouble_zero_samples.2]
  refine ⟨rfl, h1, h2, ?_, ?_, ?_⟩
  · rw [h1, mulDouble_three_sum]
  · rw [h2, h1, mulDouble_three_sum]
    intro h
    have := JsNum.fin.inj h
    norm_num at this
  · rw [h2, h1, JsNum.fin_mul_fin]
    intro h
    have := JsNum.fin.inj h
    norm_num at this

/-- Claim C18, amended: for a consumable or packing group whose quantities are
whole multiples of 2^-j for some j up to 1022 (whole numbers for j = 0,
halves for j = 1, and so on) and at least one such unit each, whose trials are
whole numbers of at least 1, and a whole factor k of at least 1 such that k
times the sum of quantity * trials stays below 2^53 units (so that no product
and no sum of the binary64 arithmetic is rounded), multiplying the trials of
every usage entry by k multiplies the required quantity of
renderCommonItemCard by k; for an equipment group, any other trials (same raw
quantities) leave the required quantity and every per-experiment quantity as
they were. -/
theorem trial_scaling_of_binary_fractions (item : ResultItem) :
    ((item.category = "consumable" ∨ item.category = "packing") →
      ∀ j : ℕ, j ≤ 1022 →
      (∀ e ∈ item.experiments,
        ∃ a t : ℕ, 1 ≤ a ∧ 1 ≤ t ∧ e.quantity = a / 2 ^ j ∧ e.trials = t) →
      ∀ k : ℕ, 1 ≤ k →
        (k : ℚ) * (item.experiments.map (fun e => e.quantity * e.trials)).sum * 2 ^ j
          < 2 ^ 53 →
        ∃ r : ℚ,
          requiredQtyDouble item = JsNum.fin r ∧
          requiredQtyDouble (scaleTrials k item) = JsNum.fin (k * r)) ∧
    (item.category = "non_consumable" →
      ∀ item2 : ResultItem, item2.category = "non_consumable" →
        item2.experiments.map (fun e => e.quantity) = item.experiments.map (fun e => e.quantity) →
        requiredQtyDouble item2 = requiredQtyDouble item ∧
        item2.experiments.map (usageQtyDouble item2.category)
          = item.experiments.map (usageQtyDouble item.category)) := by
  constructor
  · intro hcat j hj hdyadic k hk hb
    have hneq : item.category ≠ "non_consumable" := by
      rcases hcat with h | h <;> rw [h] <;> decide
    have hreq : ∀ it : ResultItem, it.category ≠ "non_consumable" →
        requiredQtyDouble it
          = it.experiments.foldl
              (fun sum e =>
                sum.addDouble ((roundDouble e.quantity).mulDouble (roundDouble e.trials)))
              (JsNum.fin (((0 : ℕ) : ℚ) / 2 ^ j)) := by
      intro it hit
      unfold requiredQtyDouble sumScaledDouble
      rw [if_neg hit, Nat.cast_zero, zero_div]
      split <;> rfl
    have hpos : (0 : ℚ) < 2 ^ j := by positivity
    have hnonneg := sum_dyadic_nonneg j item.experiments hdyadic
    have hk1 : (1 : ℚ) ≤ k := by exact_mod_cast hk
    have hle : (item.experiments.map (fun e => e.quantity * e.trials)).sum
        ≤ (k : ℚ) * (item.experiments.map (fun e => e.quantity * e.trials)).sum :=
      le_mul_of_one_le_left hnonneg hk1
    have hexp : (scaleTrials k item).experiments
        = item.experiments.map (fun e => ({ e with trials := k * e.trials } : ExpUsage)) := rfl
    have hdyadic2 : ∀ e ∈ (scaleTrials k item).experiments,
        ∃ a t : ℕ, 1 ≤ a ∧ 1 ≤ t ∧ e.quantity = a / 2 ^ j ∧ e.trials = t := by
      intro e he
      rw [hexp] at he
      obtain ⟨e0, he0, rfl⟩ := List.mem_map.mp he
      obtain ⟨a, t, ha1, ht1, ha, ht⟩ := hdyadic e0 he0
      refine ⟨a, k * t, ha1, Nat.one_le_iff_ne_zero.mpr (Nat.mul_ne_zero (by omega) (by omega)),
        ha, ?_⟩
      show (k : ℚ) * e0.trials = ((k * t : ℕ) : ℚ)
      rw [ht]; push_cast; rfl
    have hsum2 : ((scaleTrials k item).experiments.map (fun e => e.quantity * e.trials)).sum
        = (k : ℚ) * (item.experiments.map (fun e => e.quantity * e.trials)).sum := by
      rw [hexp, sum_scaled_trials]
    refine ⟨(item.experiments.map (fun e => e.quantity * e.trials)).sum, ?_, ?_⟩
    · rw [hreq item hneq, foldl_addDouble_dyadic j hj item.experiments hdyadic 0
        (by
          rw [Nat.cast_zero, zero_div, zero_add]
          exact lt_of_le_of_lt (mul_le_mul_of_nonneg_right hle hpos.le) hb),
        Nat.cast_zero, zero_div, zero_add]
    · rw [hreq (scaleTrials k item) hneq, foldl_addDouble_dyadic j hj _ hdyadic2 0
        (by rw [Nat.cast_zero, zero_div, zero_add, hsum2]; exact hb),
        Nat.cast_zero, zero_div, zero_add, hsum2]
  · intro hcat item2 hcat2 hq
    have hmap : ∀ es : List ExpUsage, es.map (fun e => roundDouble e.quantity)
        = (es.map (fun e => e.quantity)).map roundDouble := by
      intro es; simp [List.map_map, Function.comp]
    have husage : ∀ it : ResultItem, it.category = "non_consumable" →
        it.experiments.map (usageQtyDouble it.category)
          = it.experiments.map (fun e => roundDouble e.quantity) := by
      intro it hit
      apply List.map_congr_left
      intro e _
      simp [usageQtyDouble, hit]
    constructor
    · unfold requiredQtyDouble
      rw [if_pos hcat, if_pos hcat2, hmap, hmap, hq]
    · rw [husage item hcat, husage item2 hcat2, hmap, hmap, hq]

/-- Witness for C18 amended: tripling the trials of a consumable group used
with quantity 2.5 in an experiment of 2 trials triples its required quantity 5
in binary64, and the Beaker group with other trials still requires what it
required. -/
theorem trial_scaling_of_binary_fractions_witness :
    (halvesGroup.category = "consumable" ∨ halvesGroup.category = "packing") ∧
    (∀ e ∈ halvesGroup.experiments,
      ∃ a t : ℕ, 1 ≤ a ∧ 1 ≤ t ∧ e.quantity = a / 2 ^ 1 ∧ e.trials = t) ∧
    ((3 : ℕ) : ℚ) * (halvesGroup.experiments.map (fun e => e.quantity * e.trials)).sum * 2 ^ 1
      < 2 ^ 53 ∧
    requiredQtyDouble halvesGroup = JsNum.fin 5 ∧
    requiredQtyDouble (scaleTrials 3 halvesGroup) = JsNum.fin 15 ∧
    beakerGroup.category = "non_consumable" ∧
    requiredQtyDouble (scaleTrials 7 beakerGroup) = requiredQtyDouble beakerGroup := by
  have hdyadic : ∀ e ∈ halvesGroup.experiments,
      ∃ a t : ℕ, 1 ≤ a ∧ 1 ≤ t ∧ e.quantity = a / 2 ^ 1 ∧ e.trials = t := by
    intro e he
    have he2 : e = ⟨"A", 5 / 2, 2⟩ := by simpa [halvesGroup] using he
    exact ⟨5, 2, by norm_num, by norm_num, by rw [he2]; norm_num, by rw [he2]; norm_num⟩
  have hsum : (halvesGroup.experiments.map (fun e => e.quantity * e.trials)).sum = 5 := by
    norm_num [halvesGroup]
  have hb : ((3 : ℕ) : ℚ)
      * (halvesGroup.experiments.map (fun e => e.quantity * e.trials)).sum * 2 ^ 1
      < 2 ^ 53 := by
    rw [hsum]; norm_num
  obtain ⟨r, hr, hk⟩ :=
    (trial_scaling_of_binary_fractions halvesGroup).1 (Or.inl rfl) 1 (by norm_num) hdyadic 3
      (by norm_num) hb
  have h5 : requiredQtyDouble halvesGroup = JsNum.fin 5 := by
    have h0 : requiredQtyDouble halvesGroup
        = halvesGroup.experiments.foldl
            (fun sum e =>
              sum.addDouble ((roundDouble e.quantity).mulDouble (roundDouble e.trials)))
            (JsNum.fin (((0 : ℕ) : ℚ) / 2 ^ 1)) := by
      unfold requiredQtyDouble sumScaledDouble
      rw [if_neg (by decide), Nat.cast_zero, zero_div]
      split <;> rfl
    rw [h0, foldl_addDouble_dyadic 1 (by norm_num) halvesGroup.experiments hdyadic 0
      (by rw [hsum]; norm_num), hsum]
    norm_num
  have hr5 : r = 5 := by
    rw [h5] at hr
    exact (JsNum.fin.inj hr).symm
  have h3 : (((3 : ℕ) : ℚ)) = (3 : ℚ) := by norm_num
  rw [hr5, h3] at hk
  refine ⟨Or.inl rfl, hdyadic, hb, h5, ?_, rfl, ?_⟩
  · rw [hk]; norm_num
  · exact ((trial_scaling_of_binary_fractions beakerGroup).2 rfl (scaleTrials 7 beakerGroup) rfl
      (by simp [scaleTrials, List.map_map, Function.comp])).1

/-! ## The item-creation boundary -/

theorem JsNum.orElse_zero_le_zero (x : JsNum)
    (h : x.isNaN = true ∨ x.le (JsNum.fin 0) = true) :
    (x.orElse (JsNum.fin 0)).le (JsNum.fin 0) = true := by
  cases x with
  | nan => simp [JsNum.orElse, JsNum.le]
  | negInf => rfl
  | posInf => rcases h with h | h <;> simp [JsNum.isNaN, JsNum.le] at h
  | fin q =>
    by_cases hq : q = 0
    · simp [JsNum.orElse, hq, JsNum.le]
    · rcases h with h | h
      · simp [JsNum.isNaN] at h
      · simpa [JsNum.orElse, hq] using h

/-- The three guards both item dialogs start with. -/
theorem saveModalItem_guarded (parseFloat : String → JsNum) (trim toLowerCase : String → String)
    (confirmAnswer : Bool) (form : ItemForm) (st : State)
    (h : (readItemForm parseFloat trim form).name = "" ∨
      (readItemForm parseFloat trim form).quantity.le (JsNum.fin 0) = true ∨
      (readItemForm parseFloat trim form).price.le (JsNum.fin 0) = true) :
    saveModalItem parseFloat trim toLowerCase confirmAnswer form st
      = { st with effects := st.effects ++ [Effect.alert] } := by
  unfold saveModalItem
  by_cases h1 : (readItemForm parseFloat trim form).name = ""
  · simp only [h1, ↓reduceIte]
  · by_cases h2 : (readItemForm parseFloat trim form).quantity.le (JsNum.fin 0) = true
    · simp only [h1, h2, ↓reduceIte]
    · have h3 : (readItemForm parseFloat trim form).price.le (JsNum.fin 0) = true := by
        rcases h with h | h | h
        · exact absurd h h1
        · exact absurd h h2
        · exact h
      simp only [h1, h2, h3, Bool.false_eq_true, ↓reduceIte]

theorem saveItem_guarded (parseFloat : String → JsNum) (trim toLowerCase : String → String)
    (confirmAnswer : Bool) (form : ItemForm) (st : State)
    (h : (readItemForm parseFloat trim form).name = "" ∨
      (readItemForm parseFloat trim form).quantity.le (JsNum.fin 0) = true ∨
      (readItemForm parseFloat trim form).price.le (JsNum.fin 0) = true) :
    saveItem parseFloat trim toLowerCase confirmAnswer form st
      = { st with effects := st.effects ++ [Effect.alert] } := by
  unfold saveItem
  by_cases h1 : (readItemForm parseFloat trim form).name = ""
  · simp only [h1, ↓reduceIte]
  · by_cases h2 : (readItemForm parseFloat trim form).quantity.le (JsNum.fin 0) = true
    · simp only [h1, h2, ↓reduceIte]
    · have h3 : (readItemForm parseFloat trim form).price.le (JsNum.fin 0) = true := by
        rcases h with h | h | h
        · exact absurd h h1
        · exact absurd h h2
        · exact h
      simp only [h1, h2, h3, Bool.false_eq_true, ↓reduceIte]

/-- Claim C19: when the name of the form is empty after trimming, or its
quantity parses to NaN or to a value that is at most 0, or its price does,
saveModalItem leaves state.modalItems (and the index being edited) unchanged
and saveItem only shows an alert: its trace gains no add or update request. -/
theorem item_dialogs_reject_invalid (parseFloat : String → JsNum)
    (trim toLowerCase : String → String) (confirmAnswer : Bool) (form : ItemForm) (st : State)
    (hbad : trim form.itemName = "" ∨
      ((parseFloat form.itemQuantity).isNaN = true ∨
        (parseFloat form.itemQuantity).le (JsNum.fin 0) = true) ∨
      ((parseFloat form.itemPrice).isNaN = true ∨
        (parseFloat form.itemPrice).le (JsNum.fin 0) = true)) :
    (saveModalItem parseFloat trim toLowerCase confirmAnswer form st).modalItems
      = st.modalItems ∧
    (saveModalItem parseFloat trim toLowerCase confirmAnswer form st).modalItemsNullKey
      = st.modalItemsNullKey ∧
    (saveModalItem parseFloat trim toLowerCase confirmAnswer form st).modalEditingItemIndex
      = st.modalEditingItemIndex ∧
    (saveItem parseFloat trim toLowerCase confirmAnswer form st).effects
      = st.effects ++ [Effect.alert] ∧
    (saveItem parseFloat trim toLowerCase confirmAnswer form st).effects.filter
        Effect.isItemRequest
      = st.effects.filter Effect.isItemRequest := by
  have hguard : (readItemForm parseFloat trim form).name = "" ∨
      (readItemForm parseFloat trim form).quantity.le (JsNum.fin 0) = true ∨
      (readItemForm parseFloat trim form).price.le (JsNum.fin 0) = true := by
    rcases hbad with h | h | h
    · exact Or.inl h
    · exact Or.inr (Or.inl (JsNum.orElse_zero_le_zero _ h))
    · exact Or.inr (Or.inr (JsNum.orElse_zero_le_zero _ h))
  rw [saveModalItem_guarded parseFloat trim toLowerCase confirmAnswer form st hguard,
    saveItem_guarded parseFloat trim toLowerCase confirmAnswer form st hguard]
  refine ⟨rfl, rfl, rfl, rfl, ?_⟩
  simp [List.filter_append, Effect.isItemRequest]

/-- Witness for C19: the quantity "-1" and the empty price are both rejected
by both dialogs, even when the user would confirm. -/
theorem item_dialogs_reject_invalid_witness :
    (parseFloatSample formNegativeQuantity.itemQuantity).le (JsNum.fin 0) = true ∧
    (saveModalItem parseFloatSample String.trim String.toLower true formNegativeQuantity
      stateDialogs).modalItems = stateDialogs.modalItems ∧
    (parseFloatSample formNoPrice.itemPrice).isNaN = true ∧
    (saveItem parseFloatSample String.trim String.toLower true formNoPrice
      stateDialogs).effects = stateDialogs.effects ++ [Effect.alert] := by
  have hq : (parseFloatSample formNegativeQuantity.itemQuantity).le (JsNum.fin 0) = true := by
    have hp : parseFloatSample formNegativeQuantity.itemQuantity = JsNum.fin (-1) := rfl
    rw [hp]; simp [JsNum.le]
  exact ⟨hq,
    (item_dialogs_reject_invalid parseFloatSample String.trim String.toLower true
      formNegativeQuantity stateDialogs (Or.inr (Or.inl (Or.inr hq)))).1,
    rfl,
    (item_dialogs_reject_invalid parseFloatSample String.trim String.toLower true
      formNoPrice stateDialogs (Or.inr (Or.inr (Or.inl rfl)))).2.2.2.1⟩

/-! ## The trials of an experiment -/

/-- Claim C20: whatever the trials field holds, the trials saveExperiment
computes is an integer that is at least 1; it is the parsed integer when that
is at least 1, and 1 when the field parses to NaN or to an integer below 1;
the create and update requests carry that value. -/
theorem saveExperiment_trials_at_least_one (parseInt : String → Option ℤ) (value : String) :
    ∃ n : ℤ, saveExperimentTrials parseInt value = JsNum.fin (n : ℚ) ∧ 1 ≤ n ∧
      (∀ m : ℤ, parseInt value = some m → 1 ≤ m → n = m) ∧
      (∀ m : ℤ, parseInt value = some m → m < 1 → n = 1) ∧
      (parseInt value = none → n = 1) ∧
      (∀ (name category : String) (grade : List ℕ),
        (createExperimentBody name category (saveExperimentTrials parseInt value) grade).trials
          = JsNum.fin (n : ℚ) ∧
        (updateExperimentBody name category (saveExperimentTrials parseInt value) grade).trials
          = JsNum.fin (n : ℚ)) := by
  suffices h : ∃ n : ℤ, saveExperimentTrials parseInt value = JsNum.fin (n : ℚ) ∧ 1 ≤ n ∧
      (∀ m : ℤ, parseInt value = some m → 1 ≤ m → n = m) ∧
      (∀ m : ℤ, parseInt value = some m → m < 1 → n = 1) ∧
      (parseInt value = none → n = 1) by
    obtain ⟨n, h1, h2, h3, h4, h5⟩ := h
    exact ⟨n, h1, h2, h3, h4, h5, fun _ _ _ => ⟨h1, h1⟩⟩
  cases hp : parseInt value with
  | none =>
    refine ⟨1, ?_, le_refl _, ?_, ?_, fun _ => rfl⟩
    · simp [saveExperimentTrials, hp, JsNum.ofParsedInt, JsNum.orElse, JsNum.mathMax]
    · intro m hm; cases hm
    · intro m hm; cases hm
  | some m =>
    by_cases h0 : m = 0
    · refine ⟨1, ?_, le_refl _, ?_, ?_, fun h => by cases h⟩
      · simp [saveExperimentTrials, hp, JsNum.ofParsedInt, JsNum.orElse, JsNum.mathMax, h0]
      · intro m2 hm2 h1
        cases hm2
        omega
      · intro m2 _ _; rfl
    · refine ⟨max 1 m, ?_, le_max_left _ _, ?_, ?_, fun h => by cases h⟩
      · have hq : (m : ℚ) ≠ 0 := by exact_mod_cast h0
        simp [saveExperimentTrials, hp, JsNum.ofParsedInt, JsNum.orElse, JsNum.mathMax, hq]
      · intro m2 hm2 h1
        cases hm2
        exact max_eq_right h1
      · intro m2 hm2 h1
        cases hm2
        exact max_eq_left (by omega)

/-- Witness for C20: the field contents "", "abc", "0" and "-4" give 1, "2.7"
gives 2 and "5" gives 5. -/
theorem saveExperiment_trials_at_least_one_witness :
    saveExperimentTrials parseIntSample "" = JsNum.fin 1 ∧
    saveExperimentTrials parseIntSample "abc" = JsNum.fin 1 ∧
    saveExperimentTrials parseIntSample "0" = JsNum.fin 1 ∧
    saveExperimentTrials parseIntSample "-4" = JsNum.fin 1 ∧
    saveExperimentTrials parseIntSample "2.7" = JsNum.fin 2 ∧
    saveExperimentTrials parseIntSample "5" = JsNum.fin 5 := by
  have key : ∀ (value : String) (k : ℤ),
      (parseIntSample value = none ∧ k = 1) ∨
      (∃ m, parseIntSample value = some m ∧ ((1 ≤ m ∧ k = m) ∨ (m < 1 ∧ k = 1))) →
      saveExperimentTrials parseIntSample value = JsNum.fin (k : ℚ) := by
    intro value k hk
    obtain ⟨n, hn, _, hge, hlt, hnone, _⟩ :=
      saveExperiment_trials_at_least_one parseIntSample value
    rcases hk with ⟨h, rfl⟩ | ⟨m, hm, ⟨h1, rfl⟩ | ⟨h1, rfl⟩⟩
    · rw [hn, hnone h]
    · rw [hn, hge k hm h1]
    · rw [hn, hlt m hm h1]
  refine ⟨?_, ?_, ?_, ?_, ?_, ?_⟩
  · simpa using key "" 1 (Or.inl ⟨rfl, rfl⟩)
  · simpa using key "abc" 1 (Or.inl ⟨rfl, rfl⟩)
  · simpa using key "0" 1 (Or.inr ⟨0, rfl, Or.inr ⟨by decide, rfl⟩⟩)
  · simpa using key "-4" 1 (Or.inr ⟨-4, rfl, Or.inr ⟨by decide, rfl⟩⟩)
  · simpa using key "2.7" 2 (Or.inr ⟨2, rfl, Or.inl ⟨by decide, rfl⟩⟩)
  · simpa using key "5" 5 (Or.inr ⟨5, rfl, Or.inl ⟨by decide, rfl⟩⟩)

/-! ## Notices of the common card -/

theorem JsNum.lt_asymm (a b : JsNum) (h : a.lt b = true) : b.lt a = false := by
  cases a <;> cases b <;> simp_all [JsNum.lt]
  exact le_of_lt h

theorem JsNum.lt_irrefl (a : JsNum) : a.lt a = false := by
  cases a <;> simp [JsNum.lt]

/-- Claim C21: the card shows the warning "Less than required" exactly when
the quantity it costs is strictly below the required quantity, and the notice
"Buying extra" exactly when it is strictly above; never both, and neither when
the two are equal; the cost is that quantity times the price all the same. -/
theorem under_procurement_flagged (st : State) (item : ResultItem) :
    (renderCommonItemCard st item).lessThanRequired
      = JsNum.lt (renderCommonItemCard st item).displayQty
          (renderCommonItemCard st item).requiredQty ∧
    (renderCommonItemCard st item).buyingExtra
      = JsNum.lt (renderCommonItemCard st item).requiredQty
          (renderCommonItemCard st item).displayQty ∧
    ¬ ((renderCommonItemCard st item).lessThanRequired = true ∧
       (renderCommonItemCard st item).buyingExtra = true) ∧
    ((renderCommonItemCard st item).displayQty = (renderCommonItemCard st item).requiredQty →
      (renderCommonItemCard st item).lessThanRequired = false ∧
      (renderCommonItemCard st item).buyingExtra = false) ∧
    (renderCommonItemCard st item).displayCost
      = (renderCommonItemCard st item).displayQty * JsNum.fin item.price ∧
    (∀ d r : ℚ, (renderCommonItemCard st item).displayQty = JsNum.fin d →
      (renderCommonItemCard st item).requiredQty = JsNum.fin r →
      ((renderCommonItemCard st item).lessThanRequired = true ↔ d < r) ∧
      ((renderCommonItemCard st item).buyingExtra = true ↔ r < d)) := by
  have hextra : (renderCommonItemCard st item).buyingExtra
      = JsNum.lt (renderCommonItemCard st item).requiredQty
          (renderCommonItemCard st item).displayQty := rfl
  have hless0 : (renderCommonItemCard st item).lessThanRequired
      = (!(JsNum.lt (renderCommonItemCard st item).requiredQty
            (renderCommonItemCard st item).displayQty) &&
          JsNum.lt (renderCommonItemCard st item).displayQty
            (renderCommonItemCard st item).requiredQty) := rfl
  have hless : (renderCommonItemCard st item).lessThanRequired
      = JsNum.lt (renderCommonItemCard st item).displayQty
          (renderCommonItemCard st item).requiredQty := by
    rw [hless0]
    cases h : JsNum.lt (renderCommonItemCard st item).displayQty
        (renderCommonItemCard st item).requiredQty
    · simp
    · rw [JsNum.lt_asymm _ _ h]; rfl
  refine ⟨hless, hextra, ?_, ?_, rfl, ?_⟩
  · rintro ⟨h1, h2⟩
    rw [hless] at h1
    rw [hextra, JsNum.lt_asymm _ _ h1] at h2
    exact Bool.false_ne_true h2
  · intro heq
    rw [hless, hextra, heq]
    exact ⟨JsNum.lt_irrefl _, JsNum.lt_irrefl _⟩
  · intro d r hd hr
    rw [hless, hextra, hd, hr]
    simp [JsNum.lt]

/-- Witness for C21: with required quantity 20 at price 3, a stored 3 shows
the warning only and costs 9; a stored 25 shows the notice only. -/
theorem under_procurement_flagged_witness :
    (renderCommonItemCard stateAcidThree consumableOneExp).lessThanRequired = true ∧
    (renderCommonItemCard stateAcidThree consumableOneExp).buyingExtra = false ∧
    (renderCommonItemCard stateAcidThree consumableOneExp).displayCost = JsNum.fin 9 ∧
    (renderCommonItemCard stateAcidCommon consumableOneExp).buyingExtra = true ∧
    (renderCommonItemCard stateAcidCommon consumableOneExp).lessThanRequired = false := by
  have hreq : ∀ st : State, (renderCommonItemCard st consumableOneExp).requiredQty
      = JsNum.fin 20 := by
    intro st
    rw [requiredQty_scaled st consumableOneExp (by decide), sumScaled_eq]
    norm_num [consumableOneExp]
  have hd3 : (renderCommonItemCard stateAcidThree consumableOneExp).displayQty = JsNum.fin 3 :=
    rfl
  have hd25 : (renderCommonItemCard stateAcidCommon consumableOneExp).displayQty
      = JsNum.fin 25 := rfl
  have h3 := under_procurement_flagged stateAcidThree consumableOneExp
  have h25 := under_procurement_flagged stateAcidCommon consumableOneExp
  have a3 := h3.2.2.2.2.2 3 20 hd3 (hreq _)
  have a25 := h25.2.2.2.2.2 25 20 hd25 (hreq _)
  refine ⟨a3.1.mpr (by norm_num), ?_, ?_, a25.2.mpr (by norm_num), ?_⟩
  · cases hb : (renderCommonItemCard stateAcidThree consumableOneExp).buyingExtra
    · rfl
    · have := a3.2.mp hb; norm_num at this
  · rw [h3.2.2.2.2.1, hd3, JsNum.fin_mul_fin]; norm_num [consumableOneExp]
  · cases hb : (renderCommonItemCard stateAcidCommon consumableOneExp).lessThanRequired
    · rfl
    · have := a25.1.mp hb; norm_num at this

/-! ## Logout and the override maps -/

/-- Claim C22 (the code departs from it): a confirmed handleLogout empties the
selection, the experiments and the filters and resets the login state, but it
leaves state.itemUsageType and state.itemCustomQuantity as they were; the
overrides of stateAcidCommon are still there after the logout and are sent by
the first calculateCosts of the next session. -/
theorem handleLogout_keeps_overrides :
    (∀ st : State,
      (handleLogout true st).selectedExperiments = [] ∧
      (handleLogout true st).experiments = [] ∧
      (handleLogout true st).loginState.isLoggedIn = false ∧
      (handleLogout true st).itemUsageType = st.itemUsageType ∧
      (handleLogout true st).itemCustomQuantity = st.itemCustomQuantity) ∧
    (handleLogout true stateAcidCommon).itemUsageType.get "Salt" = some "common" ∧
    (handleLogout true stateAcidCommon).itemCustomQuantity.get "Acid" = some (JsNum.fin 25) ∧
    (∀ server : Server,
      (calcRequestOf (toggleExperiment server (handleLogout true stateAcidCommon) "A")
        ).item_usage_type.get "Salt" = some "common" ∧
      (calcRequestOf (toggleExperiment server (handleLogout true stateAcidCommon) "A")
        ).item_custom_quantity.get "Acid" = some (JsNum.fin 25)) := by
  refine ⟨fun st => ⟨rfl, rfl, rfl, rfl, rfl⟩, rfl, rfl, ?_⟩
  intro server
  constructor
  · show (toggleExperiment server (handleLogout true stateAcidCommon) "A").itemUsageType.get
      "Salt" = some "common"
    rw [toggleExperiment_itemUsageType]; rfl
  · show (toggleExperiment server (handleLogout true stateAcidCommon) "A"
      ).itemCustomQuantity.get "Acid" = some (JsNum.fin 25)
    rw [toggleExperiment_itemCustomQuantity]; rfl

/-! ## The action "Mark as Common" -/

/-- Counterexample for C25: the unique group "Acid" has exactly one experiment
in its usage list, and its card does not offer "Mark as Common". -/
theorem single_experiment_card_has_no_mark_as_common :
    acidGroup.experiments.length = 1 ∧
    (renderUniqueItemCard acidGroup).hasMultipleExps = false :=
  ⟨rfl, rfl⟩

/-- Claim C25, amended: renderUniqueItemCard offers "Mark as Common" exactly
for a unique group whose usage list has more than one experiment (the button
is rendered under hasMultipleExps); markAsCommon itself records "common" for
any key, without looking at the occurrence count. -/
theorem mark_as_common_offered_iff_multiple (item : ResultItem) :
    ((renderUniqueItemCard item).hasMultipleExps = true ↔ 1 < item.experiments.length) ∧
    (∀ (server : Server) (st : State) (k : String),
      (markAsCommon server st k).itemUsageType.get k = some "common") := by
  constructor
  · simp [renderUniqueItemCard]
  · intro server st k
    rw [markAsCommon_itemUsageType]
    exact JsMap.get_set_self _ _ _

/-- Witness for C25 amended: the card of an equipment group used in two
experiments offers the action, and markAsCommon records "common" for "Acid"
even without any results. -/
theorem mark_as_common_offered_iff_multiple_witness :
    1 < equipmentTwoExps.experiments.length ∧
    (renderUniqueItemCard equipmentTwoExps).hasMultipleExps = true ∧
    (markAsCommon serverDown initialState "Acid").itemUsageType.get "Acid" = some "common" :=
  ⟨by decide,
    (mark_as_common_offered_iff_multiple equipmentTwoExps).1.mpr (by decide),
    (mark_as_common_offered_iff_multiple equipmentTwoExps).2 serverDown initialState "Acid"⟩

/-! ## Row costs of a unique group -/

theorem sum_map_mul_price (es : List ExpUsage) (f : ExpUsage → ℚ) (price : ℚ) :
    (es.map (fun e => f e * price)).sum = (es.map f).sum * price := by
  induction es with
  | nil => simp
  | cons e es ih => simp only [List.map_cons, List.sum_cons, ih]; ring

/-- Claim C27: for every unique group, of any category, the row costs the
preview, the saved JSON and the two sheets list for its usage entries
(per-experiment quantity times price) are the same finite numbers, and their
sum is the cost totalQty * price of renderUniqueItemCard. -/
theorem unique_rows_sum_to_group_cost (item : ResultItem) :
    ∃ costs : List ℚ,
      item.experiments.map (previewUniqueCost item) = costs.map JsNum.fin ∧
      item.experiments.map (savePreviewUniqueCost item) = costs.map JsNum.fin ∧
      item.experiments.map (excelExperimentsUniqueCost item) = costs.map JsNum.fin ∧
      item.experiments.map (excelUniqueSheetCost item) = costs.map JsNum.fin ∧
      (renderUniqueItemCard item).totalCost = JsNum.fin costs.sum := by
  have hsheet : ∀ e, excelUniqueSheetCost item e = previewUniqueCost item e := by
    intro e
    unfold excelUniqueSheetCost previewUniqueCost excelUniqueSheetQty previewUniqueQty
    by_cases h : item.category = "non_consumable" <;> simp [h]
  have hcost : (renderUniqueItemCard item).totalCost
      = (renderUniqueItemCard item).totalQty * JsNum.fin item.price := rfl
  by_cases hcat : item.category = "non_consumable"
  · refine ⟨item.experiments.map (fun e => e.quantity * item.price), ?_, ?_, ?_, ?_, ?_⟩
    · rw [List.map_map]; apply List.map_congr_left; intro e _
      simp [previewUniqueCost, previewUniqueQty, hcat]
    · rw [List.map_map]; apply List.map_congr_left; intro e _
      simp [savePreviewUniqueCost, savePreviewUniqueQty, hcat]
    · rw [List.map_map]; apply List.map_congr_left; intro e _
      simp [excelExperimentsUniqueCost, excelExperimentsUniqueQty, hcat]
    · rw [List.map_map]; apply List.map_congr_left; intro e _
      rw [hsheet]; simp [previewUniqueCost, previewUniqueQty, hcat]
    · have hq : (renderUniqueItemCard item).totalQty = sumRaw item.experiments := by
        simp [renderUniqueItemCard, hcat]
      rw [hcost, hq, sumRaw_eq, JsNum.fin_mul_fin, sum_map_mul_price]
  · refine ⟨item.experiments.map (fun e => e.quantity * e.trials * item.price),
      ?_, ?_, ?_, ?_, ?_⟩
    · rw [List.map_map]; apply List.map_congr_left; intro e _
      simp [previewUniqueCost, previewUniqueQty, hcat]
    · rw [List.map_map]; apply List.map_congr_left; intro e _
      simp [savePreviewUniqueCost, savePreviewUniqueQty, hcat]
    · rw [List.map_map]; apply List.map_congr_left; intro e _
      simp [excelExperimentsUniqueCost, excelExperimentsUniqueQty, hcat]
    · rw [List.map_map]; apply List.map_congr_left; intro e _
      rw [hsheet]; simp [previewUniqueCost, previewUniqueQty, hcat]
    · have hq : (renderUniqueItemCard item).totalQty = sumScaled item.experiments := by
        simp [renderUniqueItemCard, hcat]
      rw [hcost, hq, sumScaled_eq, JsNum.fin_mul_fin,
        sum_map_mul_price item.experiments (fun e => e.quantity * e.trials)]

/-- Witness for C27: the rows of the Acid group cost 20 in all, the cost of
its card. -/
theorem unique_rows_sum_to_group_cost_witness :
    ∃ costs : List ℚ,
      acidGroup.experiments.map (excelUniqueSheetCost acidGroup) = costs.map JsNum.fin ∧
      (renderUniqueItemCard acidGroup).totalCost = JsNum.fin costs.sum ∧
      (renderUniqueItemCard acidGroup).totalCost = JsNum.fin 20 := by
  obtain ⟨costs, _, _, _, h4, h5⟩ := unique_rows_sum_to_group_cost acidGroup
  refine ⟨costs, h4, h5, ?_⟩
  have hcost : (renderUniqueItemCard acidGroup).totalCost
      = (renderUniqueItemCard acidGroup).totalQty * JsNum.fin acidGroup.price := rfl
  have hq : (renderUniqueItemCard acidGroup).totalQty = sumScaled acidGroup.experiments := rfl
  rw [hcost, hq, sumScaled_eq, JsNum.fin_mul_fin]
  norm_num [acidGroup]

/-! ## Category labels of the export -/

/-- Claim C29 (the code departs from it): the sheets "Common Items" and
"Unique Items" label a consumable item and an equipment item as the cards do,
but they label a packing item "Equipment", the label of non_consumable, where
both cards display "Packing Material". -/
theorem excel_category_label_of_packing :
    (∀ (st : State) (item : ResultItem),
      (item.category = "consumable" ∨ item.category = "non_consumable") →
      excelCommonCategoryLabel item = (renderCommonItemCard st item).categoryDisplay ∧
      excelUniqueCategoryLabel item = (renderUniqueItemCard item).categoryDisplay) ∧
    (∀ (st : State) (item : ResultItem), item.category = "packing" →
      excelCommonCategoryLabel item = "Equipment" ∧
      excelUniqueCategoryLabel item = "Equipment" ∧
      (renderCommonItemCard st item).categoryDisplay = "Packing Material" ∧
      (renderUniqueItemCard item).categoryDisplay = "Packing Material") := by
  constructor
  · intro st item hcat
    have hc : (renderCommonItemCard st item).categoryDisplay = categoryDisplay item.category :=
      rfl
    have hu : (renderUniqueItemCard item).categoryDisplay = categoryDisplay item.category := rfl
    rw [hc, hu]
    rcases hcat with h | h <;>
      simp [excelCommonCategoryLabel, excelUniqueCategoryLabel, categoryDisplay, h]
  · intro st item hcat
    have hc : (renderCommonItemCard st item).categoryDisplay = categoryDisplay item.category :=
      rfl
    have hu : (renderUniqueItemCard item).categoryDisplay = categoryDisplay item.category := rfl
    rw [hc, hu]
    simp [excelCommonCategoryLabel, excelUniqueCategoryLabel, categoryDisplay, hcat]

/-- Witness for C29: the packing item "Foil" is exported as "Equipment" and
displayed as "Packing Material"; the consumable "Acid" has one label. -/
theorem excel_category_label_of_packing_witness :
    packingGroup.category = "packing" ∧
    excelCommonCategoryLabel packingGroup = "Equipment" ∧
    (renderCommonItemCard initialState packingGroup).categoryDisplay = "Packing Material" ∧
    excelUniqueCategoryLabel acidGroup = (renderUniqueItemCard acidGroup).categoryDisplay :=
  ⟨rfl,
    (excel_category_label_of_packing.2 initialState packingGroup rfl).1,
    (excel_category_label_of_packing.2 initialState packingGroup rfl).2.2.1,
    (excel_category_label_of_packing.1 initialState acidGroup (Or.inl rfl)).2⟩

/-! ## Toggling the selection -/

theorem toggleExperiment_selection (server : Server) (st : State) (expId : String) :
    (toggleExperiment server st expId).selectedExperiments =
      if st.selectedExperiments.contains expId then
        st.selectedExperiments.filter (fun x => !(x == expId))
      else st.selectedExperiments ++ [expId] := by
  unfold toggleExperiment
  simp only [calculateCosts_selectedExperiments]
  split <;> rfl

theorem mem_toggle (sel : List String) (x y : String) :
    y ∈ (if sel.contains x then sel.filter (fun z => !(z == x)) else sel ++ [x]) ↔
      (if y = x then y ∉ sel else y ∈ sel) := by
  by_cases hx : sel.contains x = true
  · have hmem : x ∈ sel := by simpa using hx
    rw [if_pos hx, List.mem_filter]
    by_cases hy : y = x
    · subst hy; simp [hmem]
    · simp [hy]
  · have hmem : x ∉ sel := by simpa using hx
    rw [if_neg hx, List.mem_append, List.mem_singleton]
    by_cases hy : y = x
    · subst hy; simp [hmem]
    · simp [hy]

/-- Claim C30: toggleExperiment(x) changes the membership of x only (adds it
if absent, removes it if present), leaves state.itemUsageType and
state.itemCustomQuantity unchanged, and applying it twice gives back a
selection with the members of S (the very same list when x was absent). -/
theorem toggleExperiment_involution (server server2 : Server) (st : State) (x : String) :
    (∀ y : String, y ≠ x →
      (y ∈ (toggleExperiment server st x).selectedExperiments ↔ y ∈ st.selectedExperiments)) ∧
    (x ∈ (toggleExperiment server st x).selectedExperiments ↔ x ∉ st.selectedExperiments) ∧
    (toggleExperiment server st x).itemUsageType = st.itemUsageType ∧
    (toggleExperiment server st x).itemCustomQuantity = st.itemCustomQuantity ∧
    (∀ y : String,
      y ∈ (toggleExperiment server2 (toggleExperiment server st x) x).selectedExperiments ↔
        y ∈ st.selectedExperiments) ∧
    (x ∉ st.selectedExperiments →
      (toggleExperiment server2 (toggleExperiment server st x) x).selectedExperiments
        = st.selectedExperiments) ∧
    (st.selectedExperiments.Nodup → (toggleExperiment server st x).selectedExperiments.Nodup) := by
  have hmem : ∀ (sv : Server) (s : State) (y : String),
      y ∈ (toggleExperiment sv s x).selectedExperiments ↔
        (if y = x then y ∉ s.selectedExperiments else y ∈ s.selectedExperiments) := by
    intro sv s y
    rw [toggleExperiment_selection]
    exact mem_toggle _ _ _
  refine ⟨?_, ?_, toggleExperiment_itemUsageType _ _ _,
    toggleExperiment_itemCustomQuantity _ _ _, ?_, ?_, ?_⟩
  · intro y hy
    rw [hmem, if_neg hy]
  · rw [hmem, if_pos rfl]
  · intro y
    rw [hmem]
    by_cases hy : y = x
    · rw [if_pos hy, hmem, if_pos hy]; exact not_not
    · rw [if_neg hy, hmem, if_neg hy]
  · intro hx
    have h1 : (toggleExperiment server st x).selectedExperiments
        = st.selectedExperiments ++ [x] := by
      rw [toggleExperiment_selection, if_neg (by simpa using hx)]
    rw [toggleExperiment_selection, h1, if_pos (by simp)]
    rw [List.filter_append]
    have hkeep : st.selectedExperiments.filter (fun z => !(z == x)) = st.selectedExperiments := by
      rw [List.filter_eq_self]
      intro z hz
      have : z ≠ x := fun h => hx (h ▸ hz)
      simpa using this
    rw [hkeep]
    simp
  · intro hnd
    rw [toggleExperiment_selection]
    by_cases hx : st.selectedExperiments.contains x = true
    · rw [if_pos hx]; exact hnd.filter _
    · rw [if_neg hx]
      have hmem : x ∉ st.selectedExperiments := by simpa using hx
      rw [List.nodup_append]
      refine ⟨hnd, List.nodup_singleton _, ?_⟩
      intro z hz hz2
      rw [List.mem_singleton] at hz2
      exact hmem (hz2 ▸ hz)

/-- Witness for C30: toggling "B" off and on again in stateAcidCommon keeps
the members A and B; toggling "C" on and off gives back the same list. -/
theorem toggleExperiment_involution_witness :
    "C" ∉ stateAcidCommon.selectedExperiments ∧
    (toggleExperiment serverDown (toggleExperiment serverDown stateAcidCommon "C") "C"
      ).selectedExperiments = ["A", "B"] ∧
    ("B" ∈ (toggleExperiment serverDown stateAcidCommon "B").selectedExperiments ↔
      "B" ∉ stateAcidCommon.selectedExperiments) := by
  have hC : "C" ∉ stateAcidCommon.selectedExperiments := by decide
  exact ⟨hC,
    (toggleExperiment_involution serverDown serverDown stateAcidCommon "C").2.2.2.2.2.1 hC,
    (toggleExperiment_involution serverDown serverDown stateAcidCommon "B").2.1⟩

/-! ## The coupling invariant -/

theorem updateCustomQuantity_itemUsageType (parseFloat : String → JsNum) (server : Server)
    (st : State) (itemId value : String) :
    (updateCustomQuantity parseFloat server st itemId value).itemUsageType
      = st.itemUsageType := by
  unfold updateCustomQuantity
  simp only
  split
  · rw [calculateCosts_itemUsageType]
    split
    · split <;> rfl
    · rfl
  · rfl

theorem updateCustomQuantity_get_of_ne (parseFloat : String → JsNum) (server : Server)
    (st : State) (itemId value k : String) (hk : k ≠ itemId) :
    (updateCustomQuantity parseFloat server st itemId value).itemCustomQuantity.get k
      = st.itemCustomQuantity.get k := by
  cases hnan : (parseFloat value).isNaN with
  | true => rw [updateCustomQuantity_rejected parseFloat server st itemId value (Or.inl hnan)]
  | false =>
    cases hge : (parseFloat value).ge (JsNum.fin 0) with
    | false => rw [updateCustomQuantity_rejected parseFloat server st itemId value (Or.inr hge)]
    | true =>
      rw [updateCustomQuantity_accepted parseFloat server st itemId value hnan hge]
      cases findCommonItem st itemId with
      | none => exact JsMap.get_set_of_ne _ _ _ _ hk
      | some commonItem =>
        simp only
        split
        · exact JsMap.get_set_of_ne _ _ _ _ hk
        · exact JsMap.get_delete_of_ne _ _ _ hk

theorem step_coupling (parseFloat : String → JsNum) (st : State) (call : Server × Op)
    (hinv : CouplingInvariant st) (hok : CallAllowed st call) :
    CouplingInvariant (step parseFloat st call) := by
  obtain ⟨server, op⟩ := call
  cases op with
  | updateCustomQuantity itemId value =>
    intro k hk
    have hk2 : st.itemUsageType.get k = some "unique" := by
      have h := hk
      simp only [step] at h
      rw [updateCustomQuantity_itemUsageType] at h
      exact h
    have hne : k ≠ itemId := by
      intro heq
      exact hok (heq ▸ hk2)
    show (updateCustomQuantity parseFloat server st itemId value).itemCustomQuantity.get k = none
    rw [updateCustomQuantity_get_of_ne parseFloat server st itemId value k hne]
    exact hinv k hk2
  | markAsUnique itemId =>
    intro k hk
    show (markAsUnique server st itemId).itemCustomQuantity.get k = none
    rw [markAsUnique_itemCustomQuantity]
    by_cases heq : k = itemId
    · rw [heq]; exact JsMap.get_delete_self _ _
    · rw [JsMap.get_delete_of_ne _ _ _ heq]
      apply hinv
      have h : (markAsUnique server st itemId).itemUsageType.get k = some "unique" := hk
      rw [markAsUnique_itemUsageType, JsMap.get_set_of_ne _ _ _ _ heq] at h
      exact h
  | markAsCommon itemId =>
    intro k hk
    show (markAsCommon server st itemId).itemCustomQuantity.get k = none
    rw [markAsCommon_itemCustomQuantity]
    have h : (markAsCommon server st itemId).itemUsageType.get k = some "unique" := hk
    rw [markAsCommon_itemUsageType] at h
    by_cases heq : k = itemId
    · rw [heq, JsMap.get_set_self] at h
      exact absurd (Option.some.inj h) (by decide)
    · rw [JsMap.get_set_of_ne _ _ _ _ heq] at h
      exact hinv k h
  | toggleExperiment expId =>
    intro k hk
    show (toggleExperiment server st expId).itemCustomQuantity.get k = none
    rw [toggleExperiment_itemCustomQuantity]
    have h : (toggleExperiment server st expId).itemUsageType.get k = some "unique" := hk
    rw [toggleExperiment_itemUsageType] at h
    exact hinv k h

theorem run_coupling (parseFloat : String → JsNum) (calls : List (Server × Op)) (st : State)
    (hinv : CouplingInvariant st) (hok : RunAllowed parseFloat st calls) :
    CouplingInvariant (run parseFloat st calls) := by
  induction calls generalizing st with
  | nil => exact hinv
  | cons call calls ih =>
    exact ih (step parseFloat st call) (step_coupling parseFloat st call hinv hok.1) hok.2

/-- Counterexample for C23: from the initial state (both maps empty, no
results), markAsUnique("Salt") followed by updateCustomQuantity("Salt", "3")
leaves "Salt" with a "unique" entry and with the custom quantity 3. -/
theorem coupling_broken_by_updateCustomQuantity :
    initialState.itemUsageType = JsMap.empty ∧
    initialState.itemCustomQuantity = JsMap.empty ∧
    (run parseFloatSample initialState
      [(serverDown, Op.markAsUnique "Salt"),
       (serverDown, Op.updateCustomQuantity "Salt" "3")]).itemUsageType.get "Salt"
      = some "unique" ∧
    (run parseFloatSample initialState
      [(serverDown, Op.markAsUnique "Salt"),
       (serverDown, Op.updateCustomQuantity "Salt" "3")]).itemCustomQuantity.get "Salt"
      = some (JsNum.fin 3) ∧
    ¬ CouplingInvariant (run parseFloatSample initialState
      [(serverDown, Op.markAsUnique "Salt"),
       (serverDown, Op.updateCustomQuantity "Salt" "3")]) := by
  have hp : parseFloatSample "3" = JsNum.fin 3 := rfl
  have hrun : run parseFloatSample initialState
      [(serverDown, Op.markAsUnique "Salt"), (serverDown, Op.updateCustomQuantity "Salt" "3")]
      = updateCustomQuantity parseFloatSample serverDown
          (markAsUnique serverDown initialState "Salt") "Salt" "3" := rfl
  have husage : (updateCustomQuantity parseFloatSample serverDown
      (markAsUnique serverDown initialState "Salt") "Salt" "3").itemUsageType.get "Salt"
      = some "unique" := by
    rw [updateCustomQuantity_itemUsageType, markAsUnique_itemUsageType]
    exact JsMap.get_set_self _ _ _
  have hcustom : (updateCustomQuantity parseFloatSample serverDown
      (markAsUnique serverDown initialState "Salt") "Salt" "3").itemCustomQuantity.get "Salt"
      = some (JsNum.fin 3) := by
    rw [updateCustomQuantity_accepted parseFloatSample serverDown _ "Salt" "3" rfl
      (by rw [hp]; simp [JsNum.ge, JsNum.le])]
    have hf : findCommonItem (markAsUnique serverDown initialState "Salt") "Salt" = none := rfl
    rw [hf]
    simp only
    rw [JsMap.get_set_self, hp]
  rw [hrun]
  refine ⟨rfl, rfl, husage, hcustom, ?_⟩
  intro hinv
  have := hinv "Salt" husage
  rw [hcustom] at this
  exact absurd this (by simp)

/-- Claim C23, amended: in every state reached from empty override maps by a
sequence of
updateCustomQuantity, markAsUnique, markAsCommon and toggleExperiment calls in
which updateCustomQuantity is never called for a key that is marked "unique"
at that moment, no key has both a "unique" entry in state.itemUsageType and an
entry in state.itemCustomQuantity (an empty itemUsageType is all the start
needs). -/
theorem coupling_invariant_of_allowed_runs (parseFloat : String → JsNum) (st : State)
    (calls : List (Server × Op))
    (husage : st.itemUsageType = JsMap.empty)
    (hallowed : RunAllowed parseFloat st calls) :
    CouplingInvariant (run parseFloat st calls) := by
  apply run_coupling parseFloat calls st _ hallowed
  intro k hk
  rw [husage] at hk
  simp [JsMap.get, JsMap.empty] at hk

/-- Witness for C23 amended: storing 3 for "Salt" first and marking it unique
afterwards is an allowed run from the initial state; it ends with "Salt"
unique and without custom quantity. -/
theorem coupling_invariant_of_allowed_runs_witness :
    initialState.itemUsageType = JsMap.empty ∧
    RunAllowed parseFloatSample initialState
      [(serverDown, Op.updateCustomQuantity "Salt" "3"), (serverDown, Op.markAsUnique "Salt")] ∧
    CouplingInvariant (run parseFloatSample initialState
      [(serverDown, Op.updateCustomQuantity "Salt" "3"),
       (serverDown, Op.markAsUnique "Salt")]) := by
  have hok : RunAllowed parseFloatSample initialState
      [(serverDown, Op.updateCustomQuantity "Salt" "3"),
       (serverDown, Op.markAsUnique "Salt")] := by
    refine ⟨?_, trivial, trivial⟩
    show initialState.itemUsageType.get "Salt" ≠ some "unique"
    simp [initialState, JsMap.get, JsMap.empty]
  exact ⟨rfl, hok, coupling_invariant_of_allowed_runs parseFloatSample initialState _ rfl hok⟩

/-! ## The item list of the experiment dialog -/

theorem JsNum.orElse_zero_isNaN (x : JsNum) : (x.orElse (JsNum.fin 0)).isNaN = false := by
  cases x with
  | nan => rfl
  | negInf => rfl
  | posInf => rfl
  | fin q =>
    by_cases hq : q = 0
    · simp [JsNum.orElse, hq, JsNum.isNaN]
    · simp [JsNum.orElse, hq, JsNum.isNaN]

theorem JsNum.pos_of_not_le_zero (x : JsNum) (hnan : x.isNaN = false)
    (hle : x.le (JsNum.fin 0) = false) : JsNum.lt (JsNum.fin 0) x = true := by
  cases x with
  | nan => simp [JsNum.isNaN] at hnan
  | negInf => simp [JsNum.le] at hle
  | posInf => rfl
  | fin q =>
    simp only [JsNum.le, decide_eq_false_iff_not, not_le] at hle
    simp [JsNum.lt, hle]

theorem mem_arrayAssign {α : Type} (slots : List (Option α)) (i : ℕ) (v x : α)
    (h : some x ∈ arrayAssign slots i v) : some x ∈ slots ∨ x = v := by
  unfold arrayAssign at h
  split at h
  · rcases List.mem_or_eq_of_mem_set h with h1 | h1
    · exact Or.inl h1
    · exact Or.inr (Option.some.inj h1)
  · rw [List.mem_append, List.mem_append] at h
    rcases h with (h1 | h1) | h1
    · exact Or.inl h1
    · exact absurd (List.eq_of_mem_replicate h1) (by simp)
    · exact Or.inr (Option.some.inj (List.mem_singleton.mp h1))

/-- What saveModalItem does to the list: nothing, or one assignment of an
item built from the form, after all four guards have let the form pass. -/
theorem saveModalItem_cases (parseFloat : String → JsNum) (trim toLowerCase : String → String)
    (confirmAnswer : Bool) (form : ItemForm) (st : State) :
    (saveModalItem parseFloat trim toLowerCase confirmAnswer form st).modalItems
        = st.modalItems ∨
    (∃ (idx : ℕ) (newItem : ModalItem),
      st.modalEditingItemIndex = some idx ∧
      (readItemForm parseFloat trim form).name ≠ "" ∧
      (readItemForm parseFloat trim form).quantity.le (JsNum.fin 0) = false ∧
      (readItemForm parseFloat trim form).price.le (JsNum.fin 0) = false ∧
      modalIsDuplicate toLowerCase st (readItemForm parseFloat trim form).name = false ∧
      newItem.name = (readItemForm parseFloat trim form).name ∧
      newItem.quantity = (readItemForm parseFloat trim form).quantity ∧
      newItem.price = (readItemForm parseFloat trim form).price ∧
      (saveModalItem parseFloat trim toLowerCase confirmAnswer form st).modalItems
        = arrayAssign st.modalItems idx newItem) := by
  unfold saveModalItem
  by_cases h1 : (readItemForm parseFloat trim form).name = ""
  · left; simp only [h1, ↓reduceIte]
  by_cases h2 : (readItemForm parseFloat trim form).quantity.le (JsNum.fin 0) = true
  · left; simp only [h1, h2, ↓reduceIte]
  by_cases h3 : (readItemForm parseFloat trim form).price.le (JsNum.fin 0) = true
  · left; simp only [h1, h2, h3, Bool.false_eq_true, ↓reduceIte]
  by_cases h4 : modalIsDuplicate toLowerCase st (readItemForm parseFloat trim form).name = true
  · left; simp only [h1, h2, h3, h4, Bool.false_eq_true, ↓reduceIte]
  simp only [h1, h2, h3, h4, Bool.false_eq_true, ↓reduceIte]
  split
  · left; rfl
  · split
    · left; rfl
    · cases hidx : st.modalEditingItemIndex with
      | none => left; rfl
      | some idx =>
        right
        exact ⟨idx, _, rfl, h1, trivial, trivial, trivial,
          rfl, rfl, rfl, rfl⟩

theorem saveModalItem_written_valid (parseFloat : String → JsNum) (trim : String → String)
    (form : ItemForm) (newItem : ModalItem)
    (hname : (readItemForm parseFloat trim form).name ≠ "")
    (hq : (readItemForm parseFloat trim form).quantity.le (JsNum.fin 0) = false)
    (hp : (readItemForm parseFloat trim form).price.le (JsNum.fin 0) = false)
    (h1 : newItem.name = (readItemForm parseFloat trim form).name)
    (h2 : newItem.quantity = (readItemForm parseFloat trim form).quantity)
    (h3 : newItem.price = (readItemForm parseFloat trim form).price) :
    newItem.Valid := by
  refine ⟨by rw [h1]; exact hname, ?_, ?_⟩
  · rw [h2]
    exact JsNum.pos_of_not_le_zero _ (JsNum.orElse_zero_isNaN _) hq
  · rw [h3]
    exact JsNum.pos_of_not_le_zero _ (JsNum.orElse_zero_isNaN _) hp

theorem openModalItemDialog_modalItems (st : State) (index : ℕ) :
    (openModalItemDialog st index).modalItems = st.modalItems := by
  unfold openModalItemDialog
  split <;> rfl

theorem addItemToModal_modalItems (now : ℕ) (st : State) :
    (addItemToModal now st).modalItems = st.modalItems ++
      [some { id := some ("ITM_TEMP_" ++ toString now), name := "", quantity := JsNum.fin 1,
              unit := "ml", price := JsNum.fin 0, category := "consumable" }] := by
  unfold addItemToModal
  simp only [openModalItemDialog_modalItems]

/-- Every element of the list is a line item or an unsaved blank element. -/
theorem modalStep_valid_or_placeholder (parseFloat : String → JsNum)
    (trim toLowerCase : String → String) (st : State) (op : ModalOp)
    (hinv : ∀ item : ModalItem, some item ∈ st.modalItems → item.Valid ∨ item.IsPlaceholder) :
    ∀ item : ModalItem, some item ∈ (modalStep parseFloat trim toLowerCase st op).modalItems →
      item.Valid ∨ item.IsPlaceholder := by
  intro item hmem
  cases op with
  | addItemToModal now =>
    have h : some item ∈ (addItemToModal now st).modalItems := hmem
    rw [addItemToModal_modalItems, List.mem_append, List.mem_singleton] at h
    rcases h with h | h
    · exact hinv item h
    · right
      rw [Option.some.inj h]
      exact ⟨rfl, rfl, rfl, rfl, rfl⟩
  | editModalItem index =>
    have h : some item ∈ (editModalItem index st).modalItems := hmem
    unfold editModalItem at h
    rw [openModalItemDialog_modalItems] at h
    exact hinv item h
  | saveModalItem confirmAnswer form =>
    have h : some item ∈
        (saveModalItem parseFloat trim toLowerCase confirmAnswer form st).modalItems := hmem
    rcases saveModalItem_cases parseFloat trim toLowerCase confirmAnswer form st with
      hsame | ⟨idx, newItem, _, hname, hq, hp, _, h1, h2, h3, hassign⟩
    · rw [hsame] at h
      exact hinv item h
    · rw [hassign] at h
      rcases mem_arrayAssign _ _ _ _ h with h | h
      · exact hinv item h
      · left
        rw [h]
        exact saveModalItem_written_valid parseFloat trim form newItem hname hq hp h1 h2 h3
  | deleteModalItem confirmAnswer index =>
    have h : some item ∈ (deleteModalItem confirmAnswer index st).modalItems := hmem
    unfold deleteModalItem at h
    split at h
    · exact hinv item (List.mem_of_mem_eraseIdx h)
    · exact hinv item h

theorem modalRun_valid_or_placeholder (parseFloat : String → JsNum)
    (trim toLowerCase : String → String) (ops : List ModalOp) (st : State)
    (hinv : ∀ item : ModalItem, some item ∈ st.modalItems → item.Valid ∨ item.IsPlaceholder) :
    ∀ item : ModalItem, some item ∈ (modalRun parseFloat trim toLowerCase st ops).modalItems →
      item.Valid ∨ item.IsPlaceholder := by
  induction ops generalizing st with
  | nil => exact hinv
  | cons op ops ih =>
    exact ih (modalStep parseFloat trim toLowerCase st op)
      (modalStep_valid_or_placeholder parseFloat trim toLowerCase st op hinv)

/-- From an empty list, one addItemToModal leaves an element with an empty
name and price 0 in state.modalItems. -/
theorem addItemToModal_pushes_blank :
    initialState.modalItems = [] ∧
    (modalRun parseFloatSample String.trim String.toLower initialState
      [ModalOp.addItemToModal 0]).modalItems
      = [some { id := some "ITM_TEMP_0", name := "", quantity := JsNum.fin 1, unit := "ml",
                price := JsNum.fin 0, category := "consumable" }] ∧
    ¬ (∀ item : ModalItem,
        some item ∈ (modalRun parseFloatSample String.trim String.toLower initialState
          [ModalOp.addItemToModal 0]).modalItems → item.Valid) := by
  have hrun : (modalRun parseFloatSample String.trim String.toLower initialState
      [ModalOp.addItemToModal 0]).modalItems
      = [some { id := some "ITM_TEMP_0", name := "", quantity := JsNum.fin 1, unit := "ml",
                price := JsNum.fin 0, category := "consumable" }] := by
    show (addItemToModal 0 initialState).modalItems = _
    rw [addItemToModal_modalItems]
    rfl
  refine ⟨rfl, hrun, ?_⟩
  intro hall
  have hv := hall _ (by rw [hrun]; exact List.mem_singleton.mpr rfl)
  exact hv.1 rfl

/-- In every state reached from an empty state.modalItems by any sequence of
addItemToModal, editModalItem, saveModalItem and deleteModalItem, an element
of state.modalItems that has not a non-empty name, quantity > 0 and price > 0
(every element saveModalItem writes has them) can only be the blank element of
addItemToModal (name "", quantity 1, unit "ml", price 0, category
"consumable"). -/
theorem modalItems_valid_or_placeholder (parseFloat : String → JsNum)
    (trim toLowerCase : String → String) (st : State) (ops : List ModalOp)
    (hempty : st.modalItems = []) :
    ∀ item : ModalItem, some item ∈ (modalRun parseFloat trim toLowerCase st ops).modalItems →
      item.Valid ∨ item.IsPlaceholder := by
  apply modalRun_valid_or_placeholder
  intro item hmem
  rw [hempty] at hmem
  simp at hmem

/-- After adding a blank element and saving the form "Salt" over it, every
element is a line item or a blank element. -/
theorem modalItems_valid_or_placeholder_witness :
    initialState.modalItems = [] ∧
    ∀ item : ModalItem,
      some item ∈ (modalRun parseFloatSample String.trim String.toLower initialState
        [ModalOp.addItemToModal 0, ModalOp.saveModalItem true formSalt]).modalItems →
      item.Valid ∨ item.IsPlaceholder :=
  ⟨rfl, modalItems_valid_or_placeholder parseFloatSample String.trim String.toLower
    initialState _ rfl⟩

/-- Claim C24 (the code departs from it): the blank element addItemToModal
pushes (name "", price 0) stays in state.modalItems when the item dialog is
closed without saving, since closeModal("itemModal") does not touch the list;
createExperimentWithItems then posts it as a line item, though it has neither
a name nor a price above 0 and saveModalItem would have refused it. -/
theorem blank_item_submitted :
    (∀ (now : ℕ) (st : State),
      some { id := some ("ITM_TEMP_" ++ toString now), name := "", quantity := JsNum.fin 1,
             unit := "ml", price := JsNum.fin 0, category := "consumable" }
        ∈ (closeModal "itemModal" (addItemToModal now st)).modalItems) ∧
    (closeModal "itemModal" (addItemToModal 0 initialState)).modalItems
      = [some { id := some "ITM_TEMP_0", name := "", quantity := JsNum.fin 1, unit := "ml",
                price := JsNum.fin 0, category := "consumable" }] ∧
    (createExperimentWithItems (some "EXP_1")
        (closeModal "itemModal" (addItemToModal 0 initialState))).effects
      = [Effect.showModal, Effect.closeModal,
         Effect.addItemRequest "EXP_1"
           { name := "", quantity := JsNum.fin 1, unit := "ml", price := JsNum.fin 0,
             category := "consumable" }] ∧
    ¬ ModalItem.Valid { id := some "ITM_TEMP_0", name := "", quantity := JsNum.fin 1,
                        unit := "ml", price := JsNum.fin 0, category := "consumable" } ∧
    (∀ (parseFloat : String → JsNum) (toLowerCase : String → String) (confirmAnswer : Bool)
      (st : State),
      saveModalItem parseFloat trimSample toLowerCase confirmAnswer formBlank st
        = { st with effects := st.effects ++ [Effect.alert] }) := by
  have hlist : ∀ (now : ℕ) (st : State),
      (closeModal "itemModal" (addItemToModal now st)).modalItems
        = st.modalItems ++
          [some { id := some ("ITM_TEMP_" ++ toString now), name := "", quantity := JsNum.fin 1,
                  unit := "ml", price := JsNum.fin 0, category := "consumable" }] := by
    intro now st
    have h : (closeModal "itemModal" (addItemToModal now st)).modalItems
        = (addItemToModal now st).modalItems := by
      simp [closeModal]
    rw [h, addItemToModal_modalItems]
  have hid : "ITM_TEMP_" ++ toString 0 = "ITM_TEMP_0" := by decide
  refine ⟨?_, ?_, ?_, ?_, ?_⟩
  · intro now st
    rw [hlist]
    exact List.mem_append_right _ (List.mem_singleton.mpr rfl)
  · rw [hlist, hid]; rfl
  · have heff : (closeModal "itemModal" (addItemToModal 0 initialState)).effects
        = [Effect.showModal, Effect.closeModal] := by
      simp [closeModal, addItemToModal, openModalItemDialog, initialState]
    show (closeModal "itemModal" (addItemToModal 0 initialState)).effects
      ++ createItemRequests "EXP_1"
          (closeModal "itemModal" (addItemToModal 0 initialState)).modalItems
      = _
    rw [heff, hlist, hid]
    rfl
  · intro h
    exact h.1 rfl
  · intro parseFloat toLowerCase confirmAnswer st
    exact saveModalItem_guarded parseFloat trimSample toLowerCase confirmAnswer formBlank st
      (Or.inl rfl)

/-! ## Duplicate names in the item list -/

theorem get?_arrayAssign_self {α : Type} (slots : List (Option α)) (i : ℕ) (v : α) :
    (arrayAssign slots i v).get? i = some (some v) := by
  unfold arrayAssign
  rw [List.get?_eq_getElem?]
  split
  · rename_i h
    rw [List.getElem?_set]
    simp [h]
  · rename_i h
    have hlen : (slots ++ List.replicate (i - slots.length) none).length = i := by
      rw [List.length_append, List.length_replicate]; omega
    rw [List.getElem?_append_right (by rw [hlen]), hlen]
    simp

theorem get?_arrayAssign_of_ne {α : Type} (slots : List (Option α)) (i j : ℕ) (v a : α)
    (hne : j ≠ i) (h : (arrayAssign slots i v).get? j = some (some a)) :
    slots.get? j = some (some a) := by
  unfold arrayAssign at h
  rw [List.get?_eq_getElem?] at h ⊢
  split at h
  · rw [List.getElem?_set] at h
    rw [if_neg (fun heq => hne heq.symm)] at h
    exact h
  · rename_i hi
    have hlen : (slots ++ List.replicate (i - slots.length) none).length = i := by
      rw [List.length_append, List.length_replicate]; omega
    by_cases hj : j < slots.length
    · rw [List.append_assoc, List.getElem?_append_left hj] at h
      exact h
    · by_cases hji : j < i
      · rw [List.getElem?_append_left (by rw [hlen]; exact hji),
          List.getElem?_append_right (by omega), List.getElem?_replicate] at h
        split at h <;> simp at h
      · rw [List.getElem?_append_right (by rw [hlen]; omega), hlen] at h
        have hpos : j - i ≠ 0 := by omega
        cases hk : j - i with
        | zero => exact absurd hk hpos
        | succ k => rw [hk] at h; simp at h

/-- The duplicate test is true exactly when an element at an index other than
the edited one has the submitted name ignoring case. -/
theorem modalIsDuplicate_iff (toLowerCase : String → String) (st : State) (name : String) :
    modalIsDuplicate toLowerCase st name = true ↔
      ∃ (i : ℕ) (item : ModalItem), st.modalItems.get? i = some (some item) ∧
        some i ≠ st.modalEditingItemIndex ∧ toLowerCase item.name = toLowerCase name := by
  unfold modalIsDuplicate
  rw [List.any_eq_true]
  constructor
  · rintro ⟨⟨i, slot⟩, hmem, hp⟩
    rw [List.mk_mem_enum_iff_getElem?] at hmem
    cases slot with
    | none => simp at hp
    | some item =>
      simp only at hp
      by_cases hidx : some i = st.modalEditingItemIndex
      · simp [hidx] at hp
      · rw [if_neg hidx] at hp
        exact ⟨i, item, by rw [List.get?_eq_getElem?]; exact hmem, hidx, by simpa using hp⟩
  · rintro ⟨i, item, hget, hidx, hname⟩
    refine ⟨(i, some item), ?_, ?_⟩
    · rw [List.mk_mem_enum_iff_getElem?, ← List.get?_eq_getElem?]; exact hget
    · simp only
      rw [if_neg hidx]
      simpa using hname

/-- Claim C26: when an element of state.modalItems at an index other than the
one being edited has the submitted name ignoring case, saveModalItem leaves
state.modalItems unchanged; the duplicate test never counts the element at
the edited index; and if the non-empty names of the list are pairwise distinct
ignoring case before a call, they are so after it. -/
theorem saveModalItem_rejects_duplicates (parseFloat : String → JsNum)
    (trim toLowerCase : String → String) (confirmAnswer : Bool) (form : ItemForm) (st : State) :
    ((∃ (i : ℕ) (item : ModalItem), st.modalItems.get? i = some (some item) ∧
        some i ≠ st.modalEditingItemIndex ∧
        toLowerCase item.name = toLowerCase (trim form.itemName)) →
      (saveModalItem parseFloat trim toLowerCase confirmAnswer form st).modalItems
        = st.modalItems) ∧
    (modalIsDuplicate toLowerCase st (trim form.itemName) = true ↔
      ∃ (i : ℕ) (item : ModalItem), st.modalItems.get? i = some (some item) ∧
        some i ≠ st.modalEditingItemIndex ∧
        toLowerCase item.name = toLowerCase (trim form.itemName)) ∧
    (NamesDistinct toLowerCase st.modalItems →
      NamesDistinct toLowerCase
        (saveModalItem parseFloat trim toLowerCase confirmAnswer form st).modalItems) := by
  have hname : (readItemForm parseFloat trim form).name = trim form.itemName := rfl
  refine ⟨?_, modalIsDuplicate_iff toLowerCase st _, ?_⟩
  · intro hdup
    rcases saveModalItem_cases parseFloat trim toLowerCase confirmAnswer form st with
      hsame | ⟨idx, newItem, _, _, _, _, hnodup, _, _, _, _⟩
    · exact hsame
    · rw [hname] at hnodup
      have := (modalIsDuplicate_iff toLowerCase st _).mpr hdup
      rw [hnodup] at this
      exact absurd this (by decide)
  · intro hdist
    rcases saveModalItem_cases parseFloat trim toLowerCase confirmAnswer form st with
      hsame | ⟨idx, newItem, hidx, _, _, _, hnodup, hnew, _, _, hassign⟩
    · rw [hsame]; exact hdist
    · rw [hassign]
      have hother : ∀ (j : ℕ) (b : ModalItem), j ≠ idx → st.modalItems.get? j = some (some b) →
          toLowerCase b.name ≠ toLowerCase newItem.name := by
        intro j b hj hb heq
        have hdup := (modalIsDuplicate_iff toLowerCase st
          (readItemForm parseFloat trim form).name).mpr
          ⟨j, b, hb, by rw [hidx]; exact fun h => hj (Option.some.inj h), by rw [← hnew]; exact heq⟩
        rw [hnodup] at hdup
        exact absurd hdup (by decide)
      intro i j a b hij ha hb hna hnb
      by_cases hi : i = idx
      · have hj : j ≠ idx := fun h => hij (hi.trans h.symm)
        rw [hi, get?_arrayAssign_self] at ha
        have ha2 : newItem = a := Option.some.inj (Option.some.inj ha)
        have hb2 := get?_arrayAssign_of_ne _ _ _ _ _ hj hb
        rw [← ha2]
        exact fun h => hother j b hj hb2 h.symm
      · have ha2 := get?_arrayAssign_of_ne _ _ _ _ _ hi ha
        by_cases hj : j = idx
        · rw [hj, get?_arrayAssign_self] at hb
          have hb2 : newItem = b := Option.some.inj (Option.some.inj hb)
          rw [← hb2]
          exact hother i a hi ha2
        · have hb2 := get?_arrayAssign_of_ne _ _ _ _ _ hj hb
          exact hdist i j a b hij ha2 hb2 hna hnb

/-- Witness for C26: with "Acid" at index 0 and index 1 being edited, the
name "ACID" is a duplicate and the list stays as it was. -/
theorem saveModalItem_rejects_duplicates_witness :
    (∃ (i : ℕ) (item : ModalItem), stateTwoModalItems.modalItems.get? i = some (some item) ∧
      some i ≠ stateTwoModalItems.modalEditingItemIndex ∧
      toLowerCaseSample item.name = toLowerCaseSample (trimSample formAcidUpper.itemName)) ∧
    (saveModalItem parseFloatSample trimSample toLowerCaseSample true formAcidUpper
      stateTwoModalItems).modalItems = stateTwoModalItems.modalItems := by
  have hdup : ∃ (i : ℕ) (item : ModalItem),
      stateTwoModalItems.modalItems.get? i = some (some item) ∧
      some i ≠ stateTwoModalItems.modalEditingItemIndex ∧
      toLowerCaseSample item.name = toLowerCaseSample (trimSample formAcidUpper.itemName) :=
    ⟨0, ⟨some "ITM_1", "Acid", JsNum.fin 5, "ml", JsNum.fin 2, "consumable"⟩, rfl,
      by decide, by decide⟩
  exact ⟨hdup,
    (saveModalItem_rejects_duplicates parseFloatSample trimSample toLowerCaseSample true
      formAcidUpper stateTwoModalItems).1 hdup⟩

/-! ## Item changes of an edited experiment -/

theorem JsNum.strictNe_eq_false_iff (a b : JsNum) (ha : a.isNaN = false) :
    JsNum.strictNe a b = false ↔ a = b := by
  unfold JsNum.strictNe
  constructor
  · intro h
    simp only [Bool.or_eq_false_iff, decide_eq_false_iff_not, not_not] at h
    exact h.2
  · intro h
    subst h
    simp [ha]

theorem hasItemChanges_eq_false_iff (o n : ModalItem)
    (hq : o.quantity.isNaN = false) (hp : o.price.isNaN = false) :
    hasItemChanges o n = false ↔
      o.name = n.name ∧ o.quantity = n.quantity ∧ o.unit = n.unit ∧ o.price = n.price ∧
        o.category = n.category := by
  unfold hasItemChanges
  simp only [Bool.or_eq_false_iff, decide_eq_false_iff_not, not_not,
    JsNum.strictNe_eq_false_iff _ _ hq, JsNum.strictNe_eq_false_iff _ _ hp]
  tauto

theorem find_id_isNone_iff (l : List ModalItem) (x : Option String) :
    (l.find? (fun o => o.id == x)).isNone = true ↔ ∀ o ∈ l, o.id ≠ x := by
  rw [Option.isNone_iff_eq_none, List.find?_eq_none]
  constructor
  · intro h o ho heq
    exact h o ho (by simp [heq])
  · intro h o ho hp
    exact h o ho (by simpa using hp)

theorem find_id_of_nodup (l : List ModalItem) (hnd : (l.map (fun o => o.id)).Nodup)
    (o : ModalItem) (ho : o ∈ l) :
    l.find? (fun o2 => o2.id == o.id) = some o := by
  induction l with
  | nil => simp at ho
  | cons a l ih =>
    rw [List.map_cons, List.nodup_cons] at hnd
    rw [List.find?_cons]
    rcases List.mem_cons.mp ho with rfl | ho
    · simp
    · have hne : a.id ≠ o.id := by
        intro heq
        exact hnd.1 (List.mem_map.mpr ⟨o, ho, heq.symm⟩)
      have hb : (a.id == o.id) = false := by simpa using hne
      rw [hb]
      exact ih hnd.2 ho

theorem detectItemChanges_hasChanges_false_iff (oldItems newItems : List ModalItem) :
    (detectItemChanges oldItems newItems).hasChanges = false ↔
      (detectItemChanges oldItems newItems).added = [] ∧
      (detectItemChanges oldItems newItems).removed = [] ∧
      (detectItemChanges oldItems newItems).modified = [] := by
  have h : (detectItemChanges oldItems newItems).hasChanges
      = (!(detectItemChanges oldItems newItems).added.isEmpty ||
          !(detectItemChanges oldItems newItems).removed.isEmpty ||
          !(detectItemChanges oldItems newItems).modified.isEmpty) := rfl
  rw [h]
  simp only [Bool.or_eq_false_iff, Bool.not_eq_false', List.isEmpty_iff]
  tauto

theorem detectItemChanges_added_nil_iff (oldItems newItems : List ModalItem) :
    (detectItemChanges oldItems newItems).added = [] ↔
      ∀ n ∈ newItems, ∃ o ∈ oldItems, o.id = n.id := by
  have h : (detectItemChanges oldItems newItems).added
      = newItems.filter (fun newItem =>
          (oldItems.find? (fun old => old.id == newItem.id)).isNone) := rfl
  rw [h, List.filter_eq_nil_iff]
  constructor
  · intro hall n hn
    have := hall n hn
    rw [find_id_isNone_iff] at this
    push_neg at this
    exact this
  · intro hall n hn
    rw [find_id_isNone_iff]
    push_neg
    exact hall n hn

theorem detectItemChanges_removed_nil_iff (oldItems newItems : List ModalItem) :
    (detectItemChanges oldItems newItems).removed = [] ↔
      ∀ o ∈ oldItems, ∃ n ∈ newItems, n.id = o.id := by
  have h : (detectItemChanges oldItems newItems).removed
      = oldItems.filter (fun oldItem =>
          (newItems.find? (fun n => n.id == oldItem.id)).isNone) := rfl
  rw [h, List.filter_eq_nil_iff]
  constructor
  · intro hall o ho
    have := hall o ho
    rw [find_id_isNone_iff] at this
    push_neg at this
    exact this
  · intro hall o ho
    rw [find_id_isNone_iff]
    push_neg
    exact hall o ho

theorem detectItemChanges_modified_nil_iff (oldItems newItems : List ModalItem)
    (hnd : (oldItems.map (fun o => o.id)).Nodup) :
    (detectItemChanges oldItems newItems).modified = [] ↔
      ∀ o ∈ oldItems, ∀ n ∈ newItems, o.id = n.id → hasItemChanges o n = false := by
  have h : (detectItemChanges oldItems newItems).modified
      = newItems.filterMap (fun newItem =>
          match oldItems.find? (fun old => old.id == newItem.id) with
          | some oldItem =>
            if hasItemChanges oldItem newItem then
              some { name := newItem.name, changes := itemChangesOf oldItem newItem }
            else none
          | none => none) := rfl
  rw [h, List.filterMap_eq_nil_iff]
  constructor
  · intro hall o ho n hn hid
    have hfind : oldItems.find? (fun old => old.id == n.id) = some o := by
      rw [← hid]; exact find_id_of_nodup oldItems hnd o ho
    have := hall n hn
    rw [hfind] at this
    simp only at this
    cases hc : hasItemChanges o n
    · rfl
    · rw [hc] at this; simp at this
  · intro hall n hn
    cases hfind : oldItems.find? (fun old => old.id == n.id) with
    | none => rfl
    | some o =>
      have ho : o ∈ oldItems := List.mem_of_find?_eq_some hfind
      have hid : o.id = n.id := by simpa using List.find?_some hfind
      simp only [hall o ho n hn hid, Bool.false_eq_true, ↓reduceIte]

/-- Claim C28: for item lists in which the ids of the old list are pairwise
distinct and its quantities and prices are numbers (not NaN),
detectItemChanges reports hasChanges false if and only if the two lists have
the same ids and, for each id, equal name, quantity, unit, price and category;
and detectItemChanges(xs, xs) reports no changes and three empty lists. -/
theorem detectItemChanges_no_changes_iff (oldItems newItems : List ModalItem)
    (hnd : (oldItems.map (fun o => o.id)).Nodup)
    (hnum : ∀ o ∈ oldItems, o.quantity.isNaN = false ∧ o.price.isNaN = false) :
    ((detectItemChanges oldItems newItems).hasChanges = false ↔
      (∀ n ∈ newItems, ∃ o ∈ oldItems, o.id = n.id) ∧
      (∀ o ∈ oldItems, ∃ n ∈ newItems, n.id = o.id) ∧
      (∀ o ∈ oldItems, ∀ n ∈ newItems, o.id = n.id →
        o.name = n.name ∧ o.quantity = n.quantity ∧ o.unit = n.unit ∧ o.price = n.price ∧
          o.category = n.category)) ∧
    detectItemChanges oldItems oldItems
      = { hasChanges := false, added := [], removed := [], modified := [] } := by
  have hiff : ∀ newItems : List ModalItem,
      (detectItemChanges oldItems newItems).hasChanges = false ↔
      (∀ n ∈ newItems, ∃ o ∈ oldItems, o.id = n.id) ∧
      (∀ o ∈ oldItems, ∃ n ∈ newItems, n.id = o.id) ∧
      (∀ o ∈ oldItems, ∀ n ∈ newItems, o.id = n.id →
        o.name = n.name ∧ o.quantity = n.quantity ∧ o.unit = n.unit ∧ o.price = n.price ∧
          o.category = n.category) := by
    intro newItems
    rw [detectItemChanges_hasChanges_false_iff, detectItemChanges_added_nil_iff,
      detectItemChanges_removed_nil_iff, detectItemChanges_modified_nil_iff _ _ hnd]
    constructor
    · rintro ⟨h1, h2, h3⟩
      refine ⟨h1, h2, fun o ho n hn hid => ?_⟩
      exact (hasItemChanges_eq_false_iff o n (hnum o ho).1 (hnum o ho).2).mp (h3 o ho n hn hid)
    · rintro ⟨h1, h2, h3⟩
      refine ⟨h1, h2, fun o ho n hn hid => ?_⟩
      exact (hasItemChanges_eq_false_iff o n (hnum o ho).1 (hnum o ho).2).mpr (h3 o ho n hn hid)
  refine ⟨hiff newItems, ?_⟩
  have hself : (detectItemChanges oldItems oldItems).hasChanges = false := by
    rw [hiff oldItems]
    refine ⟨fun n hn => ⟨n, hn, rfl⟩, fun o ho => ⟨o, ho, rfl⟩, ?_⟩
    intro o ho n hn hid
    have h1 := find_id_of_nodup oldItems hnd o ho
    have h2 := find_id_of_nodup oldItems hnd n hn
    rw [hid, h2] at h1
    rw [Option.some.inj h1]
    exact ⟨rfl, rfl, rfl, rfl, rfl⟩
  obtain ⟨ha, hr, hm⟩ := (detectItemChanges_hasChanges_false_iff oldItems oldItems).mp hself
  have hstruct : detectItemChanges oldItems oldItems
      = { hasChanges := (detectItemChanges oldItems oldItems).hasChanges
          added := (detectItemChanges oldItems oldItems).added
          removed := (detectItemChanges oldItems oldItems).removed
          modified := (detectItemChanges oldItems oldItems).modified } := rfl
  rw [hstruct, hself, ha, hr, hm]

/-- Witness for C28: the list of "Acid" and "Salt" compared with itself
reports no change. -/
theorem detectItemChanges_no_changes_iff_witness :
    (itemsAcidSalt.map (fun o => o.id)).Nodup ∧
    (∀ o ∈ itemsAcidSalt, o.quantity.isNaN = false ∧ o.price.isNaN = false) ∧
    detectItemChanges itemsAcidSalt itemsAcidSalt
      = { hasChanges := false, added := [], removed := [], modified := [] } := by
  have hnd : (itemsAcidSalt.map (fun o => o.id)).Nodup := by decide
  have hnum : ∀ o ∈ itemsAcidSalt, o.quantity.isNaN = false ∧ o.price.isNaN = false := by
    intro o ho
    simp only [itemsAcidSalt, List.mem_cons, List.mem_singleton, List.not_mem_nil,
      or_false] at ho
    rcases ho with rfl | rfl <;> exact ⟨rfl, rfl⟩
  exact ⟨hnd, hnum, (detectItemChanges_no_changes_iff itemsAcidSalt itemsAcidSalt hnd hnum).2⟩

end LabProcurement
